import Mathlib

/-!
# hifi voxel client: VoxelSystem and OctreeRenderer

A shallow embedding of `interface/src/VoxelSystem.cpp` and
`libraries/octree/src/OctreeRenderer.cpp`, followed by theorems about it.

Conventions of the embedding:

* `float`, `double` and `GLfloat` values are exact rationals (no rounding, no NaN);
* raw arrays (`GLfloat*`, `GLubyte*`, `bool*`) are total functions from the index;
  bounds are stated separately where they matter;
* a `VoxelNode*` is the node it points to; a function that mutates a node or the
  `VoxelSystem` returns the new value;
* calls into code that is not part of the source files (`VoxelTree`, the GPU, the
  decoder) are appended, in call order, to a trace of `Event`s.
-/

namespace Hifi

/-! ## Scalars, vectors, colours -/

abbrev GLfloat := ℚ
abbrev GLubyte := Nat
abbrev glBufferIndex := Nat

/-- The type glm::vec3, three float components; `get` is `operator[]`. -/
structure vec3 where
  x : ℚ
  y : ℚ
  z : ℚ
deriving DecidableEq

def vec3.get (v : vec3) (i : Nat) : ℚ :=
  match i with
  | 0 => v.x
  | 1 => v.y
  | _ => v.z

/-- The type nodeColor, `unsigned char[4]`; `get` is `operator[]`. -/
structure nodeColor where
  red : Nat
  green : Nat
  blue : Nat
  alpha : Nat
deriving DecidableEq

def nodeColor.get (c : nodeColor) (i : Nat) : Nat :=
  match i with
  | 0 => c.red
  | 1 => c.green
  | 2 => c.blue
  | _ => c.alpha

/-- The constant FLT_MAX of `<cfloat>` (IEEE single precision). -/
def FLT_MAX : ℚ := 340282346638528859811704183484516925440

/-- Modelled from the spec: constant of VoxelConstants.h, which is not among the source
files ("up to 8 child slots"). -/
def NUMBER_OF_CHILDREN : Nat := 8

/-- Modelled from the spec: constant of VoxelConstants.h, which is not among the source
files; the 24 vertices per voxel are the rows of `identityVertices`. -/
def VERTICES_PER_VOXEL : Nat := 24

/-- Modelled from the spec: constant of VoxelConstants.h, which is not among the source
files; three floats per vertex, the length of `identityVertices`. -/
def VERTEX_POINTS_PER_VOXEL : Nat := 3 * VERTICES_PER_VOXEL

def identityVertices : List ℚ :=
  [ 0,0,0, 1,0,0, 1,1,0, 0,1,0, 0,0,1, 1,0,1, 1,1,1, 0,1,1,
    0,0,0, 1,0,0, 1,1,0, 0,1,0, 0,0,1, 1,0,1, 1,1,1, 0,1,1,
    0,0,0, 1,0,0, 1,1,0, 0,1,0, 0,0,1, 1,0,1, 1,1,1, 0,1,1 ]

def identityNormals : List ℚ :=
  [ 0,0,-1, 0,0,-1, 0,0,-1, 0,0,-1,
    0,0,1, 0,0,1, 0,0,1, 0,0,1,
    0,-1,0, 0,-1,0, 0,1,0, 0,1,0,
    0,-1,0, 0,-1,0, 0,1,0, 0,1,0,
    -1,0,0, 1,0,0, 1,0,0, -1,0,0,
    -1,0,0, 1,0,0, 1,0,0, -1,0,0 ]

def identityIndices : List Nat :=
  [ 0,2,1,    0,3,2,    -- Z-
    8,9,13,   8,13,12,  -- Y-
    16,23,19, 16,20,23, -- X-
    17,18,22, 17,22,21, -- X+
    10,11,15, 10,15,14, -- Y+
    4,5,6,    4,6,7 ]   -- Z+

/-! ## Nodes and the tree -/

/-- Modelled from the spec: the per-node state of VoxelNode (the class is not among the
source files): "implicit cube (corner + scale ...), an optional color (present/absent flag
+ 3 channels), a dirty flag, a cached render-decision flag, an optional buffer-slot index
(unknown sentinel when not yet placed), a staged-for-deletion flag". The octal code is the
node's path, its identity in the tree; `bufferIndex = none` is GLBUFFER_INDEX_UNKNOWN. -/
structure NodeData where
  octalCode : List Nat
  corner : vec3
  scale : ℚ
  level : Int
  colored : Bool
  color : nodeColor
  dirty : Bool
  shouldRender : Bool
  bufferIndex : Option glBufferIndex
  stagedForDeletion : Bool
deriving DecidableEq

/-- A node with its child slots (`_children[i]` for `i < NUMBER_OF_CHILDREN`, a null
pointer being `none`), slot 0 first; a loop over `i` visits the slots in list order. -/
inductive VoxelNode where
  | mk (data : NodeData) (children : List (Option VoxelNode)) : VoxelNode

def VoxelNode.data : VoxelNode → NodeData
  | .mk d _ => d

def VoxelNode.children : VoxelNode → List (Option VoxelNode)
  | .mk _ cs => cs

/-- The sentinel GLBUFFER_INDEX_UNKNOWN. -/
def GLBUFFER_INDEX_UNKNOWN : Option glBufferIndex := none

namespace NodeData

def isColored (d : NodeData) : Bool := d.colored
def getLevel (d : NodeData) : Int := d.level
def getCorner (d : NodeData) : vec3 := d.corner
def getScale (d : NodeData) : ℚ := d.scale
def getColor (d : NodeData) : nodeColor := d.color
def isDirty (d : NodeData) : Bool := d.dirty
def getShouldRender (d : NodeData) : Bool := d.shouldRender
def isStagedForDeletion (d : NodeData) : Bool := d.stagedForDeletion
def getOctalCode (d : NodeData) : List Nat := d.octalCode
def isKnownBufferIndex (d : NodeData) : Bool := d.bufferIndex.isSome
def getBufferIndex (d : NodeData) : glBufferIndex := d.bufferIndex.getD 0
def setBufferIndex (d : NodeData) (i : Option glBufferIndex) : NodeData :=
  { d with bufferIndex := i }
def clearDirtyBit (d : NodeData) : NodeData := { d with dirty := false }

/-- Modelled from the spec: VoxelNode::setShouldRender stores the render decision; a node
whose decision changes becomes dirty ("dirty ... whenever any render-relevant node
attribute changes"). -/
def setShouldRender (d : NodeData) (shouldRender : Bool) : NodeData :=
  if shouldRender != d.shouldRender then
    { d with shouldRender := shouldRender, dirty := true }
  else d

end NodeData

/-- A node is a leaf when none of its child slots is occupied. -/
def isLeafSlots (children : List (Option VoxelNode)) : Bool :=
  children.all Option.isNone

def VoxelNode.isLeaf (n : VoxelNode) : Bool := isLeafSlots n.children

/-- Modelled from the spec: the part of VoxelTree that VoxelSystem reads: the root node
and the aggregate dirty bit. -/
structure VoxelTree where
  rootNode : VoxelNode
  isDirty : Bool

/-- Modelled from the spec: the camera frustum as the frustum provider hands it out;
`matches` compares the parameters. -/
structure ViewFrustum where
  params : List ℚ
deriving DecidableEq

def ViewFrustum.matches (a b : ViewFrustum) : Bool := decide (a = b)

/-- The enum ViewFrustum::location. -/
inductive location where
  | OUTSIDE
  | INTERSECT
  | INSIDE
deriving DecidableEq

/-- Calls that leave the source files, in the order they are made (`inFrustum` with the
classification it returned), and the start of a derivation with the mode
setupNewVoxelsForDrawing reports for it ("newTreeToArrays() _writeRenderFullVBO=..."). -/
inductive Event where
  | readBitstreamToTree (numBytes : Int) (wantColor : Bool)
  | eraseAllVoxels
  | newTreeToArrays (writeRenderFullVBO : Bool)
  | deleteVoxelCodeFromTree (octalCode : List Nat)
  | deleteNode (octalCode : List Nat)
  | updateVBOSegment (segmentStart segmentEnd : Nat)
  | inFrustum (octalCode : List Nat) (result : location)
deriving DecidableEq

/-- Modelled from the spec: VoxelNodeBag, a collection of node pointers; a node is
identified by its octal code. -/
abbrev VoxelNodeBag := List VoxelNode

namespace VoxelNodeBag

def contains (bag : VoxelNodeBag) (node : VoxelNode) : Bool :=
  bag.any (fun n => decide (n.data.octalCode = node.data.octalCode))

def insert (bag : VoxelNodeBag) (node : VoxelNode) : VoxelNodeBag :=
  if contains bag node then bag else bag ++ [node]

def remove (bag : VoxelNodeBag) (node : VoxelNode) : VoxelNodeBag :=
  bag.filter (fun n => !decide (n.data.octalCode = node.data.octalCode))

def isEmpty (bag : VoxelNodeBag) : Bool := List.isEmpty bag

def count (bag : VoxelNodeBag) : Nat := List.length bag

end VoxelNodeBag

/-! ## The VoxelSystem object -/

structure VoxelSystem where
  _maxVoxels : Nat
  _tree : VoxelTree
  _writeVerticesArray : Nat → ℚ
  _writeColorsArray : Nat → Nat
  _writeVoxelDirtyArray : Nat → Bool
  _readVerticesArray : Nat → ℚ
  _readColorsArray : Nat → Nat
  _readVoxelDirtyArray : Nat → Bool
  _voxelsInWriteArrays : Nat
  _voxelsInReadArrays : Nat
  _voxelsUpdated : Nat
  _voxelsDirty : Bool
  _writeRenderFullVBO : Bool
  _readRenderFullVBO : Bool
  _callsToTreesToArrays : Nat
  _setupNewVoxelsForDrawingLastFinished : ℚ
  _setupNewVoxelsForDrawingLastElapsed : ℚ
  _lastViewCulling : ℚ
  _lastViewCullingElapsed : ℚ
  _lastStableViewFrustum : ViewFrustum
  _removedVoxels : VoxelNodeBag
  trace : List Event

/-- What the surrounding application supplies: the current camera frustum, geometry
helpers of VoxelNode and VoxelSystem whose bodies are not among the source files, the
decoder, and constants of headers that are not among the source files. -/
structure Env where
  viewFrustum : ViewFrustum
  distanceToCamera : NodeData → ViewFrustum → ℚ
  boundaryDistanceForRenderLevel : Int → ℚ
  inFrustum : NodeData → ViewFrustum → location
  readBitstreamToTree : VoxelTree → List Nat → Int → Bool → VoxelTree
  eraseAllVoxels : VoxelTree → VoxelTree
  SIXTY_FPS_IN_MILLISECONDS : ℚ
  VIEW_CULLING_RATE_IN_MILLISECONDS : ℚ
  PACKET_HEADER_VOXEL_DATA : Nat
  PACKET_HEADER_VOXEL_DATA_MONOCHROME : Nat
  PACKET_HEADER_Z_COMMAND : Nat

/-! ## Writing one voxel block -/

/-- One iteration `j` of the loop of updateNodeInArrays. -/
def updateNodeInArraysStep (nodeIndex : glBufferIndex) (startVertex : vec3) (voxelScale : ℚ)
    (color : nodeColor) (vs : VoxelSystem) (j : Nat) : VoxelSystem :=
  { vs with
    _writeVerticesArray :=
      Function.update vs._writeVerticesArray (nodeIndex * VERTEX_POINTS_PER_VOXEL + j)
        (startVertex.get (j % 3) + identityVertices.getD j 0 * voxelScale)
    _writeColorsArray :=
      Function.update vs._writeColorsArray (nodeIndex * VERTEX_POINTS_PER_VOXEL + j)
        (color.get (j % 3)) }

@[irreducible] def updateNodeInArrays (vs : VoxelSystem) (nodeIndex : glBufferIndex) (startVertex : vec3)
    (voxelScale : ℚ) (color : nodeColor) : VoxelSystem :=
  (List.range VERTEX_POINTS_PER_VOXEL).foldl
    (updateNodeInArraysStep nodeIndex startVertex voxelScale color) vs

def computeVoxelVertex (startVertex : vec3) (voxelScale : ℚ) (index : Nat) : vec3 :=
  { x := startVertex.x + identityVertices.getD (index * 3) 0 * voxelScale
    y := startVertex.y + identityVertices.getD (index * 3 + 1) 0 * voxelScale
    z := startVertex.z + identityVertices.getD (index * 3 + 2) 0 * voxelScale }

def updateNodeInArraysAsFullVBO (vs : VoxelSystem) (node : NodeData) :
    VoxelSystem × NodeData × Nat :=
  -- If we've run out of room, then just bail...
  if vs._voxelsInWriteArrays ≥ vs._maxVoxels then (vs, node, 0)
  else if node.getShouldRender then
    let startVertex := node.getCorner
    let voxelScale := node.getScale
    let nodeIndex := vs._voxelsInWriteArrays
    let vs1 := updateNodeInArrays vs nodeIndex startVertex voxelScale node.getColor
    let node1 := node.setBufferIndex (some nodeIndex)
    let vs2 := { vs1 with
      _writeVoxelDirtyArray := Function.update vs1._writeVoxelDirtyArray nodeIndex true }
    let vs3 := { vs2 with _voxelsInWriteArrays := vs2._voxelsInWriteArrays + 1 }
    (vs3, node1, 1)
  else (vs, node.setBufferIndex GLBUFFER_INDEX_UNKNOWN, 0)

def updateNodeInArraysAsPartialVBO (vs : VoxelSystem) (node : NodeData) :
    VoxelSystem × NodeData × Nat :=
  -- If we've run out of room, then just bail...
  if vs._voxelsInWriteArrays ≥ vs._maxVoxels then (vs, node, 0)
  else if node.isDirty then
    let startVertex : vec3 :=
      if node.getShouldRender then node.getCorner else ⟨FLT_MAX, FLT_MAX, FLT_MAX⟩
    let voxelScale : ℚ := if node.getShouldRender then node.getScale else 0
    let r : glBufferIndex × NodeData × VoxelSystem :=
      if node.isKnownBufferIndex then (node.getBufferIndex, node, vs)
      else
        (vs._voxelsInWriteArrays, node.setBufferIndex (some vs._voxelsInWriteArrays),
          { vs with _voxelsInWriteArrays := vs._voxelsInWriteArrays + 1 })
    let nodeIndex := r.1
    let vs1 := { r.2.2 with
      _writeVoxelDirtyArray := Function.update r.2.2._writeVoxelDirtyArray nodeIndex true }
    (updateNodeInArrays vs1 nodeIndex startVertex voxelScale node.getColor, r.2.1, 1)
  else (vs, node, 0)

/-! ## Deriving the arrays from the tree -/

/-- The render decision newTreeToArrays computes before `setShouldRender`. -/
def computeShouldRender (E : Env) (node : NodeData) (isLeaf : Bool) : Bool :=
  if node.isColored then
    let distanceToNode := E.distanceToCamera node E.viewFrustum
    let boundary := E.boundaryDistanceForRenderLevel node.getLevel
    let childBoundary := E.boundaryDistanceForRenderLevel (node.getLevel + 1)
    let inBoundary := decide (distanceToNode ≤ boundary)
    let inChildBoundary := decide (distanceToNode ≤ childBoundary)
    (isLeaf && inChildBoundary) || (inBoundary && !inChildBoundary)
  else false

/-- The call `_tree->deleteVoxelCodeFromTree(code)`: VoxelTree is not among the source
files, the call is recorded. -/
def deleteVoxelCodeFromTree (vs : VoxelSystem) (octalCode : List Nat) : VoxelSystem :=
  { vs with trace := vs.trace ++ [Event.deleteVoxelCodeFromTree octalCode] }

mutual
/-- The walk newTreeToArrays: returns the system, the node as the walk leaves it, and the
number of voxels updated. -/
def newTreeToArrays (E : Env) (vs : VoxelSystem) : VoxelNode → VoxelSystem × VoxelNode × Nat
  | .mk node children =>
    let shouldRender := computeShouldRender E node (isLeafSlots children)
    let node1 := node.setShouldRender (shouldRender && !node.isStagedForDeletion)
    -- let children figure out their renderness
    let rc :=
      if !isLeafSlots children then newTreeToArraysChildren E vs children
      else (vs, children, 0)
    let rn :=
      if rc.1._writeRenderFullVBO then updateNodeInArraysAsFullVBO rc.1 node1
      else updateNodeInArraysAsPartialVBO rc.1 node1
    let node2 := rn.2.1.clearDirtyBit
    let vs3 :=
      if node2.isStagedForDeletion then deleteVoxelCodeFromTree rn.1 node2.getOctalCode
      else rn.1
    (vs3, .mk node2 rc.2.1, rc.2.2 + rn.2.2)
/-- The loop over the child slots of newTreeToArrays. -/
def newTreeToArraysChildren (E : Env) (vs : VoxelSystem) :
    List (Option VoxelNode) → VoxelSystem × List (Option VoxelNode) × Nat
  | [] => (vs, [], 0)
  | none :: rest =>
    let r := newTreeToArraysChildren E vs rest
    (r.1, none :: r.2.1, r.2.2)
  | some child :: rest =>
    let r1 := newTreeToArrays E vs child
    let r2 := newTreeToArraysChildren E r1.1 rest
    (r2.1, some r1.2.1 :: r2.2.1, r1.2.2 + r2.2.2)
end

/-! ## Copying the write side to the read side -/

/-- Modelled from the spec: the range of `glBufferIndex` (`unsigned long`, declared in a
header that is not among the source files); index arithmetic wraps at this value. -/
def GLBUFFER_INDEX_RANGE : Nat := 2 ^ 64

/-- The subtraction `a - b` on `glBufferIndex`. -/
def glBufferIndexSub (a b : Nat) : Nat :=
  (a % GLBUFFER_INDEX_RANGE + GLBUFFER_INDEX_RANGE - b % GLBUFFER_INDEX_RANGE)
    % GLBUFFER_INDEX_RANGE

def copyWrittenDataSegmentToReadArrays (vs : VoxelSystem)
    (segmentStart segmentEnd : glBufferIndex) : VoxelSystem :=
  let segmentLength := (glBufferIndexSub segmentEnd segmentStart + 1) % GLBUFFER_INDEX_RANGE
  let first := segmentStart * VERTEX_POINTS_PER_VOXEL
  let size := segmentLength * VERTEX_POINTS_PER_VOXEL
  { vs with
    _readVerticesArray := fun i =>
      if first ≤ i ∧ i < first + size then vs._writeVerticesArray i
      else vs._readVerticesArray i
    _readColorsArray := fun i =>
      if first ≤ i ∧ i < first + size then vs._writeColorsArray i
      else vs._readColorsArray i }

def copyWrittenDataToReadArraysFullVBOs (vs : VoxelSystem) : VoxelSystem :=
  let vs1 := copyWrittenDataSegmentToReadArrays vs 0 (glBufferIndexSub vs._voxelsInWriteArrays 1)
  let vs2 := { vs1 with _voxelsInReadArrays := vs1._voxelsInWriteArrays }
  -- clear our dirty flags
  let vs3 := { vs2 with
    _writeVoxelDirtyArray := fun i =>
      if i < vs2._voxelsInWriteArrays then false else vs2._writeVoxelDirtyArray i }
  -- let the reader know to get the full array
  { vs3 with _readRenderFullVBO := true }

/-- The loop state of copyWrittenDataToReadArraysPartialVBOs. -/
structure SegmentScan where
  vs : VoxelSystem
  segmentStart : glBufferIndex
  inSegment : Bool

/-- One iteration `i` of the loop of copyWrittenDataToReadArraysPartialVBOs. -/
def copyWrittenDataToReadArraysPartialVBOsStep (st : SegmentScan) (i : Nat) : SegmentScan :=
  let thisVoxelDirty := st.vs._writeVoxelDirtyArray i
  let vs1 := { st.vs with
    _readVoxelDirtyArray :=
      Function.update st.vs._readVoxelDirtyArray i (st.vs._readVoxelDirtyArray i || thisVoxelDirty) }
  let vs2 := { vs1 with _writeVoxelDirtyArray := Function.update vs1._writeVoxelDirtyArray i false }
  if !st.inSegment then
    if thisVoxelDirty then { vs := vs2, segmentStart := i, inSegment := true }
    else { st with vs := vs2 }
  else
    if !thisVoxelDirty then
      { vs := copyWrittenDataSegmentToReadArrays vs2 st.segmentStart (glBufferIndexSub i 1)
        segmentStart := st.segmentStart
        inSegment := false }
    else { st with vs := vs2 }

def copyWrittenDataToReadArraysPartialVBOs (vs : VoxelSystem) : VoxelSystem :=
  let st := (List.range vs._voxelsInWriteArrays).foldl copyWrittenDataToReadArraysPartialVBOsStep
    { vs := vs, segmentStart := 0, inSegment := false }
  -- if we got to the end of the array, and we're in an active dirty segment...
  let vs1 :=
    if st.inSegment then
      copyWrittenDataSegmentToReadArrays st.vs st.segmentStart
        (glBufferIndexSub st.vs._voxelsInWriteArrays 1)
    else st.vs
  -- update our length
  { vs1 with _voxelsInReadArrays := vs1._voxelsInWriteArrays }

def copyWrittenDataToReadArrays (vs : VoxelSystem) (fullVBOs : Bool) : VoxelSystem :=
  if vs._voxelsDirty && decide (vs._voxelsUpdated ≠ 0) then
    if fullVBOs then copyWrittenDataToReadArraysFullVBOs vs
    else copyWrittenDataToReadArraysPartialVBOs vs
  else vs

/-! ## View culling -/

def isViewChanging (_vs : VoxelSystem) : Bool :=
  -- assume the best; the frustum comparison that follows in the source is commented out
  false

def hasViewChanged (E : Env) (vs : VoxelSystem) : Bool × VoxelSystem :=
  -- If we're still changing, report no change yet.
  if isViewChanging vs then (false, vs)
  else if !vs._lastStableViewFrustum.matches E.viewFrustum then
    (true, { vs with _lastStableViewFrustum := E.viewFrustum })
  else (false, vs)

/-- The class removeOutOfViewArgs; `thisVoxelSystem` is the system the pointer refers to. -/
structure removeOutOfViewArgs where
  thisVoxelSystem : VoxelSystem
  dontRecurseBag : VoxelNodeBag
  nodesScanned : Nat
  nodesRemoved : Nat
  nodesInside : Nat
  nodesIntersect : Nat
  nodesOutside : Nat

/-- The call `childNode->inFrustum(...)`: VoxelNode is not among the source files; the
call is recorded with its result. -/
def recordInFrustum (E : Env) (childNode : VoxelNode) (args : removeOutOfViewArgs) :
    removeOutOfViewArgs :=
  { args with
    thisVoxelSystem := { args.thisVoxelSystem with
      trace := args.thisVoxelSystem.trace ++
        [Event.inFrustum childNode.data.octalCode (E.inFrustum childNode.data E.viewFrustum)] } }

/-- The loop over the child slots of removeOutOfViewOperation: returns the slots as the
loop leaves them (`removeChildAtIndex` empties a slot) and the updated arguments. -/
def removeOutOfViewChildren (E : Env) :
    List (Option VoxelNode) → removeOutOfViewArgs → List (Option VoxelNode) × removeOutOfViewArgs
  | [], args => ([], args)
  | none :: rest, args =>
    let r := removeOutOfViewChildren E rest args
    (none :: r.1, r.2)
  | some childNode :: rest, args0 =>
    let args := recordInFrustum E childNode args0
    match E.inFrustum childNode.data E.viewFrustum with
    | location.OUTSIDE =>
      let args1 := { args with
        nodesOutside := args.nodesOutside + 1
        nodesRemoved := args.nodesRemoved + 1
        thisVoxelSystem := { args.thisVoxelSystem with
          _removedVoxels := args.thisVoxelSystem._removedVoxels.insert childNode } }
      let r := removeOutOfViewChildren E rest args1
      (none :: r.1, r.2)
    | location.INSIDE =>
      let args1 := { args with
        nodesInside := args.nodesInside + 1
        dontRecurseBag := args.dontRecurseBag.insert childNode }
      let r := removeOutOfViewChildren E rest args1
      (some childNode :: r.1, r.2)
    | location.INTERSECT =>
      let args1 := { args with nodesIntersect := args.nodesIntersect + 1 }
      let r := removeOutOfViewChildren E rest args1
      (some childNode :: r.1, r.2)

/-- The visitor removeOutOfViewOperation: whether to descend, the node as the visitor leaves
it, and the updated arguments. -/
def removeOutOfViewOperation (E : Env) (node : VoxelNode) (args : removeOutOfViewArgs) :
    Bool × VoxelNode × removeOutOfViewArgs :=
  if args.dontRecurseBag.contains node then
    (false, node, { args with dontRecurseBag := args.dontRecurseBag.remove node })
  else
    let args1 := { args with nodesScanned := args.nodesScanned + 1 }
    let r := removeOutOfViewChildren E node.children args1
    (true, VoxelNode.mk node.data r.1, r.2)

/-- The child loop of the tree walk, given the walk of one node. -/
def recurseChildrenWith {σ : Type} (visit : VoxelNode → σ → Option (VoxelNode × σ)) :
    List (Option VoxelNode) → σ → Option (List (Option VoxelNode) × σ)
  | [], s => some ([], s)
  | none :: rest, s =>
    match recurseChildrenWith visit rest s with
    | none => none
    | some r => some (none :: r.1, r.2)
  | some child :: rest, s =>
    match visit child s with
    | none => none
    | some r1 =>
      match recurseChildrenWith visit rest r1.2 with
      | none => none
      | some r2 => some (some r1.1 :: r2.1, r2.2)

/-- Modelled from the spec: VoxelTree::recurseTreeWithOperation, which is not among the
source files: "a depth-first walk ...; the visitor returns whether to descend into a node's
children (false prunes the subtree)". The visitor sees a node before its children. The
first argument bounds the depth of the walk; `none` when it does not suffice. -/
def recurseNodeWithOperation {σ : Type} (operation : VoxelNode → σ → Bool × VoxelNode × σ) :
    Nat → VoxelNode → σ → Option (VoxelNode × σ)
  | 0, _, _ => none
  | fuel + 1, node, s =>
    let r := operation node s
    if r.1 then
      match recurseChildrenWith (recurseNodeWithOperation operation fuel) r.2.1.children r.2.2 with
      | none => none
      | some rc => some (VoxelNode.mk r.2.1.data rc.1, rc.2)
    else some (r.2.1, r.2.2)

mutual
/-- Number of levels of a tree. -/
def VoxelNode.height : VoxelNode → Nat
  | .mk _ children => heightOfChildren children + 1
/-- Largest height among the occupied slots. -/
def heightOfChildren : List (Option VoxelNode) → Nat
  | [] => 0
  | none :: rest => heightOfChildren rest
  | some child :: rest => max child.height (heightOfChildren rest)
end

def removeOutOfView (E : Env) (vs : VoxelSystem) : Option VoxelSystem :=
  let args : removeOutOfViewArgs :=
    { thisVoxelSystem := vs, dontRecurseBag := [], nodesScanned := 0, nodesRemoved := 0,
      nodesInside := 0, nodesIntersect := 0, nodesOutside := 0 }
  match recurseNodeWithOperation (removeOutOfViewOperation E) vs._tree.rootNode.height
      vs._tree.rootNode args with
  | none => none
  | some r =>
    let vs1 := { r.2.thisVoxelSystem with _tree := { vs._tree with rootNode := r.1 } }
    if r.2.nodesRemoved ≠ 0 then
      some { vs1 with _tree := { vs1._tree with isDirty := true } }
    else some vs1

/-- The function cleanupRemovedVoxels: the loop extracts and deletes every node of the bag,
each `delete` recorded in the order of the bag, and leaves the bag empty. -/
def cleanupRemovedVoxels (vs : VoxelSystem) : VoxelSystem :=
  if !vs._removedVoxels.isEmpty then
    { vs with
      trace := vs.trace ++ vs._removedVoxels.map (fun n => Event.deleteNode n.data.octalCode)
      _removedVoxels := []
      -- if we remove voxels, we must update our full VBOs
      _writeRenderFullVBO := true }
  else vs

/-! ## setupNewVoxelsForDrawing -/

/-- The values the calls of usecTimestampNow return during one setupNewVoxelsForDrawing. -/
structure Clock where
  start : ℚ
  endViewCulling : ℚ
  finish : ℚ

/-- The view-culling block of setupNewVoxelsForDrawing. -/
def viewCulling (E : Env) (clk : Clock) (vs : VoxelSystem) : Option VoxelSystem :=
  let sinceLastViewCulling := (clk.start - vs._lastViewCulling) / 1000
  if sinceLastViewCulling ≥ max vs._lastViewCullingElapsed E.VIEW_CULLING_RATE_IN_MILLISECONDS
      ∧ isViewChanging vs = false then
    let h := hasViewChanged E vs
    if h.1 then
      let vs1 := { h.2 with _lastViewCulling := clk.start }
      match removeOutOfView E vs1 with
      | none => none
      | some vs2 =>
        let vs3 := cleanupRemovedVoxels vs2
        some { vs3 with _lastViewCullingElapsed := (clk.endViewCulling - clk.start) / 1000 }
    else some h.2
  else some vs

/-- The derivation block of setupNewVoxelsForDrawing. -/
def deriveArrays (E : Env) (vs : VoxelSystem) : VoxelSystem :=
  if vs._tree.isDirty then
    let vs1 := { vs with
      trace := vs.trace ++ [Event.newTreeToArrays vs._writeRenderFullVBO]
      _callsToTreesToArrays := vs._callsToTreesToArrays + 1 }
    let vs2 := if vs1._writeRenderFullVBO then { vs1 with _voxelsInWriteArrays := 0 } else vs1
    let r := newTreeToArrays E vs2 vs2._tree.rootNode
    { r.1 with
      _voxelsUpdated := r.2.2
      -- after we pull the trees into the array, we can consider the tree clean
      _tree := { rootNode := r.2.1, isDirty := false }
      _writeRenderFullVBO := false }
  else { vs with _voxelsUpdated := 0 }

def setupNewVoxelsForDrawing (E : Env) (clk : Clock) (vs : VoxelSystem) : Option VoxelSystem :=
  let start := clk.start
  let sinceLastTime := (start - vs._setupNewVoxelsForDrawingLastFinished) / 1000
  if sinceLastTime ≤ max vs._setupNewVoxelsForDrawingLastElapsed E.SIXTY_FPS_IN_MILLISECONDS then
    some vs -- bail early, it hasn't been long enough since the last time we ran
  else
    match viewCulling E clk vs with
    | none => none
    | some vs1 =>
      let didWriteFullVBO := vs1._writeRenderFullVBO
      let vs2 := deriveArrays E vs1
      let vs3 := if vs2._voxelsUpdated ≠ 0 then { vs2 with _voxelsDirty := true } else vs2
      let vs4 := copyWrittenDataToReadArrays vs3 didWriteFullVBO
      some { vs4 with
        _setupNewVoxelsForDrawingLastFinished := clk.finish
        _setupNewVoxelsForDrawingLastElapsed := (clk.finish - start) / 1000 }

/-! ## Handing the read side to the GPU -/

/-- The GPU upload of updateVBOSegment is recorded with its inclusive bounds. -/
def updateVBOSegment (vs : VoxelSystem) (segmentStart segmentEnd : glBufferIndex) : VoxelSystem :=
  { vs with trace := vs.trace ++ [Event.updateVBOSegment segmentStart segmentEnd] }

def updateFullVBOs (vs : VoxelSystem) : VoxelSystem :=
  let vs1 := updateVBOSegment vs 0 vs._voxelsInReadArrays
  -- consider the _readVoxelDirtyArray[] clean!
  { vs1 with
    _readVoxelDirtyArray := fun i =>
      if i < vs1._voxelsInReadArrays then false else vs1._readVoxelDirtyArray i }

/-- One iteration `i` of the loop of updatePartialVBOs. -/
def updatePartialVBOsStep (st : SegmentScan) (i : Nat) : SegmentScan :=
  let thisVoxelDirty := st.vs._readVoxelDirtyArray i
  if !st.inSegment then
    if thisVoxelDirty then
      { vs := { st.vs with _readVoxelDirtyArray := Function.update st.vs._readVoxelDirtyArray i false }
        segmentStart := i
        inSegment := true }
    else st
  else
    let st1 : SegmentScan :=
      if !thisVoxelDirty then
        { vs := updateVBOSegment st.vs st.segmentStart (glBufferIndexSub i 1)
          segmentStart := st.segmentStart
          inSegment := false }
      else st
    { st1 with
      vs := { st1.vs with _readVoxelDirtyArray := Function.update st1.vs._readVoxelDirtyArray i false } }

def updatePartialVBOs (vs : VoxelSystem) : VoxelSystem :=
  let st := (List.range vs._voxelsInReadArrays).foldl updatePartialVBOsStep
    { vs := vs, segmentStart := 0, inSegment := false }
  -- if we got to the end of the array, and we're in an active dirty segment...
  if st.inSegment then
    updateVBOSegment st.vs st.segmentStart (glBufferIndexSub st.vs._voxelsInReadArrays 1)
  else st.vs

def updateVBOs (vs : VoxelSystem) : VoxelSystem :=
  let vs1 :=
    if vs._voxelsDirty then
      let vs2 := if vs._readRenderFullVBO then updateFullVBOs vs else updatePartialVBOs vs
      { vs2 with _voxelsDirty := false, _readRenderFullVBO := false }
    else vs
  { vs1 with _callsToTreesToArrays := 0 }

/-! ## Packets handed to the VoxelSystem -/

def killLocalVoxels (E : Env) (vs : VoxelSystem) : VoxelSystem :=
  { vs with
    _tree := E.eraseAllVoxels vs._tree
    trace := vs.trace ++ [Event.eraseAllVoxels]
    _voxelsInWriteArrays := 0
    _voxelsInReadArrays := 0 }

/-- The bytes of a C string: everything before the first NUL. -/
def cstring (mem : List Nat) : List Nat := mem.takeWhile (fun b => b != 0)

/-- The function strlen; `none` when the memory holds no terminating NUL. -/
def strlen (mem : List Nat) : Option Nat :=
  if mem.contains 0 then some (cstring mem).length else none

/-- The comparison `0 == strcmp(a, b)` for a literal `b` without NUL. -/
def strcmpEq (mem : List Nat) (literal : List Nat) : Bool :=
  decide (cstring mem = literal)

/-- The bytes of the literal "erase all". -/
def eraseAllLiteral : List Nat := [101, 114, 97, 115, 101, 32, 97, 108, 108]

/-- The body of the `while (totalLength <= numBytes)` loop of the Z command. -/
def zCommandBody (E : Env) (command : List Nat) (vs : VoxelSystem) : VoxelSystem :=
  if strcmpEq command eraseAllLiteral then
    { vs with
      _tree := E.eraseAllVoxels vs._tree
      trace := vs.trace ++ [Event.eraseAllVoxels]
      _voxelsInWriteArrays := 0
      _voxelsInReadArrays := 0 }
  else vs -- "add scene" only prints a log line

/-- The loop `while (totalLength <= numBytes)` of the Z command; the first argument bounds
the number of iterations, `none` when it does not suffice. -/
def zCommandLoop (E : Env) (command : List Nat) (commandLength : Int) (numBytes : Int) :
    Nat → Int → VoxelSystem → Option VoxelSystem
  | 0, totalLength, vs => if totalLength ≤ numBytes then none else some vs
  | fuel + 1, totalLength, vs =>
    if totalLength ≤ numBytes then
      zCommandLoop E command commandLength numBytes fuel (totalLength + (commandLength + 1))
        (zCommandBody E command vs)
    else some vs

/-- The case PACKET_HEADER_Z_COMMAND of parseData. -/
def zCommand (E : Env) (vs : VoxelSystem) (sourceBuffer : List Nat) (numBytes : Int) :
    Option VoxelSystem :=
  let command := sourceBuffer.drop 1 -- start of the command
  match strlen command with -- commands are null terminated strings
  | none => none
  | some n =>
    let commandLength : Int := n
    let totalLength : Int := 1 + commandLength + 1
    zCommandLoop E command commandLength numBytes numBytes.toNat totalLength vs

/-- The switch of parseData. -/
def parseDataSwitch (E : Env) (vs : VoxelSystem) (sourceBuffer : List Nat) (numBytes : Int) :
    Option VoxelSystem :=
  let command := sourceBuffer.getD 0 0
  let voxelData := sourceBuffer.drop 1
  if command = E.PACKET_HEADER_VOXEL_DATA then
    some { vs with
      _tree := E.readBitstreamToTree vs._tree voxelData (numBytes - 1) true
      trace := vs.trace ++ [Event.readBitstreamToTree (numBytes - 1) true] }
  else if command = E.PACKET_HEADER_VOXEL_DATA_MONOCHROME then
    some { vs with
      _tree := E.readBitstreamToTree vs._tree voxelData (numBytes - 1) false
      trace := vs.trace ++ [Event.readBitstreamToTree (numBytes - 1) false] }
  else if command = E.PACKET_HEADER_Z_COMMAND then zCommand E vs sourceBuffer numBytes
  else some vs

/-- The function parseData: `sourceBuffer` is the memory from the pointer on; the result is
`none` when a read leaves that memory. -/
def parseData (E : Env) (clk : Clock) (vs : VoxelSystem) (sourceBuffer : List Nat)
    (numBytes : Int) : Option (VoxelSystem × Int) :=
  match parseDataSwitch E vs sourceBuffer numBytes with
  | none => none
  | some vs1 =>
    match setupNewVoxelsForDrawing E clk vs1 with
    | none => none
    | some vs2 => some (vs2, numBytes)

/-! ## OctreeRenderer::processDatagram -/

/-- Types and constants of the framed packet that are declared in headers which are not
among the source files: the header length, the expected packet type, the sizes of
OCTREE_PACKET_FLAGS, OCTREE_PACKET_SEQUENCE, OCTREE_PACKET_SENT_TIME and
OCTREE_PACKET_INTERNAL_SECTION_SIZE, and the two flag tests
`oneAtBit(flags, PACKET_IS_COLOR_BIT)` and `oneAtBit(flags, PACKET_IS_COMPRESSED_BIT)`. -/
structure OctreePacketLayout where
  numBytesForPacketHeader : List Nat → Nat
  expectedPacketType : Nat
  sizeofFlags : Nat
  sizeofSequence : Nat
  sizeofSentTime : Nat
  sizeofSectionSize : Nat
  packetIsColored : Nat → Bool
  packetIsCompressed : Nat → Bool

/-- Modelled from the spec: OCTREE_PACKET_EXTRA_HEADERS_SIZE, declared in a header that is
not among the source files: the bytes of "[flags][sequence number][sent-timestamp]" that
stand between the packet header and the first section. -/
def OCTREE_PACKET_EXTRA_HEADERS_SIZE (L : OctreePacketLayout) : Nat :=
  L.sizeofFlags + L.sizeofSequence + L.sizeofSentTime

/-- Reading an unsigned integer of `size` bytes at `offset` (host byte order, least
significant byte first); a byte outside the packet reads as 0. -/
def readUnsigned (packet : List Nat) (offset : Nat) : Nat → Nat
  | 0 => 0
  | size + 1 => packet.getD offset 0 + 256 * readUnsigned packet (offset + 1) size

/-- One call `_tree->readBitstreamToTree` of processDatagram: where the section starts in
the packet, how long it is said to be, and the colour mode (WANT_COLOR is `true`). -/
structure DecodeCall where
  dataAt : Nat
  sectionLength : Nat
  wantColor : Bool
deriving DecidableEq

/-- The bytes a decode call is handed, as far as the packet holds them. -/
def DecodeCall.bytes (packet : List Nat) (c : DecodeCall) : List Nat :=
  (packet.drop c.dataAt).take c.sectionLength

/-- The outcome of running the section loop for a bounded number of iterations: the decode
calls made, and whether the loop has ended. -/
structure DatagramRun where
  calls : List DecodeCall
  finished : Bool
deriving DecidableEq

/-- The loop `while (dataBytes > 0)` of processDatagram, run for at most the given number
of iterations. -/
def sectionLoop (L : OctreePacketLayout) (packet : List Nat)
    (packetIsColored packetIsCompressed : Bool) :
    Nat → Nat → Int → List DecodeCall → DatagramRun
  | 0, _, dataBytes, calls => { calls := calls, finished := decide (¬ dataBytes > 0) }
  | fuel + 1, dataAt, dataBytes, calls =>
    if dataBytes > 0 then
      let r : Nat × Nat × Int :=
        if packetIsCompressed then
          if dataBytes > L.sizeofSectionSize then
            (readUnsigned packet dataAt L.sizeofSectionSize, dataAt + L.sizeofSectionSize,
              dataBytes - L.sizeofSectionSize)
          else (0, dataAt, 0) -- stop looping something is wrong
        else (dataBytes.toNat % 2 ^ (8 * L.sizeofSectionSize), dataAt, dataBytes)
      let sectionLength := r.1
      if sectionLength ≠ 0 then
        sectionLoop L packet packetIsColored packetIsCompressed fuel (r.2.1 + sectionLength)
          (r.2.2 - sectionLength)
          (calls ++ [{ dataAt := r.2.1, sectionLength := sectionLength, wantColor := packetIsColored }])
      else sectionLoop L packet packetIsColored packetIsCompressed fuel r.2.1 r.2.2 calls
    else { calls := calls, finished := true }

/-- The flags field of a packet. -/
def packetFlags (L : OctreePacketLayout) (packet : List Nat) : Nat :=
  readUnsigned packet (L.numBytesForPacketHeader packet) L.sizeofFlags

/-- The function processDatagram, its loop run for at most `fuel` iterations. -/
def processDatagram (L : OctreePacketLayout) (fuel : Nat) (packet : List Nat) : DatagramRun :=
  let packetLength : Int := packet.length
  let command := packet.getD 0 0
  let numBytesPacketHeader := L.numBytesForPacketHeader packet
  if command = L.expectedPacketType then
    let flags := packetFlags L packet
    let dataAt := numBytesPacketHeader + L.sizeofFlags + L.sizeofSequence + L.sizeofSentTime
    let dataBytes : Int :=
      packetLength - ((numBytesPacketHeader : Int) + (OCTREE_PACKET_EXTRA_HEADERS_SIZE L : Int))
    sectionLoop L packet (L.packetIsColored flags) (L.packetIsCompressed flags) fuel dataAt
      dataBytes []
  else { calls := [], finished := true }

/-- The packet is laid out from `offset` on as the given sections, each a length field
holding the section's positive length followed by that many bytes, and ends with the last
of them. -/
def sectionsAt (L : OctreePacketLayout) (packet : List Nat) : Nat → List (List Nat) → Prop
  | offset, [] => offset = packet.length
  | offset, s :: rest =>
    0 < s.length ∧ readUnsigned packet offset L.sizeofSectionSize = s.length ∧
    (packet.drop (offset + L.sizeofSectionSize)).take s.length = s ∧
    offset + L.sizeofSectionSize + s.length ≤ packet.length ∧
    sectionsAt L packet (offset + L.sizeofSectionSize + s.length) rest

instance instDecidableSectionsAt (L : OctreePacketLayout) (packet : List Nat) :
    (offset : Nat) → (sections : List (List Nat)) → Decidable (sectionsAt L packet offset sections)
  | offset, [] => inferInstanceAs (Decidable (offset = packet.length))
  | offset, s :: rest =>
    have := instDecidableSectionsAt L packet (offset + L.sizeofSectionSize + s.length) rest
    inferInstanceAs (Decidable (_ ∧ _ ∧ _ ∧ _ ∧ _))

/-- The offsets at which sections of the given lengths start when laid out back-to-back
from `offset` on, each behind its length field. -/
def sectionOffsets (L : OctreePacketLayout) : Nat → List (List Nat) → List Nat
  | _, [] => []
  | offset, s :: rest =>
    (offset + L.sizeofSectionSize) :: sectionOffsets L (offset + L.sizeofSectionSize + s.length) rest

/-! ## Concrete values used in the evaluations below -/

/-- A fresh root node: path empty, no colour, no slot. -/
def emptyRootData : NodeData :=
  { octalCode := [], corner := ⟨0, 0, 0⟩, scale := 1, level := 1, colored := false,
    color := ⟨0, 0, 0, 0⟩, dirty := true, shouldRender := false, bufferIndex := none,
    stagedForDeletion := false }

/-- The tree VoxelTree::eraseAllVoxels leaves in the evaluations below: a fresh root without
children, the aggregate dirty bit set. -/
def emptyTree : VoxelTree := { rootNode := VoxelNode.mk emptyRootData [], isDirty := true }

/-- An application whose camera sits at distance 0 of every node, with boundary distance 1
at every level, the timing constants of VoxelConstants.h and the packet types 'V', 'v'
and 'Z'. -/
def exampleEnv : Env :=
  { viewFrustum := ⟨[]⟩
    distanceToCamera := fun _ _ => 0
    boundaryDistanceForRenderLevel := fun _ => 1
    inFrustum := fun _ _ => location.INSIDE
    readBitstreamToTree := fun t _ _ _ => { t with isDirty := true }
    eraseAllVoxels := fun _ => emptyTree
    SIXTY_FPS_IN_MILLISECONDS := 1000 / 60
    VIEW_CULLING_RATE_IN_MILLISECONDS := 1000
    PACKET_HEADER_VOXEL_DATA := 86
    PACKET_HEADER_VOXEL_DATA_MONOCHROME := 118
    PACKET_HEADER_Z_COMMAND := 90 }

/-- A colored leaf at the given path and corner, not yet placed. -/
def leafData (code : List Nat) (corner : vec3) (color : nodeColor) : NodeData :=
  { octalCode := code, corner := corner, scale := 1 / 2, level := 2, colored := true,
    color := color, dirty := true, shouldRender := false, bufferIndex := none,
    stagedForDeletion := false }

/-- A root with two colored leaves, in slots 0 and 3. -/
def twoLeafRoot : VoxelNode :=
  VoxelNode.mk emptyRootData
    [ some (VoxelNode.mk (leafData [0] ⟨0, 0, 0⟩ ⟨255, 0, 0, 0⟩) []), none, none,
      some (VoxelNode.mk (leafData [3] ⟨1 / 2, 1 / 2, 0⟩ ⟨0, 255, 0, 0⟩) []),
      none, none, none, none ]

/-- A system as `init` leaves it, with room for `maxVoxels` voxels and the given tree; the
view has been stable, and the last derivation (at time 0) switched to partial updates. -/
def exampleSystem (maxVoxels : Nat) (tree : VoxelTree) : VoxelSystem :=
  { _maxVoxels := maxVoxels
    _tree := tree
    _writeVerticesArray := fun _ => 0
    _writeColorsArray := fun _ => 0
    _writeVoxelDirtyArray := fun _ => false
    _readVerticesArray := fun _ => 0
    _readColorsArray := fun _ => 0
    _readVoxelDirtyArray := fun _ => false
    _voxelsInWriteArrays := 0
    _voxelsInReadArrays := 0
    _voxelsUpdated := 0
    _voxelsDirty := false
    _writeRenderFullVBO := false
    _readRenderFullVBO := false
    _callsToTreesToArrays := 0
    _setupNewVoxelsForDrawingLastFinished := 0
    _setupNewVoxelsForDrawingLastElapsed := 0
    _lastViewCulling := 0
    _lastViewCullingElapsed := 0
    _lastStableViewFrustum := ⟨[]⟩
    _removedVoxels := []
    trace := [] }

/-- One second after the last run. -/
def exampleClock : Clock := { start := 1000000, endViewCulling := 1000001, finish := 1000002 }

/-- The Z packet holding "foo" and then "erase all", 15 bytes. -/
def fooEraseAllPacket : List Nat :=
  [90, 102, 111, 111, 0, 101, 114, 97, 115, 101, 32, 97, 108, 108, 0]

/-- The Z packet holding "erase all" and then five times "a", 21 bytes. -/
def eraseAllThenShortPacket : List Nat :=
  [90, 101, 114, 97, 115, 101, 32, 97, 108, 108, 0, 97, 0, 97, 0, 97, 0, 97, 0, 97, 0]

/-- The Z packet holding "erase all", 11 bytes. -/
def eraseAllPacket : List Nat := [90, 101, 114, 97, 115, 101, 32, 97, 108, 108, 0]

/-! ## Vocabulary of the statements -/

/-- The float updateNodeInArrays stores at position `j` of a block: coordinate `j % 3` of
the start vertex plus the identity vertex entry times the scale. -/
def blockVertex (startVertex : vec3) (voxelScale : ℚ) (j : Nat) : ℚ :=
  startVertex.get (j % 3) + identityVertices.getD j 0 * voxelScale

/-- Slot `k` of the write side holds the cube with the given corner and scale in the given
colour. -/
def WriteBlockIs (vs : VoxelSystem) (k : glBufferIndex) (corner : vec3) (scale : ℚ)
    (color : nodeColor) : Prop :=
  ∀ j, j < VERTEX_POINTS_PER_VOXEL →
    vs._writeVerticesArray (k * VERTEX_POINTS_PER_VOXEL + j) = blockVertex corner scale j ∧
    vs._writeColorsArray (k * VERTEX_POINTS_PER_VOXEL + j) = color.get (j % 3)

/-- Index `i` of the vertex and colour arrays lies in the block of slot `k`. -/
def InSlot (k : glBufferIndex) (i : Nat) : Prop :=
  k * VERTEX_POINTS_PER_VOXEL ≤ i ∧ i < k * VERTEX_POINTS_PER_VOXEL + VERTEX_POINTS_PER_VOXEL

instance instDecidableInSlot (k : glBufferIndex) (i : Nat) : Decidable (InSlot k i) :=
  inferInstanceAs (Decidable (_ ∧ _))

/-- A system whose write side is full: one slot, in use. -/
def fullSystem : VoxelSystem :=
  { exampleSystem 1 emptyTree with _voxelsInWriteArrays := 1, _voxelsInReadArrays := 1 }

/-- A dirty colored leaf that sits in slot 0. -/
def dirtyPlacedLeaf : NodeData :=
  { leafData [0] ⟨0, 0, 0⟩ ⟨255, 0, 0, 0⟩ with shouldRender := true, bufferIndex := some 0 }

/-- A dirty colored leaf that has no slot yet. -/
def dirtyNewLeaf : NodeData :=
  { leafData [3] ⟨1 / 2, 1 / 2, 0⟩ ⟨0, 255, 0, 0⟩ with shouldRender := true }

/-- The decode calls the layout `sectionsAt` asks for: one per section, in packet order,
each starting behind its length field and as long as the section. -/
def expectedCalls (L : OctreePacketLayout) (wantColor : Bool) :
    Nat → List (List Nat) → List DecodeCall
  | _, [] => []
  | offset, s :: rest =>
    { dataAt := offset + L.sizeofSectionSize, sectionLength := s.length, wantColor := wantColor } ::
      expectedCalls L wantColor (offset + L.sizeofSectionSize + s.length) rest

/-- A layout with the sizes of OctreePacketData.h (flags 1 byte, sequence 2 bytes, sent time
8 bytes, section size 2 bytes), an 18-byte packet header, packet type 'V', and the flag bits
counted from the most significant bit (colour bit 0, compressed bit 1). -/
def exampleLayout : OctreePacketLayout :=
  { numBytesForPacketHeader := fun _ => 18
    expectedPacketType := 86
    sizeofFlags := 1
    sizeofSequence := 2
    sizeofSentTime := 8
    sizeofSectionSize := 2
    packetIsColored := fun flags => flags / 128 % 2 == 1
    packetIsCompressed := fun flags => flags / 64 % 2 == 1 }

/-- The first 29 bytes of a packet of `exampleLayout` with the given flags byte. -/
def exampleHeader (flags : Nat) : List Nat :=
  86 :: List.replicate 17 0 ++ flags :: List.replicate 10 0

/-- A compressed packet whose only section declares 5 bytes while 2 bytes follow. -/
def overlongSectionPacket : List Nat := exampleHeader 64 ++ [5, 0, 1, 2]

/-- A compressed, colored packet with two sections, of 3 bytes and of 1 byte. -/
def twoSectionPacket : List Nat := exampleHeader 192 ++ [3, 0, 7, 8, 9, 1, 0, 6]

/-- An uncompressed packet with a payload of 4 bytes. -/
def plainPacket : List Nat := exampleHeader 0 ++ [1, 2, 3, 4]

/-- An uncompressed packet with a payload of 65541 zero bytes. -/
def hugePacket : List Nat := 86 :: List.replicate (28 + 65541) 0

mutual
/-- The nodes of a tree in the order newTreeToArrays finishes them: the children slot by
slot, then the node itself. -/
def VoxelNode.nodesInWalkOrder : VoxelNode → List NodeData
  | .mk node children => nodesOfChildren children ++ [node]
/-- The nodes below a list of child slots, in walk order. -/
def nodesOfChildren : List (Option VoxelNode) → List NodeData
  | [] => []
  | none :: rest => nodesOfChildren rest
  | some child :: rest => child.nodesInWalkOrder ++ nodesOfChildren rest
end

/-- The nodes of a list whose render decision is true, in order. -/
def renderedOf (nodes : List NodeData) : List NodeData :=
  nodes.filter (fun d => d.shouldRender)

/-- The part of newTreeToArrays that follows the loop over the children, for the node as
`setShouldRender` left it. -/
def newTreeToArraysNodePart (vs : VoxelSystem) (node1 : NodeData) : VoxelSystem × NodeData × Nat :=
  let rn :=
    if vs._writeRenderFullVBO then updateNodeInArraysAsFullVBO vs node1
    else updateNodeInArraysAsPartialVBO vs node1
  let node2 := rn.2.1.clearDirtyBit
  let vs3 :=
    if node2.isStagedForDeletion then deleteVoxelCodeFromTree rn.1 node2.getOctalCode
    else rn.1
  (vs3, node2, rn.2.2)

/-- What a stretch of a full-rebuild walk does, from `vs` to `vs'`, leaving the nodes `out`
and returning `updated`: the mode and the capacity are kept, one slot is appended per
rendered node, the j-th rendered node holds slot `count + j` and that slot holds its cube
and colour, and the array entries of the slots below the old count are untouched. -/
structure FullStep (vs vs' : VoxelSystem) (out : List NodeData) (updated : Nat) : Prop where
  mode : vs'._writeRenderFullVBO = vs._writeRenderFullVBO
  room : vs'._maxVoxels = vs._maxVoxels
  updated_eq : updated = (renderedOf out).length
  count_eq : vs'._voxelsInWriteArrays = vs._voxelsInWriteArrays + (renderedOf out).length
  slots : ∀ (j : Nat) (d : NodeData), (renderedOf out)[j]? = some d →
    d.bufferIndex = some (vs._voxelsInWriteArrays + j) ∧
    WriteBlockIs vs' (vs._voxelsInWriteArrays + j) d.corner d.scale d.color
  below : ∀ i, i < vs._voxelsInWriteArrays * VERTEX_POINTS_PER_VOXEL →
    vs'._writeVerticesArray i = vs._writeVerticesArray i ∧
    vs'._writeColorsArray i = vs._writeColorsArray i

/-- A system about to rebuild: the tree of two colored leaves is dirty and the full-rebuild
flag is set; three slots are in use from before. -/
def rebuildSystem : VoxelSystem :=
  { exampleSystem 4 ⟨twoLeafRoot, true⟩ with _writeRenderFullVBO := true, _voxelsInWriteArrays := 3 }

/-- The trace of `vs'` continues the trace of `vs`. -/
def TraceExtends (vs vs' : VoxelSystem) : Prop := ∃ rest, vs'.trace = vs.trace ++ rest

/-- Apart from the tree, the trace and the two slot counts, `vs'` is `vs`. -/
def SameButTreeAndCounts (vs vs' : VoxelSystem) : Prop :=
  vs' = { vs with
    _tree := vs'._tree
    trace := vs'.trace
    _voxelsInWriteArrays := vs'._voxelsInWriteArrays
    _voxelsInReadArrays := vs'._voxelsInReadArrays }

/-- The throttle test at the head of setupNewVoxelsForDrawing. -/
def throttled (E : Env) (clk : Clock) (vs : VoxelSystem) : Prop :=
  (clk.start - vs._setupNewVoxelsForDrawingLastFinished) / 1000 ≤
    max vs._setupNewVoxelsForDrawingLastElapsed E.SIXTY_FPS_IN_MILLISECONDS

instance instDecidableThrottled (E : Env) (clk : Clock) (vs : VoxelSystem) :
    Decidable (throttled E clk vs) :=
  inferInstanceAs (Decidable (_ ≤ _))

/-- The slot an index of the vertex and colour arrays belongs to. -/
def slotOf (idx : Nat) : Nat := idx / VERTEX_POINTS_PER_VOXEL

/-- Where the scan of copyWrittenDataToReadArraysPartialVBOs stands after `k` slots: the
slots below this bound have been handled, the slots from it on belong to the segment that
is still open or have not been scanned. -/
def SegmentScan.settled (st : SegmentScan) (k : Nat) : Nat :=
  if st.inSegment then st.segmentStart else k

/-- The loop invariant of copyWrittenDataToReadArraysPartialVBOs after slots `0 .. k-1` of
the system `vs0`: the write-side geometry and count are as they were, the dirty flags of the
scanned slots are moved to the read side, the open segment consists of dirty slots, and the
read-side geometry holds the write-side values on the settled dirty slots and its old
values elsewhere. -/
structure CopyScanInv (vs0 : VoxelSystem) (k : Nat) (st : SegmentScan) : Prop where
  writeVertices : st.vs._writeVerticesArray = vs0._writeVerticesArray
  writeColors : st.vs._writeColorsArray = vs0._writeColorsArray
  writeCount : st.vs._voxelsInWriteArrays = vs0._voxelsInWriteArrays
  writeDirty : ∀ j, st.vs._writeVoxelDirtyArray j =
    if j < k then false else vs0._writeVoxelDirtyArray j
  readDirty : ∀ j, st.vs._readVoxelDirtyArray j =
    if j < k then (vs0._readVoxelDirtyArray j || vs0._writeVoxelDirtyArray j)
    else vs0._readVoxelDirtyArray j
  pending : st.inSegment = true →
    st.settled k < k ∧ ∀ j, st.settled k ≤ j → j < k → vs0._writeVoxelDirtyArray j = true
  readVertices : ∀ idx, st.vs._readVerticesArray idx =
    if slotOf idx < st.settled k ∧ vs0._writeVoxelDirtyArray (slotOf idx) = true then
      vs0._writeVerticesArray idx
    else vs0._readVerticesArray idx
  readColors : ∀ idx, st.vs._readColorsArray idx =
    if slotOf idx < st.settled k ∧ vs0._writeVoxelDirtyArray (slotOf idx) = true then
      vs0._writeColorsArray idx
    else vs0._readColorsArray idx

/-- A system with five slots in use on the write side, slots 1, 2 and 4 dirty, holding 7 in
every write-side vertex entry and 9 in every write-side colour entry. -/
def scatteredDirtySystem : VoxelSystem :=
  { exampleSystem 8 emptyTree with
    _voxelsInWriteArrays := 5
    _voxelsInReadArrays := 2
    _writeVerticesArray := fun _ => 7
    _writeColorsArray := fun _ => 9
    _writeVoxelDirtyArray := fun i => decide (i = 1 ∨ i = 2 ∨ i = 4) }

/-- One millisecond after the last run. -/
def earlyClock : Clock := { start := 1000, endViewCulling := 1001, finish := 1002 }

/-- A system whose removed-voxel bag holds the two leaves of `twoLeafRoot`. -/
def removedLeavesSystem : VoxelSystem :=
  { exampleSystem 4 emptyTree with
    _removedVoxels :=
      [ VoxelNode.mk (leafData [0] ⟨0, 0, 0⟩ ⟨255, 0, 0, 0⟩) [],
        VoxelNode.mk (leafData [3] ⟨1 / 2, 1 / 2, 0⟩ ⟨0, 255, 0, 0⟩) [] ] }

/-- A camera that has moved: its frustum differs from the last stable one of
`exampleSystem`, the leaf at path [0] is outside of it, the leaf at path [3] inside, every
other node intersects it. -/
def movedEnv : Env :=
  { exampleEnv with
    viewFrustum := ⟨[1]⟩
    inFrustum := fun d _ =>
      if d.octalCode = [0] then location.OUTSIDE
      else if d.octalCode = [3] then location.INSIDE
      else location.INTERSECT }

/-- The arguments a removeOutOfView pass starts with. -/
def freshArgs (vs : VoxelSystem) : removeOutOfViewArgs :=
  { thisVoxelSystem := vs, dontRecurseBag := [], nodesScanned := 0, nodesRemoved := 0,
    nodesInside := 0, nodesIntersect := 0, nodesOutside := 0 }

/-- Apart from the removed-voxel bag and the trace, `vs'` is `vs`. -/
def SameButBagAndTrace (vs vs' : VoxelSystem) : Prop :=
  vs' = { vs with _removedVoxels := vs'._removedVoxels, trace := vs'.trace }

/-- Apart from what the view-culling block writes (tree, removed-voxel bag, trace, last
stable frustum, the two culling times and `_writeRenderFullVBO`), `vs'` is `vs`. -/
def SameButCulling (vs vs' : VoxelSystem) : Prop :=
  vs' = { vs with
    _tree := vs'._tree
    _removedVoxels := vs'._removedVoxels
    trace := vs'.trace
    _lastStableViewFrustum := vs'._lastStableViewFrustum
    _lastViewCulling := vs'._lastViewCulling
    _lastViewCullingElapsed := vs'._lastViewCullingElapsed
    _writeRenderFullVBO := vs'._writeRenderFullVBO }

/-- Apart from what copyWrittenDataToReadArrays writes (the read side and the write-side
dirty flags), `vs'` is `vs`. -/
def SameButCopy (vs vs' : VoxelSystem) : Prop :=
  vs' = { vs with
    _readVerticesArray := vs'._readVerticesArray
    _readColorsArray := vs'._readColorsArray
    _readVoxelDirtyArray := vs'._readVoxelDirtyArray
    _writeVoxelDirtyArray := vs'._writeVoxelDirtyArray
    _voxelsInReadArrays := vs'._voxelsInReadArrays
    _readRenderFullVBO := vs'._readRenderFullVBO }

/-- The read side of `vs'` is the read side of `vs`. -/
def SameReadSide (vs vs' : VoxelSystem) : Prop :=
  vs'._readVerticesArray = vs._readVerticesArray ∧
  vs'._readColorsArray = vs._readColorsArray ∧
  vs'._readVoxelDirtyArray = vs._readVoxelDirtyArray ∧
  vs'._voxelsInReadArrays = vs._voxelsInReadArrays ∧
  vs'._readRenderFullVBO = vs._readRenderFullVBO

/-- Apart from what the derivation walk writes (write-side geometry, write-side dirty flags,
write-side count and the trace), `vs'` is `vs`. -/
def SameButWalk (vs vs' : VoxelSystem) : Prop :=
  vs' = { vs with
    _writeVerticesArray := vs'._writeVerticesArray
    _writeColorsArray := vs'._writeColorsArray
    _writeVoxelDirtyArray := vs'._writeVoxelDirtyArray
    _voxelsInWriteArrays := vs'._voxelsInWriteArrays
    trace := vs'.trace }

/-- A stretch of a full-rebuild walk from `vs` to `vs'` that reports `updated`: it appends
as many slots as it reports and does not pass the capacity. -/
def FullCount (vs vs' : VoxelSystem) (updated : Nat) : Prop :=
  vs'._voxelsInWriteArrays = vs._voxelsInWriteArrays + updated ∧
  (vs._voxelsInWriteArrays ≤ vs._maxVoxels → vs'._voxelsInWriteArrays ≤ vs._maxVoxels)

/-- A system that shows three voxels and is about to rebuild from a dirty tree that holds
nothing to render. -/
def staleReadSystem : VoxelSystem :=
  { exampleSystem 4 emptyTree with
    _writeRenderFullVBO := true
    _voxelsInWriteArrays := 3
    _voxelsInReadArrays := 3 }

/-- A system whose tree is `twoLeafRoot`, clean, with nothing recorded yet. -/
def stableSystem : VoxelSystem := exampleSystem 4 ⟨twoLeafRoot, false⟩

/-- A system that shows three voxels and ran one millisecond before `earlyClock`. -/
def showingSystem : VoxelSystem :=
  { exampleSystem 4 ⟨twoLeafRoot, false⟩ with _voxelsInWriteArrays := 3, _voxelsInReadArrays := 3 }

/-- A root with one colored leaf, in slot 0. -/
def oneLeafRoot : VoxelNode :=
  VoxelNode.mk emptyRootData
    [ some (VoxelNode.mk (leafData [0] ⟨0, 0, 0⟩ ⟨255, 0, 0, 0⟩) []), none, none, none,
      none, none, none, none ]

/-- A system with room for one voxel, about to rebuild from `oneLeafRoot`. -/
def capacityOneSystem : VoxelSystem :=
  { exampleSystem 1 ⟨oneLeafRoot, true⟩ with _writeRenderFullVBO := true }

/-- The tree the rebuild of `capacityOneSystem` leaves (the leaf rendered, in slot 0, both
nodes clean), after the leaf has been staged for deletion and marked dirty. -/
def stagedLeafTree : VoxelTree :=
  { rootNode := VoxelNode.mk { emptyRootData with dirty := false }
      [ some (VoxelNode.mk
          { leafData [0] ⟨0, 0, 0⟩ ⟨255, 0, 0, 0⟩ with
            shouldRender := true, bufferIndex := some 0, stagedForDeletion := true } []),
        none, none, none, none, none, none, none ]
    isDirty := true }

/-- The system `capacityOneSystem` after its rebuild, with the leaf staged for deletion. -/
def stagedLeafSystem : VoxelSystem :=
  { deriveArrays exampleEnv capacityOneSystem with _tree := stagedLeafTree }

/-! ## Vocabulary for the cube tables -/

/-- Row `v` of a table of three floats per vertex. -/
def tableRow (table : List ℚ) (v : Nat) : vec3 :=
  ⟨table.getD (3 * v) 0, table.getD (3 * v + 1) 0, table.getD (3 * v + 2) 0⟩

/-- The three vertex indices of triangle `t` of `identityIndices`. -/
def triangle (t : Nat) : Nat × Nat × Nat :=
  (identityIndices.getD (3 * t) 0, identityIndices.getD (3 * t + 1) 0,
    identityIndices.getD (3 * t + 2) 0)

def vec3.sub (a b : vec3) : vec3 := ⟨a.x - b.x, a.y - b.y, a.z - b.z⟩

def vec3.cross (a b : vec3) : vec3 :=
  ⟨a.y * b.z - a.z * b.y, a.z * b.x - a.x * b.z, a.x * b.y - a.y * b.x⟩

/-- The six axis-aligned unit vectors. -/
def axisUnits : List vec3 :=
  [⟨0, 0, -1⟩, ⟨0, 0, 1⟩, ⟨0, -1, 0⟩, ⟨0, 1, 0⟩, ⟨-1, 0, 0⟩, ⟨1, 0, 0⟩]

/-- Point `p` lies on the face of the unit cube the axis-aligned normal `n` points out of:
coordinate 0 on the axis of a negative normal, 1 on the axis of a positive one. -/
def onFace (n p : vec3) : Prop :=
  ∀ a, a < 3 → (n.get a = -1 → p.get a = 0) ∧ (n.get a = 1 → p.get a = 1)

instance instDecidableOnFace (n p : vec3) : Decidable (onFace n p) :=
  inferInstanceAs (Decidable (∀ a, a < 3 → _))

/-- Triangle `t` agrees with the vertex and normal tables: its three indices are below
VERTICES_PER_VOXEL, the three normals are one axis-aligned unit vector, the three positions
lie on the face that normal points out of, and the winding is that normal. -/
def triangleConsistent (t : Nat) : Prop :=
  (triangle t).1 < VERTICES_PER_VOXEL ∧ (triangle t).2.1 < VERTICES_PER_VOXEL ∧
  (triangle t).2.2 < VERTICES_PER_VOXEL ∧
  tableRow identityNormals (triangle t).1 ∈ axisUnits ∧
  tableRow identityNormals (triangle t).2.1 = tableRow identityNormals (triangle t).1 ∧
  tableRow identityNormals (triangle t).2.2 = tableRow identityNormals (triangle t).1 ∧
  onFace (tableRow identityNormals (triangle t).1) (tableRow identityVertices (triangle t).1) ∧
  onFace (tableRow identityNormals (triangle t).1) (tableRow identityVertices (triangle t).2.1) ∧
  onFace (tableRow identityNormals (triangle t).1) (tableRow identityVertices (triangle t).2.2) ∧
  vec3.cross
      (vec3.sub (tableRow identityVertices (triangle t).2.1)
        (tableRow identityVertices (triangle t).1))
      (vec3.sub (tableRow identityVertices (triangle t).2.2)
        (tableRow identityVertices (triangle t).1))
    = tableRow identityNormals (triangle t).1

instance instDecidableTriangleConsistent (t : Nat) : Decidable (triangleConsistent t) :=
  inferInstanceAs (Decidable (_ ∧ _ ∧ _ ∧ _ ∧ _ ∧ _ ∧ _ ∧ _ ∧ _ ∧ _))

/-- What a call of updateNodeInArraysAsFullVBO or updateNodeInArraysAsPartialVBO that took
`vs` to `vs'` wrote: nothing, or one slot `k` below `_maxVoxels` (the index handed to
updateNodeInArrays and used to set `_writeVoxelDirtyArray`), possibly together with a new
write-side count. -/
def WroteSlotInBounds (vs vs' : VoxelSystem) (color : nodeColor) : Prop :=
  vs' = vs ∨
  ∃ (k : Nat) (startVertex : vec3) (voxelScale : ℚ), k < vs._maxVoxels ∧
    vs' =
      { updateNodeInArrays vs k startVertex voxelScale color with
        _writeVoxelDirtyArray := Function.update vs._writeVoxelDirtyArray k true
        _voxelsInWriteArrays := vs'._voxelsInWriteArrays }

/-- The bounds the two update functions keep from `vs` and `node` to `vs'` and `node'`: the
capacity is unchanged, the write-side count does not shrink and does not exceed the
capacity, and a known slot index of the node is below the count. -/
def SlotsInBounds (vs vs' : VoxelSystem) (node' : NodeData) : Prop :=
  vs'._maxVoxels = vs._maxVoxels ∧
  vs._voxelsInWriteArrays ≤ vs'._voxelsInWriteArrays ∧
  vs'._voxelsInWriteArrays ≤ vs'._maxVoxels ∧
  ∀ i, node'.bufferIndex = some i → i < vs'._voxelsInWriteArrays

/-- A root with a colored leaf in slot 0 and, in slot 3, a node without colour that holds
slot index 1 from an earlier derivation. -/
def staleSlotRoot : VoxelNode :=
  VoxelNode.mk emptyRootData
    [ some (VoxelNode.mk (leafData [0] ⟨0, 0, 0⟩ ⟨255, 0, 0, 0⟩) []), none, none,
      some (VoxelNode.mk
        { leafData [3] ⟨1 / 2, 1 / 2, 0⟩ ⟨0, 0, 0, 0⟩ with
          colored := false, dirty := false, bufferIndex := some 1 } []),
      none, none, none, none ]

/-- A system with room for one voxel, about to rebuild from `staleSlotRoot`. -/
def staleSlotSystem : VoxelSystem :=
  { exampleSystem 1 ⟨staleSlotRoot, true⟩ with _writeRenderFullVBO := true, _voxelsInWriteArrays := 2 }

/-- An uncompressed packet with a payload of 65536 zero bytes. -/
def spinPacket : List Nat := 86 :: List.replicate (28 + 65536) 0

/-- The test that lets the view-culling block of setupNewVoxelsForDrawing run. -/
def cullingDue (E : Env) (clk : Clock) (vs : VoxelSystem) : Prop :=
  (clk.start - vs._lastViewCulling) / 1000 ≥
    max vs._lastViewCullingElapsed E.VIEW_CULLING_RATE_IN_MILLISECONDS

instance instDecidableCullingDue (E : Env) (clk : Clock) (vs : VoxelSystem) :
    Decidable (cullingDue E clk vs) :=
  inferInstanceAs (Decidable (_ ≥ _))

/-- Half a second after the last run: too early for view culling. -/
def halfSecondClock : Clock := { start := 500000, endViewCulling := 500001, finish := 500002 }

/-- One second after `halfSecondClock`. -/
def laterClock : Clock := { start := 1500000, endViewCulling := 1500001, finish := 1500002 }

/-- A system in partial mode whose tree `twoLeafRoot` is dirty; its last stable frustum is
not the frustum of `movedEnv`. -/
def pendingViewSystem : VoxelSystem := exampleSystem 4 ⟨twoLeafRoot, true⟩

/-- Slots `a .. b` are a run of dirty slots that starts at 0 or behind a clean slot and is
followed by the clean slot `b + 1`. -/
def IsClosedDirtyRun (dirty : Nat → Bool) (a b : Nat) : Prop :=
  a ≤ b ∧ (∀ j, a ≤ j → j ≤ b → dirty j = true) ∧
  (a = 0 ∨ dirty (a - 1) = false) ∧ dirty (b + 1) = false

/-- Slots `a .. b` are a maximal run of consecutive dirty slots below the count `n`: all of
them are dirty, the run starts at 0 or behind a clean slot, and it ends at the last slot
below the count or in front of a clean slot. -/
def IsMaximalDirtyRun (dirty : Nat → Bool) (n a b : Nat) : Prop :=
  a ≤ b ∧ b < n ∧ (∀ j, a ≤ j → j ≤ b → dirty j = true) ∧
  (a = 0 ∨ dirty (a - 1) = false) ∧ (b + 1 = n ∨ dirty (b + 1) = false)

/-- The upload events of a list of segments given by their inclusive bounds. -/
def segmentEvents (segs : List (Nat × Nat)) : List Event :=
  segs.map (fun r => Event.updateVBOSegment r.1 r.2)

/-- The loop invariant of updatePartialVBOs after slots `0 .. k-1` of the system `vs0`, with
`segs` the segments handed over so far: only the read-side dirty flags and the trace have
changed; the flags of the scanned slots are cleared; the segments handed over are the closed
runs of dirty slots that end before the scan position, in increasing order; an open segment
consists of dirty slots and starts a run. -/
structure UploadScanInv (vs0 : VoxelSystem) (k : Nat) (st : SegmentScan)
    (segs : List (Nat × Nat)) : Prop where
  frame : st.vs =
    { vs0 with _readVoxelDirtyArray := st.vs._readVoxelDirtyArray, trace := st.vs.trace }
  trace : st.vs.trace = vs0.trace ++ segmentEvents segs
  flags : ∀ j, st.vs._readVoxelDirtyArray j =
    if j < k then false else vs0._readVoxelDirtyArray j
  sound : ∀ r, r ∈ segs →
    IsClosedDirtyRun vs0._readVoxelDirtyArray r.1 r.2 ∧ r.2 + 1 < st.settled k
  complete : ∀ a b, IsClosedDirtyRun vs0._readVoxelDirtyArray a b → b + 1 < k → (a, b) ∈ segs
  sorted : segs.Pairwise (fun p q => p.2 < q.1)
  pending : st.inSegment = true →
    st.settled k < k ∧
    (∀ j, st.settled k ≤ j → j < k → vs0._readVoxelDirtyArray j = true) ∧
    (st.settled k = 0 ∨ vs0._readVoxelDirtyArray (st.settled k - 1) = false)
  idle : st.inSegment = false → k = 0 ∨ vs0._readVoxelDirtyArray (k - 1) = false

/-- A read side of six slots of which 0, 1, 3 and 5 are dirty. -/
def dirtyReadSystem : VoxelSystem :=
  { exampleSystem 8 emptyTree with
    _voxelsInReadArrays := 6
    _readVoxelDirtyArray := fun i => decide (i = 0 ∨ i = 1 ∨ i = 3 ∨ i = 5) }

/-! ## A culling pass described without consulting the bag -/

mutual
/-- The visit of a node by a culling pass as the walk is meant to go: the children are
scanned by removeOutOfViewOperation (classified; OUTSIDE children detached and enqueued,
INSIDE children put in the bag), then the walk goes on below the children that are left. -/
def prunedVisit (E : Env) : VoxelNode → removeOutOfViewArgs → VoxelNode × removeOutOfViewArgs
  | .mk d cs, args =>
    let rc := prunedDescend E cs
      (removeOutOfViewChildren E cs { args with nodesScanned := args.nodesScanned + 1 }).2
    (.mk d rc.1, rc.2)
/-- The walk below the scanned child slots of a node: the slot of an OUTSIDE child is empty;
an INSIDE child is taken out of the bag and handed back as it is, nothing below it is looked
at; an INTERSECT child is visited. -/
def prunedDescend (E : Env) :
    List (Option VoxelNode) → removeOutOfViewArgs → List (Option VoxelNode) × removeOutOfViewArgs
  | [], args => ([], args)
  | none :: rest, args =>
    let r := prunedDescend E rest args
    (none :: r.1, r.2)
  | some c :: rest, args =>
    match E.inFrustum c.data E.viewFrustum with
    | location.OUTSIDE =>
      let r := prunedDescend E rest args
      (none :: r.1, r.2)
    | location.INSIDE =>
      let r := prunedDescend E rest
        { args with dontRecurseBag := args.dontRecurseBag.remove c }
      (some c :: r.1, r.2)
    | location.INTERSECT =>
      let r1 := prunedVisit E c args
      let r2 := prunedDescend E rest r1.2
      (some r1.1 :: r2.1, r2.2)
end

/-- C1 (evaluation at the failing inputs): for the 15-byte Z packet that holds "foo" and then
"erase all" (each followed by a NUL) the loop of parseData compares its first string on
each of its three rounds and never reaches the second: eraseAllVoxels is not invoked (the
trace stays empty) and parseData returns 15.
For the 21-byte Z packet that holds "erase all" once, followed by five strings "a", the
first string is compared on both rounds and eraseAllVoxels is invoked twice. -/
theorem parseData_z_command_first_string_only :
    (parseData exampleEnv exampleClock (exampleSystem 4 ⟨twoLeafRoot, false⟩) fooEraseAllPacket
        15).map (fun r => (r.1.trace, r.1._tree.rootNode.children.length, r.2))
      = some ([], 8, 15) ∧
    (parseDataSwitch exampleEnv (exampleSystem 4 ⟨twoLeafRoot, false⟩) eraseAllThenShortPacket
        21).map (fun vs => vs.trace)
      = some [Event.eraseAllVoxels, Event.eraseAllVoxels] := by
  decide!

/-! ## updateNodeInArrays in closed form -/

theorem updateNodeInArrays_foldl (k : Nat) (sv : vec3) (sc : ℚ) (col : nodeColor) (n : Nat)
    (vs : VoxelSystem) :
    (List.range n).foldl (updateNodeInArraysStep k sv sc col) vs =
      { vs with
        _writeVerticesArray := fun i =>
          if k * VERTEX_POINTS_PER_VOXEL ≤ i ∧ i < k * VERTEX_POINTS_PER_VOXEL + n then
            blockVertex sv sc (i - k * VERTEX_POINTS_PER_VOXEL)
          else vs._writeVerticesArray i
        _writeColorsArray := fun i =>
          if k * VERTEX_POINTS_PER_VOXEL ≤ i ∧ i < k * VERTEX_POINTS_PER_VOXEL + n then
            col.get ((i - k * VERTEX_POINTS_PER_VOXEL) % 3)
          else vs._writeColorsArray i } := by
  induction n with
  | zero =>
    cases vs
    simp only [List.range_zero, List.foldl_nil, VoxelSystem.mk.injEq, true_and, and_true]
    constructor <;> funext i <;> rw [if_neg (by omega)]
  | succ n ih =>
    rw [List.range_succ, List.foldl_append, ih]
    cases vs
    simp only [List.foldl_cons, List.foldl_nil, updateNodeInArraysStep]
    congr 1
    · funext i
      by_cases h : i = k * VERTEX_POINTS_PER_VOXEL + n
      · subst h
        simp [blockVertex]
      · rw [Function.update_noteq h]
        by_cases h1 : k * VERTEX_POINTS_PER_VOXEL ≤ i ∧ i < k * VERTEX_POINTS_PER_VOXEL + n
        · have h2 : k * VERTEX_POINTS_PER_VOXEL ≤ i ∧ i < k * VERTEX_POINTS_PER_VOXEL + (n + 1) :=
            ⟨h1.1, by omega⟩
          simp [h1, h2]
        · have h2 : ¬ (k * VERTEX_POINTS_PER_VOXEL ≤ i ∧ i < k * VERTEX_POINTS_PER_VOXEL + (n + 1)) := by
            intro h3; apply h1; exact ⟨h3.1, by omega⟩
          simp [h1, h2]
    · funext i
      by_cases h : i = k * VERTEX_POINTS_PER_VOXEL + n
      · subst h
        simp
      · rw [Function.update_noteq h]
        by_cases h1 : k * VERTEX_POINTS_PER_VOXEL ≤ i ∧ i < k * VERTEX_POINTS_PER_VOXEL + n
        · have h2 : k * VERTEX_POINTS_PER_VOXEL ≤ i ∧ i < k * VERTEX_POINTS_PER_VOXEL + (n + 1) :=
            ⟨h1.1, by omega⟩
          simp [h1, h2]
        · have h2 : ¬ (k * VERTEX_POINTS_PER_VOXEL ≤ i ∧ i < k * VERTEX_POINTS_PER_VOXEL + (n + 1)) := by
            intro h3; apply h1; exact ⟨h3.1, by omega⟩
          simp [h1, h2]

/-- The loop of updateNodeInArrays overwrites block `nodeIndex` and nothing else. -/
theorem updateNodeInArrays_eq (vs : VoxelSystem) (k : Nat) (sv : vec3) (sc : ℚ) (col : nodeColor) :
    updateNodeInArrays vs k sv sc col =
      { vs with
        _writeVerticesArray := fun i =>
          if InSlot k i then blockVertex sv sc (i - k * VERTEX_POINTS_PER_VOXEL)
          else vs._writeVerticesArray i
        _writeColorsArray := fun i =>
          if InSlot k i then col.get ((i - k * VERTEX_POINTS_PER_VOXEL) % 3)
          else vs._writeColorsArray i } := by
  unfold updateNodeInArrays
  exact updateNodeInArrays_foldl k sv sc col VERTEX_POINTS_PER_VOXEL vs

/-! ## One call of updateNodeInArraysAsFullVBO / updateNodeInArraysAsPartialVBO -/

theorem writeBlockIs_updateNodeInArrays (vs : VoxelSystem) (k : Nat) (sv : vec3) (sc : ℚ)
    (col : nodeColor) : WriteBlockIs (updateNodeInArrays vs k sv sc col) k sv sc col := by
  intro j hj
  rw [updateNodeInArrays_eq]
  have h : InSlot k (k * VERTEX_POINTS_PER_VOXEL + j) :=
    ⟨Nat.le_add_right _ _, Nat.add_lt_add_left hj _⟩
  simp [h]

/-- C10: once the write-side slot count has reached `_maxVoxels`, both update functions
return 0 for every node and hand back the system and the node as they were: the write-side
vertex, colour and dirty arrays and the slot count are unchanged, so a block that held a
node's cube and colour still holds it. -/
theorem updateNodeInArrays_at_capacity_unchanged (vs : VoxelSystem) (node : NodeData)
    (hfull : vs._voxelsInWriteArrays ≥ vs._maxVoxels) :
    updateNodeInArraysAsFullVBO vs node = (vs, node, 0) ∧
    updateNodeInArraysAsPartialVBO vs node = (vs, node, 0) ∧
    (∀ r, r = updateNodeInArraysAsFullVBO vs node ∨ r = updateNodeInArraysAsPartialVBO vs node →
      r.2.2 = 0 ∧
      r.1._writeVerticesArray = vs._writeVerticesArray ∧
      r.1._writeColorsArray = vs._writeColorsArray ∧
      r.1._writeVoxelDirtyArray = vs._writeVoxelDirtyArray ∧
      r.1._voxelsInWriteArrays = vs._voxelsInWriteArrays ∧
      ∀ (placed : NodeData) (k : Nat),
        WriteBlockIs vs k placed.corner placed.scale placed.color →
        WriteBlockIs r.1 k placed.corner placed.scale placed.color) := by
  have h1 : updateNodeInArraysAsFullVBO vs node = (vs, node, 0) := by
    simp [updateNodeInArraysAsFullVBO, hfull]
  have h2 : updateNodeInArraysAsPartialVBO vs node = (vs, node, 0) := by
    simp [updateNodeInArraysAsPartialVBO, hfull]
  refine ⟨h1, h2, ?_⟩
  intro r hr
  have hr2 : r = (vs, node, 0) := by
    rcases hr with hr | hr
    · rw [hr, h1]
    · rw [hr, h2]
  subst hr2
  exact ⟨rfl, rfl, rfl, rfl, rfl, fun _ _ h => h⟩

theorem updateNodeInArrays_at_capacity_unchanged_witness :
    (updateNodeInArraysAsFullVBO fullSystem dirtyPlacedLeaf).2.2 = 0 ∧
    (updateNodeInArraysAsPartialVBO fullSystem dirtyNewLeaf).2.2 = 0 := by
  have h := updateNodeInArrays_at_capacity_unchanged fullSystem dirtyPlacedLeaf (by decide)
  have h2 := updateNodeInArrays_at_capacity_unchanged fullSystem dirtyNewLeaf (by decide)
  exact ⟨by rw [h.1], by rw [h2.2.1]⟩

/-- C8 (as stated, refuted): with the write side full (one slot, in use), a dirty node
that sits in slot 0 is not rewritten: the call returns 0 and the slot's dirty flag stays
clear. -/
theorem partialVBO_dirty_known_slot_at_capacity_skipped :
    dirtyPlacedLeaf.dirty = true ∧ dirtyPlacedLeaf.bufferIndex = some 0 ∧
    (updateNodeInArraysAsPartialVBO fullSystem dirtyPlacedLeaf).2.2 = 0 ∧
    (updateNodeInArraysAsPartialVBO fullSystem dirtyPlacedLeaf).1._writeVoxelDirtyArray 0 = false ∧
    (updateNodeInArraysAsPartialVBO fullSystem dirtyPlacedLeaf).1._writeColorsArray 0 = 0 := by
  decide

/-- C8 (amended): below capacity, a dirty node with a known slot index is rewritten in
place by updateNodeInArraysAsPartialVBO: the call returns 1, the slot count and the node
are unchanged, the slot's write-side dirty flag is set, and the slot's block is the node's
cube and colour when its render decision is true, and otherwise the zero-scale block at
FLT_MAX in the node's colour. -/
theorem partialVBO_rewrites_known_slot (vs : VoxelSystem) (node : NodeData) (k : Nat)
    (hroom : vs._voxelsInWriteArrays < vs._maxVoxels) (hdirty : node.dirty = true)
    (hk : node.bufferIndex = some k) :
    (updateNodeInArraysAsPartialVBO vs node).2.2 = 1 ∧
    (updateNodeInArraysAsPartialVBO vs node).2.1 = node ∧
    (updateNodeInArraysAsPartialVBO vs node).1._voxelsInWriteArrays = vs._voxelsInWriteArrays ∧
    (updateNodeInArraysAsPartialVBO vs node).1._writeVoxelDirtyArray k = true ∧
    (node.shouldRender = true →
      WriteBlockIs (updateNodeInArraysAsPartialVBO vs node).1 k node.corner node.scale node.color) ∧
    (node.shouldRender = false →
      WriteBlockIs (updateNodeInArraysAsPartialVBO vs node).1 k ⟨FLT_MAX, FLT_MAX, FLT_MAX⟩ 0
        node.color) := by
  have hnot : ¬ vs._voxelsInWriteArrays ≥ vs._maxVoxels := by omega
  have hres : updateNodeInArraysAsPartialVBO vs node =
      (updateNodeInArrays
        { vs with _writeVoxelDirtyArray := Function.update vs._writeVoxelDirtyArray k true } k
        (if node.shouldRender then node.corner else ⟨FLT_MAX, FLT_MAX, FLT_MAX⟩)
        (if node.shouldRender then node.scale else 0) node.color, node, 1) := by
    simp [updateNodeInArraysAsPartialVBO, hnot, NodeData.isDirty, hdirty,
      NodeData.isKnownBufferIndex, NodeData.getBufferIndex, hk, NodeData.getShouldRender,
      NodeData.getCorner, NodeData.getScale, NodeData.getColor]
  rw [hres]
  refine ⟨rfl, rfl, ?_, ?_, ?_, ?_⟩
  · rw [updateNodeInArrays_eq]
  · rw [updateNodeInArrays_eq]; simp
  · intro hr
    have := writeBlockIs_updateNodeInArrays
      { vs with _writeVoxelDirtyArray := Function.update vs._writeVoxelDirtyArray k true } k
      node.corner node.scale node.color
    simpa [hr] using this
  · intro hr
    have := writeBlockIs_updateNodeInArrays
      { vs with _writeVoxelDirtyArray := Function.update vs._writeVoxelDirtyArray k true } k
      ⟨FLT_MAX, FLT_MAX, FLT_MAX⟩ 0 node.color
    simpa [hr] using this

theorem partialVBO_rewrites_known_slot_witness :
    (updateNodeInArraysAsPartialVBO (exampleSystem 4 emptyTree) dirtyPlacedLeaf).2.2 = 1 ∧
    (updateNodeInArraysAsPartialVBO (exampleSystem 4 emptyTree) dirtyPlacedLeaf).1._writeVoxelDirtyArray 0
      = true :=
  have h := partialVBO_rewrites_known_slot (exampleSystem 4 emptyTree) dirtyPlacedLeaf 0
    (by decide) (by decide) (by decide)
  ⟨h.1, h.2.2.2.1⟩

/-- C9 (as stated, refuted): with the write side full (one slot, in use), a dirty node
without a slot is not appended: the call returns 0, the slot count stays 1 instead of
growing by one, and the node's slot index stays unknown. -/
theorem partialVBO_dirty_new_node_at_capacity_not_appended :
    dirtyNewLeaf.dirty = true ∧ dirtyNewLeaf.bufferIndex = none ∧
    fullSystem._voxelsInWriteArrays = 1 ∧
    (updateNodeInArraysAsPartialVBO fullSystem dirtyNewLeaf).2.2 = 0 ∧
    (updateNodeInArraysAsPartialVBO fullSystem dirtyNewLeaf).1._voxelsInWriteArrays = 1 ∧
    (updateNodeInArraysAsPartialVBO fullSystem dirtyNewLeaf).2.1.bufferIndex = none ∧
    (updateNodeInArraysAsPartialVBO fullSystem dirtyNewLeaf).1._writeVoxelDirtyArray 1 = false := by
  decide

/-- C9 (amended): updateNodeInArraysAsPartialVBO leaves unaffected slots untouched. For a
node whose dirty flag is clear it returns 0 and hands back the system and the node as they
were. For a dirty node, when the slot count is below `_maxVoxels`, it returns 1 and writes
the one slot `k` that is the node's cached slot, or the previous count when the node's slot
was unknown (then the node gets that index and the count grows by exactly 1, otherwise
both are unchanged): that slot's dirty flag is set, and every vertex and colour entry
outside block `k` and every dirty flag other than `k` is unchanged. -/
theorem partialVBO_touches_one_slot (vs : VoxelSystem) (node : NodeData) :
    (node.dirty = false → updateNodeInArraysAsPartialVBO vs node = (vs, node, 0)) ∧
    (node.dirty = true → vs._voxelsInWriteArrays < vs._maxVoxels →
      ∃ k,
        (node.bufferIndex = some k ∨ (node.bufferIndex = none ∧ k = vs._voxelsInWriteArrays)) ∧
        (updateNodeInArraysAsPartialVBO vs node).2.2 = 1 ∧
        (updateNodeInArraysAsPartialVBO vs node).2.1.bufferIndex = some k ∧
        (updateNodeInArraysAsPartialVBO vs node).1._voxelsInWriteArrays =
          (if node.bufferIndex = none then vs._voxelsInWriteArrays + 1
            else vs._voxelsInWriteArrays) ∧
        (updateNodeInArraysAsPartialVBO vs node).1._writeVoxelDirtyArray k = true ∧
        (∀ i, ¬ InSlot k i →
          (updateNodeInArraysAsPartialVBO vs node).1._writeVerticesArray i = vs._writeVerticesArray i ∧
          (updateNodeInArraysAsPartialVBO vs node).1._writeColorsArray i = vs._writeColorsArray i) ∧
        (∀ j, j ≠ k →
          (updateNodeInArraysAsPartialVBO vs node).1._writeVoxelDirtyArray j =
            vs._writeVoxelDirtyArray j)) := by
  constructor
  · intro hclean
    simp [updateNodeInArraysAsPartialVBO, NodeData.isDirty, hclean]
  · intro hdirty hroom
    have hnot : ¬ vs._voxelsInWriteArrays ≥ vs._maxVoxels := by omega
    cases hk : node.bufferIndex with
    | none =>
      have hres : updateNodeInArraysAsPartialVBO vs node =
          (updateNodeInArrays
            { vs with
              _voxelsInWriteArrays := vs._voxelsInWriteArrays + 1
              _writeVoxelDirtyArray :=
                Function.update vs._writeVoxelDirtyArray vs._voxelsInWriteArrays true }
            vs._voxelsInWriteArrays
            (if node.shouldRender then node.corner else ⟨FLT_MAX, FLT_MAX, FLT_MAX⟩)
            (if node.shouldRender then node.scale else 0) node.color,
            { node with bufferIndex := some vs._voxelsInWriteArrays }, 1) := by
        simp [updateNodeInArraysAsPartialVBO, hnot, NodeData.isDirty, hdirty,
          NodeData.isKnownBufferIndex, hk, NodeData.setBufferIndex, NodeData.getShouldRender,
          NodeData.getCorner, NodeData.getScale, NodeData.getColor]
      rw [hres, updateNodeInArrays_eq]
      refine ⟨vs._voxelsInWriteArrays, Or.inr ⟨rfl, rfl⟩, rfl, rfl, rfl, ?_, ?_, ?_⟩
      · simp
      · intro i hi
        simp only [if_neg hi, and_self]
      · intro j hj
        simp only [Function.update_noteq hj]
    | some k =>
      have hres : updateNodeInArraysAsPartialVBO vs node =
          (updateNodeInArrays
            { vs with _writeVoxelDirtyArray := Function.update vs._writeVoxelDirtyArray k true } k
            (if node.shouldRender then node.corner else ⟨FLT_MAX, FLT_MAX, FLT_MAX⟩)
            (if node.shouldRender then node.scale else 0) node.color, node, 1) := by
        simp [updateNodeInArraysAsPartialVBO, hnot, NodeData.isDirty, hdirty,
          NodeData.isKnownBufferIndex, NodeData.getBufferIndex, hk, NodeData.getShouldRender,
          NodeData.getCorner, NodeData.getScale, NodeData.getColor]
      rw [hres, updateNodeInArrays_eq]
      refine ⟨k, Or.inl rfl, rfl, hk, ?_, ?_, ?_, ?_⟩
      · simp
      · simp
      · intro i hi
        simp only [if_neg hi, and_self]
      · intro j hj
        simp only [Function.update_noteq hj]

theorem partialVBO_touches_one_slot_witness :
    ∃ k,
      (dirtyNewLeaf.bufferIndex = some k ∨
        (dirtyNewLeaf.bufferIndex = none ∧ k = (exampleSystem 4 emptyTree)._voxelsInWriteArrays)) ∧
      (updateNodeInArraysAsPartialVBO (exampleSystem 4 emptyTree) dirtyNewLeaf).2.2 = 1 ∧
      (updateNodeInArraysAsPartialVBO (exampleSystem 4 emptyTree) dirtyNewLeaf).2.1.bufferIndex = some k := by
  obtain ⟨k, h1, h2, h3, _⟩ :=
    (partialVBO_touches_one_slot (exampleSystem 4 emptyTree) dirtyNewLeaf).2 (by decide) (by decide)
  exact ⟨k, h1, h2, h3⟩

/-! ## The render decision -/

theorem updateNodeInArraysAsFullVBO_shouldRender (vs : VoxelSystem) (node : NodeData) :
    (updateNodeInArraysAsFullVBO vs node).2.1.shouldRender = node.shouldRender := by
  unfold updateNodeInArraysAsFullVBO
  split_ifs <;> simp [NodeData.setBufferIndex]

theorem updateNodeInArraysAsPartialVBO_shouldRender (vs : VoxelSystem) (node : NodeData) :
    (updateNodeInArraysAsPartialVBO vs node).2.1.shouldRender = node.shouldRender := by
  unfold updateNodeInArraysAsPartialVBO
  split_ifs <;> simp [NodeData.setBufferIndex]

theorem setShouldRender_shouldRender (node : NodeData) (b : Bool) :
    (node.setShouldRender b).shouldRender = b := by
  unfold NodeData.setShouldRender
  split_ifs with h
  · rfl
  · exact (by simpa using h : b = node.shouldRender).symm

/-- The render decision the walk leaves in the node it was called on. -/
theorem newTreeToArrays_shouldRender (E : Env) (vs : VoxelSystem) (node : NodeData)
    (children : List (Option VoxelNode)) :
    (newTreeToArrays E vs (VoxelNode.mk node children)).2.1.data.shouldRender =
      (computeShouldRender E node (isLeafSlots children) && !node.stagedForDeletion) := by
  rw [newTreeToArrays]
  simp only [VoxelNode.data, NodeData.clearDirtyBit]
  split_ifs <;>
    simp [updateNodeInArraysAsFullVBO_shouldRender, updateNodeInArraysAsPartialVBO_shouldRender,
      setShouldRender_shouldRender, NodeData.isStagedForDeletion]

/-- C6: for a colored node that is not staged for deletion, with `d` its distance to the
camera, `b` the boundary distance of its level and `c` that of the next level,
newTreeToArrays leaves the render decision true exactly when (the node is a leaf and
`d ≤ c`) or (`d ≤ b` and not `d ≤ c`); for an uncolored node and for a node staged for
deletion it leaves the render decision false. -/
theorem newTreeToArrays_render_decision (E : Env) (vs : VoxelSystem) (node : NodeData)
    (children : List (Option VoxelNode)) :
    (node.colored = true → node.stagedForDeletion = false →
      ((newTreeToArrays E vs (VoxelNode.mk node children)).2.1.data.shouldRender = true ↔
        ((VoxelNode.mk node children).isLeaf = true ∧
            E.distanceToCamera node E.viewFrustum ≤ E.boundaryDistanceForRenderLevel (node.level + 1)) ∨
          (E.distanceToCamera node E.viewFrustum ≤ E.boundaryDistanceForRenderLevel node.level ∧
            ¬ E.distanceToCamera node E.viewFrustum ≤
              E.boundaryDistanceForRenderLevel (node.level + 1)))) ∧
    (node.colored = false ∨ node.stagedForDeletion = true →
      (newTreeToArrays E vs (VoxelNode.mk node children)).2.1.data.shouldRender = false) := by
  rw [newTreeToArrays_shouldRender]
  constructor
  · intro hc hs
    simp [computeShouldRender, NodeData.isColored, NodeData.getLevel, hc, hs, VoxelNode.isLeaf,
      VoxelNode.children]
  · intro h
    rcases h with h | h
    · simp [computeShouldRender, NodeData.isColored, h]
    · simp [h]

theorem newTreeToArrays_render_decision_witness :
    (newTreeToArrays exampleEnv (exampleSystem 4 emptyTree)
      (VoxelNode.mk (leafData [0] ⟨0, 0, 0⟩ ⟨255, 0, 0, 0⟩) [])).2.1.data.shouldRender = true :=
  ((newTreeToArrays_render_decision exampleEnv (exampleSystem 4 emptyTree)
      (leafData [0] ⟨0, 0, 0⟩ ⟨255, 0, 0, 0⟩) []).1 (by decide) (by decide)).2
    (Or.inl ⟨by decide, by decide⟩)

/-! ## processDatagram -/

/-- C3 (evaluation at the failing input): in a compressed packet whose only section
declares 5 bytes while only 2 bytes remain behind the length field, processDatagram still
makes the decode call for that section, at offset 31 with length 5. -/
theorem processDatagram_decodes_overlong_section :
    overlongSectionPacket.length = 33 ∧
    exampleLayout.packetIsCompressed (packetFlags exampleLayout overlongSectionPacket) = true ∧
    processDatagram exampleLayout 4 overlongSectionPacket =
      { calls := [{ dataAt := 31, sectionLength := 5, wantColor := false }], finished := true } ∧
    DecodeCall.bytes overlongSectionPacket { dataAt := 31, sectionLength := 5, wantColor := false }
      = [1, 2] := by
  decide

theorem getD_replicate_zero (n i : Nat) : (List.replicate n 0).getD i 0 = 0 := by
  induction n generalizing i with
  | zero => simp
  | succ n ih =>
    cases i with
    | zero => simp [List.replicate_succ]
    | succ i => simp [List.replicate_succ, ih i]

/-- With a 2-byte section length, a payload of exactly 65536 bytes left in an uncompressed
packet gives section length 0 in every iteration: the loop makes no call and does not end. -/
theorem sectionLoop_spins (packet : List Nat) (c : Bool) (dataAt : Nat)
    (calls : List DecodeCall) (fuel : Nat) :
    sectionLoop exampleLayout packet c false fuel dataAt 65536 calls =
      { calls := calls, finished := false } := by
  induction fuel with
  | zero => simp [sectionLoop]
  | succ n ih =>
    rw [sectionLoop]
    have hsz : exampleLayout.sizeofSectionSize = 2 := rfl
    simp [hsz, ih]

theorem hugePacket_length : hugePacket.length = 65570 := by
  unfold hugePacket
  rw [List.length_cons, List.length_replicate]

theorem hugePacket_getD_succ (i : Nat) : hugePacket.getD (i + 1) 0 = 0 := by
  unfold hugePacket
  rw [List.getD_cons_succ]
  exact getD_replicate_zero _ i

theorem hugePacket_flags : packetFlags exampleLayout hugePacket = 0 := by
  have h : hugePacket.getD 18 0 = 0 := hugePacket_getD_succ 17
  simp only [packetFlags, exampleLayout, readUnsigned, h]

/-- C4 (evaluation at the failing input): an uncompressed packet of the expected type with a
payload of 65541 bytes and a 2-byte OCTREE_PACKET_INTERNAL_SECTION_SIZE. The assignment
`sectionLength = dataBytes` narrows 65541 to 5: the one decode call made starts behind the
sent-timestamp field but has length 5, not 65541, and with the 65536 bytes that remain the
section length is 0 in every further iteration, so the loop never ends, however many
iterations it is given. -/
theorem processDatagram_uncompressed_long_payload_truncated :
    hugePacket.getD 0 0 = exampleLayout.expectedPacketType ∧
    exampleLayout.packetIsCompressed (packetFlags exampleLayout hugePacket) = false ∧
    (hugePacket.length : Int) - (29 : Int) = 65541 ∧
    (∀ fuel, 1 ≤ fuel →
      processDatagram exampleLayout fuel hugePacket =
        { calls := [{ dataAt := 29, sectionLength := 5, wantColor := false }], finished := false }) := by
  have hcmd : hugePacket.getD 0 0 = 86 := rfl
  have hlen : (hugePacket.length : Int) = 65570 := by rw [hugePacket_length]; rfl
  refine ⟨hcmd, ?_, by rw [hlen]; rfl, ?_⟩
  · rw [hugePacket_flags]; decide
  · intro fuel hfuel
    obtain ⟨n, rfl⟩ : ∃ n, fuel = n + 1 := ⟨fuel - 1, by omega⟩
    unfold processDatagram
    rw [hugePacket_flags]
    simp only [hcmd, hlen, exampleLayout, OCTREE_PACKET_EXTRA_HEADERS_SIZE, if_true]
    rw [sectionLoop]
    have h := sectionLoop_spins hugePacket false 34 [{ dataAt := 29, sectionLength := 5, wantColor := false }] n
    simpa [exampleLayout] using h

/-- The payloads the narrowing leaves intact: for a packet of the expected type whose
compressed flag is clear and whose payload size
`dataBytes = packetLength - (header bytes + OCTREE_PACKET_EXTRA_HEADERS_SIZE)` is positive
and below 2 ^ (8 * sizeof) of the section length type, processDatagram makes exactly one
decode call and ends: the section starts immediately after the sent-timestamp field and its
length is `dataBytes`. -/
theorem processDatagram_uncompressed_single_section (L : OctreePacketLayout) (packet : List Nat)
    (fuel : Nat)
    (htype : packet.getD 0 0 = L.expectedPacketType)
    (hflag : L.packetIsCompressed (packetFlags L packet) = false)
    (hpos : L.numBytesForPacketHeader packet + OCTREE_PACKET_EXTRA_HEADERS_SIZE L < packet.length)
    (hfit : packet.length - (L.numBytesForPacketHeader packet + OCTREE_PACKET_EXTRA_HEADERS_SIZE L)
      < 2 ^ (8 * L.sizeofSectionSize))
    (hfuel : 1 ≤ fuel) :
    processDatagram L fuel packet =
      { calls :=
          [{ dataAt := L.numBytesForPacketHeader packet + L.sizeofFlags + L.sizeofSequence
                + L.sizeofSentTime
             sectionLength :=
               packet.length - (L.numBytesForPacketHeader packet + OCTREE_PACKET_EXTRA_HEADERS_SIZE L)
             wantColor := L.packetIsColored (packetFlags L packet) }]
        finished := true } := by
  obtain ⟨n, rfl⟩ : ∃ n, fuel = n + 1 := ⟨fuel - 1, by omega⟩
  generalize hd : packet.length - (L.numBytesForPacketHeader packet + OCTREE_PACKET_EXTRA_HEADERS_SIZE L) = d at hfit
  have hdpos : 0 < d := by omega
  have hdi : (packet.length : Int) -
      ((L.numBytesForPacketHeader packet : Int) + (OCTREE_PACKET_EXTRA_HEADERS_SIZE L : Int)) = (d : Int) := by
    omega
  unfold processDatagram
  simp only [htype, if_true, hflag, hdi]
  rw [sectionLoop]
  have hmod : (d : Int).toNat % 2 ^ (8 * L.sizeofSectionSize) = d := by
    simp [Nat.mod_eq_of_lt hfit]
  have hgt : (d : Int) > 0 := by omega
  have hne : d ≠ 0 := by omega
  simp only [hgt, if_true, hmod, Bool.false_eq_true, if_false, ne_eq, hne, not_false_eq_true,
    List.nil_append, sub_self]
  cases n <;> simp [sectionLoop]

theorem processDatagram_uncompressed_single_section_witness :
    processDatagram exampleLayout 2 plainPacket =
      { calls := [{ dataAt := 29, sectionLength := 4, wantColor := false }], finished := true } :=
  processDatagram_uncompressed_single_section exampleLayout plainPacket 2 (by decide) (by decide)
    (by decide) (by decide) (by decide)

/-- The section loop on a well-formed compressed payload: one call per section, then the
loop ends. -/
theorem sectionLoop_compressed (L : OctreePacketLayout) (packet : List Nat) (c : Bool) :
    ∀ (sections : List (List Nat)) (fuel offset : Nat) (calls : List DecodeCall),
      sectionsAt L packet offset sections → sections.length ≤ fuel →
      sectionLoop L packet c true fuel offset ((packet.length : Int) - (offset : Int)) calls =
        { calls := calls ++ expectedCalls L c offset sections, finished := true }
  | [], fuel, offset, calls, hsec, _ => by
    have hoff : offset = packet.length := hsec
    subst hoff
    cases fuel <;> simp [sectionLoop, expectedCalls]
  | s :: rest, fuel, offset, calls, hsec, hfuel => by
    obtain ⟨hpos, hlen, _, hle, hrest⟩ := hsec
    obtain ⟨n, rfl⟩ : ∃ n, fuel = n + 1 := ⟨fuel - 1, by simp at hfuel; omega⟩
    have hn : rest.length ≤ n := by simp at hfuel; omega
    have ih := sectionLoop_compressed L packet c rest n (offset + L.sizeofSectionSize + s.length)
      (calls ++ [{ dataAt := offset + L.sizeofSectionSize, sectionLength := s.length, wantColor := c }])
      hrest hn
    have hgt : (packet.length : Int) - (offset : Int) > 0 := by omega
    have hgt2 : (packet.length : Int) - (offset : Int) > (L.sizeofSectionSize : Int) := by omega
    have hne : s.length ≠ 0 := by omega
    have hcast : (packet.length : Int) - (offset : Int) - (L.sizeofSectionSize : Int) - (s.length : Int)
        = (packet.length : Int) - ((offset + L.sizeofSectionSize + s.length : Nat) : Int) := by
      push_cast; ring
    rw [sectionLoop]
    simp only [hgt, hgt2, if_true, hlen, ne_eq, hne, not_false_eq_true, hcast]
    rw [ih]
    simp [expectedCalls]

theorem expectedCalls_length (L : OctreePacketLayout) (c : Bool) :
    ∀ (sections : List (List Nat)) (offset : Nat),
      (expectedCalls L c offset sections).length = sections.length
  | [], _ => rfl
  | s :: rest, offset => by
    simp [expectedCalls, expectedCalls_length L c rest]

theorem expectedCalls_bytes (L : OctreePacketLayout) (c : Bool) (packet : List Nat) :
    ∀ (sections : List (List Nat)) (offset : Nat), sectionsAt L packet offset sections →
      (expectedCalls L c offset sections).map (DecodeCall.bytes packet) = sections
  | [], _, _ => rfl
  | s :: rest, offset, hsec => by
    obtain ⟨_, _, hbytes, _, hrest⟩ := hsec
    simp [expectedCalls, DecodeCall.bytes, hbytes, expectedCalls_bytes L c packet rest _ hrest]

theorem expectedCalls_dataAt (L : OctreePacketLayout) (c : Bool) :
    ∀ (sections : List (List Nat)) (offset : Nat),
      (expectedCalls L c offset sections).map (fun call => call.dataAt) =
        sectionOffsets L offset sections
  | [], _ => rfl
  | s :: rest, offset => by
    simp [expectedCalls, sectionOffsets, expectedCalls_dataAt L c rest]

theorem expectedCalls_wantColor (L : OctreePacketLayout) (c : Bool) :
    ∀ (sections : List (List Nat)) (offset : Nat),
      ∀ call ∈ expectedCalls L c offset sections, call.wantColor = c
  | [], _ => by simp [expectedCalls]
  | s :: rest, offset => by
    intro call hcall
    simp only [expectedCalls, List.mem_cons] at hcall
    rcases hcall with h | h
    · rw [h]
    · exact expectedCalls_wantColor L c rest _ call h

/-- C5: for a packet of the expected type whose compressed flag is set and whose payload
is the concatenation of n sections (n ≥ 1, and n = 0 as well), each a length field holding
a positive length followed by that many bytes, processDatagram ends after exactly n decode
calls, made in
packet order; the i-th call starts right behind the i-th length field and is handed
exactly the bytes of the i-th section, and every call wants colour exactly when the
packet's colour flag is set. -/
theorem processDatagram_compressed_sections (L : OctreePacketLayout) (packet : List Nat)
    (sections : List (List Nat)) (fuel : Nat)
    (htype : packet.getD 0 0 = L.expectedPacketType)
    (hflag : L.packetIsCompressed (packetFlags L packet) = true)
    (hsec : sectionsAt L packet
      (L.numBytesForPacketHeader packet + OCTREE_PACKET_EXTRA_HEADERS_SIZE L) sections)
    (hfuel : sections.length ≤ fuel) :
    (processDatagram L fuel packet).finished = true ∧
    (processDatagram L fuel packet).calls.length = sections.length ∧
    (processDatagram L fuel packet).calls.map (DecodeCall.bytes packet) = sections ∧
    (processDatagram L fuel packet).calls.map (fun call => call.dataAt) =
      sectionOffsets L (L.numBytesForPacketHeader packet + OCTREE_PACKET_EXTRA_HEADERS_SIZE L)
        sections ∧
    ∀ call ∈ (processDatagram L fuel packet).calls,
      call.wantColor = L.packetIsColored (packetFlags L packet) := by
  have hrun : processDatagram L fuel packet =
      { calls := expectedCalls L (L.packetIsColored (packetFlags L packet))
          (L.numBytesForPacketHeader packet + OCTREE_PACKET_EXTRA_HEADERS_SIZE L) sections
        finished := true } := by
    have h := sectionLoop_compressed L packet (L.packetIsColored (packetFlags L packet)) sections
      fuel (L.numBytesForPacketHeader packet + OCTREE_PACKET_EXTRA_HEADERS_SIZE L) [] hsec hfuel
    unfold processDatagram
    simp only [htype, if_true, hflag]
    have hoff : L.numBytesForPacketHeader packet + L.sizeofFlags + L.sizeofSequence + L.sizeofSentTime
        = L.numBytesForPacketHeader packet + OCTREE_PACKET_EXTRA_HEADERS_SIZE L := by
      unfold OCTREE_PACKET_EXTRA_HEADERS_SIZE; omega
    rw [hoff]
    have hcast : ((L.numBytesForPacketHeader packet : Int) + (OCTREE_PACKET_EXTRA_HEADERS_SIZE L : Int))
        = ((L.numBytesForPacketHeader packet + OCTREE_PACKET_EXTRA_HEADERS_SIZE L : Nat) : Int) := by
      push_cast; rfl
    rw [hcast, h]
    simp
  rw [hrun]
  exact ⟨rfl, expectedCalls_length L _ sections _, expectedCalls_bytes L _ packet sections _ hsec,
    expectedCalls_dataAt L _ sections _, expectedCalls_wantColor L _ sections _⟩

theorem processDatagram_compressed_sections_witness :
    (processDatagram exampleLayout 2 twoSectionPacket).finished = true ∧
    (processDatagram exampleLayout 2 twoSectionPacket).calls.length = 2 ∧
    (processDatagram exampleLayout 2 twoSectionPacket).calls.map (DecodeCall.bytes twoSectionPacket)
      = [[7, 8, 9], [6]] :=
  have h := processDatagram_compressed_sections exampleLayout twoSectionPacket [[7, 8, 9], [6]] 2
    (by decide) (by decide) (by decide) (by decide)
  ⟨h.1, h.2.1, h.2.2.1⟩

/-! ## The walk in full-rebuild mode -/

theorem newTreeToArraysChildren_leaf (E : Env) (vs : VoxelSystem) :
    ∀ children : List (Option VoxelNode), isLeafSlots children = true →
      newTreeToArraysChildren E vs children = (vs, children, 0)
  | [], _ => by simp [newTreeToArraysChildren]
  | none :: rest, h => by
    have h' : isLeafSlots rest = true := by simpa [isLeafSlots] using h
    simp [newTreeToArraysChildren, newTreeToArraysChildren_leaf E vs rest h']
  | some child :: rest, h => by simp [isLeafSlots] at h

/-- The walk of a node: the children, then the node part. -/
theorem newTreeToArrays_eq (E : Env) (vs : VoxelSystem) (node : NodeData)
    (children : List (Option VoxelNode)) :
    newTreeToArrays E vs (VoxelNode.mk node children) =
      ((newTreeToArraysNodePart (newTreeToArraysChildren E vs children).1
          (node.setShouldRender
            (computeShouldRender E node (isLeafSlots children) && !node.isStagedForDeletion))).1,
        VoxelNode.mk
          (newTreeToArraysNodePart (newTreeToArraysChildren E vs children).1
            (node.setShouldRender
              (computeShouldRender E node (isLeafSlots children) && !node.isStagedForDeletion))).2.1
          (newTreeToArraysChildren E vs children).2.1,
        (newTreeToArraysChildren E vs children).2.2 +
          (newTreeToArraysNodePart (newTreeToArraysChildren E vs children).1
            (node.setShouldRender
              (computeShouldRender E node (isLeafSlots children) && !node.isStagedForDeletion))).2.2) := by
  rw [newTreeToArrays]
  by_cases hleaf : isLeafSlots children = true
  · simp [hleaf, newTreeToArraysChildren_leaf E vs children hleaf, newTreeToArraysNodePart]
  · simp [hleaf, newTreeToArraysNodePart]

theorem renderedOf_append (a b : List NodeData) :
    renderedOf (a ++ b) = renderedOf a ++ renderedOf b := by
  simp [renderedOf]

theorem fullStep_refl (vs : VoxelSystem) : FullStep vs vs [] 0 where
  mode := rfl
  room := rfl
  updated_eq := rfl
  count_eq := rfl
  slots := by intro j d h; simp [renderedOf] at h
  below := fun _ _ => ⟨rfl, rfl⟩

theorem fullStep_trans {vs vs1 vs2 : VoxelSystem} {out1 out2 : List NodeData} {n1 n2 : Nat}
    (h1 : FullStep vs vs1 out1 n1) (h2 : FullStep vs1 vs2 out2 n2) :
    FullStep vs vs2 (out1 ++ out2) (n1 + n2) where
  mode := h2.mode.trans h1.mode
  room := h2.room.trans h1.room
  updated_eq := by rw [renderedOf_append, List.length_append, h1.updated_eq, h2.updated_eq]
  count_eq := by
    rw [renderedOf_append, List.length_append, h2.count_eq, h1.count_eq]; omega
  slots := by
    intro j d hj
    rw [renderedOf_append] at hj
    by_cases hlt : j < (renderedOf out1).length
    · rw [List.getElem?_append_left hlt] at hj
      obtain ⟨hidx, hblock⟩ := h1.slots j d hj
      refine ⟨hidx, ?_⟩
      intro jj hjj
      have hb := h2.below ((vs._voxelsInWriteArrays + j) * VERTEX_POINTS_PER_VOXEL + jj) (by
        rw [h1.count_eq]
        simp only [VERTEX_POINTS_PER_VOXEL, VERTICES_PER_VOXEL] at hjj ⊢
        omega)
      rw [hb.1, hb.2]
      exact hblock jj hjj
    · have hge : (renderedOf out1).length ≤ j := by omega
      rw [List.getElem?_append_right hge] at hj
      obtain ⟨hidx, hblock⟩ := h2.slots (j - (renderedOf out1).length) d hj
      have hc : vs1._voxelsInWriteArrays + (j - (renderedOf out1).length)
          = vs._voxelsInWriteArrays + j := by
        rw [h1.count_eq]; omega
      rw [hc] at hidx hblock
      exact ⟨hidx, hblock⟩
  below := by
    intro i hi
    have hb1 := h1.below i hi
    have hb2 := h2.below i (by
      rw [h1.count_eq]
      simp only [VERTEX_POINTS_PER_VOXEL, VERTICES_PER_VOXEL] at hi ⊢
      omega)
    exact ⟨hb2.1.trans hb1.1, hb2.2.trans hb1.2⟩

@[simp] theorem updateNodeInArrays_maxVoxels (vs : VoxelSystem) (k : Nat) (sv : vec3) (sc : ℚ)
    (col : nodeColor) : (updateNodeInArrays vs k sv sc col)._maxVoxels = vs._maxVoxels := by
  rw [updateNodeInArrays_eq]

@[simp] theorem updateNodeInArrays_writeRenderFullVBO (vs : VoxelSystem) (k : Nat) (sv : vec3)
    (sc : ℚ) (col : nodeColor) :
    (updateNodeInArrays vs k sv sc col)._writeRenderFullVBO = vs._writeRenderFullVBO := by
  rw [updateNodeInArrays_eq]

@[simp] theorem updateNodeInArrays_voxelsInWriteArrays (vs : VoxelSystem) (k : Nat) (sv : vec3)
    (sc : ℚ) (col : nodeColor) :
    (updateNodeInArrays vs k sv sc col)._voxelsInWriteArrays = vs._voxelsInWriteArrays := by
  rw [updateNodeInArrays_eq]

@[simp] theorem updateNodeInArrays_writeVoxelDirtyArray (vs : VoxelSystem) (k : Nat) (sv : vec3)
    (sc : ℚ) (col : nodeColor) :
    (updateNodeInArrays vs k sv sc col)._writeVoxelDirtyArray = vs._writeVoxelDirtyArray := by
  rw [updateNodeInArrays_eq]

@[simp] theorem updateNodeInArrays_trace (vs : VoxelSystem) (k : Nat) (sv : vec3) (sc : ℚ)
    (col : nodeColor) : (updateNodeInArrays vs k sv sc col).trace = vs.trace := by
  rw [updateNodeInArrays_eq]

theorem updateNodeInArraysAsFullVBO_render (vs : VoxelSystem) (node : NodeData)
    (hlt : ¬ vs._voxelsInWriteArrays ≥ vs._maxVoxels) (hr : node.shouldRender = true) :
    updateNodeInArraysAsFullVBO vs node =
      ({ updateNodeInArrays vs vs._voxelsInWriteArrays node.corner node.scale node.color with
          _writeVoxelDirtyArray :=
            Function.update
              (updateNodeInArrays vs vs._voxelsInWriteArrays node.corner node.scale
                node.color)._writeVoxelDirtyArray vs._voxelsInWriteArrays true
          _voxelsInWriteArrays :=
            (updateNodeInArrays vs vs._voxelsInWriteArrays node.corner node.scale
              node.color)._voxelsInWriteArrays + 1 },
        { node with bufferIndex := some vs._voxelsInWriteArrays }, 1) := by
  unfold updateNodeInArraysAsFullVBO
  rw [if_neg hlt, if_pos (by simpa [NodeData.getShouldRender] using hr)]
  rfl

theorem updateNodeInArraysAsFullVBO_skip (vs : VoxelSystem) (node : NodeData)
    (hr : node.shouldRender = false) :
    (updateNodeInArraysAsFullVBO vs node).1 = vs ∧ (updateNodeInArraysAsFullVBO vs node).2.2 = 0 := by
  unfold updateNodeInArraysAsFullVBO
  split_ifs with h1 h2
  · exact ⟨rfl, rfl⟩
  · simp [NodeData.getShouldRender, hr] at h2
  · exact ⟨rfl, rfl⟩

theorem newTreeToArraysNodePart_shouldRender (vs : VoxelSystem) (node1 : NodeData) :
    (newTreeToArraysNodePart vs node1).2.1.shouldRender = node1.shouldRender := by
  unfold newTreeToArraysNodePart
  simp only [NodeData.clearDirtyBit]
  split_ifs <;>
    simp [updateNodeInArraysAsFullVBO_shouldRender, updateNodeInArraysAsPartialVBO_shouldRender]

/-- The node part in full-rebuild mode, with room for the node if it is rendered. -/
theorem newTreeToArraysNodePart_full (vs : VoxelSystem) (node1 : NodeData)
    (hfull : vs._writeRenderFullVBO = true)
    (hroom : vs._voxelsInWriteArrays + (renderedOf [(newTreeToArraysNodePart vs node1).2.1]).length
      ≤ vs._maxVoxels) :
    FullStep vs (newTreeToArraysNodePart vs node1).1 [(newTreeToArraysNodePart vs node1).2.1]
      (newTreeToArraysNodePart vs node1).2.2 := by
  have hsr := newTreeToArraysNodePart_shouldRender vs node1
  cases hr : node1.shouldRender with
  | false =>
    rw [hr] at hsr
    have hnone : renderedOf [(newTreeToArraysNodePart vs node1).2.1] = [] := by
      simp [renderedOf, hsr]
    obtain ⟨hs1, hs2⟩ := updateNodeInArraysAsFullVBO_skip vs node1 hr
    have hst : (newTreeToArraysNodePart vs node1).2.2 = 0 ∧
        (newTreeToArraysNodePart vs node1).1._writeRenderFullVBO = true ∧
        (newTreeToArraysNodePart vs node1).1._maxVoxels = vs._maxVoxels ∧
        (newTreeToArraysNodePart vs node1).1._voxelsInWriteArrays = vs._voxelsInWriteArrays ∧
        (newTreeToArraysNodePart vs node1).1._writeVerticesArray = vs._writeVerticesArray ∧
        (newTreeToArraysNodePart vs node1).1._writeColorsArray = vs._writeColorsArray := by
      unfold newTreeToArraysNodePart deleteVoxelCodeFromTree
      simp only [hfull, if_true, hs1, hs2]
      split_ifs <;> simp [hfull]
    obtain ⟨h0, hm, hx, hc, hv, hcol⟩ := hst
    exact
      { mode := by rw [hm, hfull]
        room := hx
        updated_eq := by rw [hnone, h0]; rfl
        count_eq := by rw [hnone, hc]; rfl
        slots := by intro j d h; rw [hnone] at h; simp at h
        below := by intro i _; rw [hv, hcol]; exact ⟨rfl, rfl⟩ }
  | true =>
    rw [hr] at hsr
    have hone : renderedOf [(newTreeToArraysNodePart vs node1).2.1]
        = [(newTreeToArraysNodePart vs node1).2.1] := by
      simp [renderedOf, hsr]
    rw [hone] at hroom
    have hlt : ¬ vs._voxelsInWriteArrays ≥ vs._maxVoxels := by
      simp only [List.length_singleton] at hroom; omega
    have hst : (newTreeToArraysNodePart vs node1).2.2 = 1 ∧
        (newTreeToArraysNodePart vs node1).1._writeRenderFullVBO = true ∧
        (newTreeToArraysNodePart vs node1).1._maxVoxels = vs._maxVoxels ∧
        (newTreeToArraysNodePart vs node1).1._voxelsInWriteArrays = vs._voxelsInWriteArrays + 1 ∧
        (newTreeToArraysNodePart vs node1).1._writeVerticesArray =
          (updateNodeInArrays vs vs._voxelsInWriteArrays node1.corner node1.scale
            node1.color)._writeVerticesArray ∧
        (newTreeToArraysNodePart vs node1).1._writeColorsArray =
          (updateNodeInArrays vs vs._voxelsInWriteArrays node1.corner node1.scale
            node1.color)._writeColorsArray ∧
        (newTreeToArraysNodePart vs node1).2.1.bufferIndex = some vs._voxelsInWriteArrays ∧
        (newTreeToArraysNodePart vs node1).2.1.corner = node1.corner ∧
        (newTreeToArraysNodePart vs node1).2.1.scale = node1.scale ∧
        (newTreeToArraysNodePart vs node1).2.1.color = node1.color := by
      unfold newTreeToArraysNodePart deleteVoxelCodeFromTree
      simp only [hfull, if_true, updateNodeInArraysAsFullVBO_render vs node1 hlt hr,
        NodeData.clearDirtyBit]
      split_ifs <;> simp [hfull]
    obtain ⟨h1, hm, hx, hc, hv, hcol, hidx, hcor, hsc, hco⟩ := hst
    exact
      { mode := by rw [hm, hfull]
        room := hx
        updated_eq := by rw [hone, h1]; rfl
        count_eq := by rw [hone, hc]; rfl
        slots := by
          intro j d h
          rw [hone] at h
          cases j with
          | succ j => simp at h
          | zero =>
            simp only [List.getElem?_cons_zero, Option.some.injEq] at h
            subst h
            refine ⟨by simpa using hidx, ?_⟩
            intro jj hjj
            rw [hv, hcol, hcor, hsc, hco]
            exact writeBlockIs_updateNodeInArrays vs _ _ _ _ jj hjj
        below := by
          intro i hi
          rw [hv, hcol, updateNodeInArrays_eq]
          have hns : ¬ InSlot vs._voxelsInWriteArrays i := fun h => absurd h.1 (Nat.not_le.mpr hi)
          simp only [if_neg hns, and_self] }

mutual
/-- A full-rebuild walk of a tree, with room for its rendered nodes. -/
theorem newTreeToArrays_full (E : Env) :
    ∀ (n : VoxelNode) (vs : VoxelSystem), vs._writeRenderFullVBO = true →
      vs._voxelsInWriteArrays +
          (renderedOf (newTreeToArrays E vs n).2.1.nodesInWalkOrder).length ≤ vs._maxVoxels →
      FullStep vs (newTreeToArrays E vs n).1 (newTreeToArrays E vs n).2.1.nodesInWalkOrder
        (newTreeToArrays E vs n).2.2
  | .mk node children, vs, hfull, hroom => by
    rw [newTreeToArrays_eq] at hroom ⊢
    simp only [VoxelNode.nodesInWalkOrder] at hroom ⊢
    rw [renderedOf_append, List.length_append] at hroom
    have hc := newTreeToArraysChildren_full E children vs hfull (by omega)
    have hn := newTreeToArraysNodePart_full (newTreeToArraysChildren E vs children).1
      (node.setShouldRender
        (computeShouldRender E node (isLeafSlots children) && !node.isStagedForDeletion))
      (by rw [hc.mode, hfull]) (by rw [hc.count_eq, hc.room]; omega)
    exact fullStep_trans hc hn
/-- A full-rebuild walk of a list of child slots, with room for their rendered nodes. -/
theorem newTreeToArraysChildren_full (E : Env) :
    ∀ (cs : List (Option VoxelNode)) (vs : VoxelSystem), vs._writeRenderFullVBO = true →
      vs._voxelsInWriteArrays +
          (renderedOf (nodesOfChildren (newTreeToArraysChildren E vs cs).2.1)).length
        ≤ vs._maxVoxels →
      FullStep vs (newTreeToArraysChildren E vs cs).1
        (nodesOfChildren (newTreeToArraysChildren E vs cs).2.1)
        (newTreeToArraysChildren E vs cs).2.2
  | [], vs, _, _ => by
    simp only [newTreeToArraysChildren, nodesOfChildren]
    exact fullStep_refl vs
  | none :: rest, vs, hfull, hroom => by
    simp only [newTreeToArraysChildren, nodesOfChildren] at hroom ⊢
    exact newTreeToArraysChildren_full E rest vs hfull hroom
  | some child :: rest, vs, hfull, hroom => by
    simp only [newTreeToArraysChildren, nodesOfChildren] at hroom ⊢
    rw [renderedOf_append, List.length_append] at hroom
    have h1 := newTreeToArrays_full E child vs hfull (by omega)
    have h2 := newTreeToArraysChildren_full E rest (newTreeToArrays E vs child).1
      (by rw [h1.mode, hfull]) (by rw [h1.count_eq, h1.room]; omega)
    exact fullStep_trans h1 h2
end

theorem slots_eq_range (rendered : List NodeData)
    (h : ∀ (j : Nat) (d : NodeData), rendered[j]? = some d → d.bufferIndex = some j) :
    rendered.map (fun d => d.bufferIndex) = (List.range rendered.length).map some := by
  apply List.ext_getElem?
  intro j
  rw [List.getElem?_map, List.getElem?_map]
  by_cases hj : j < rendered.length
  · rw [List.getElem?_range hj, List.getElem?_eq_getElem hj]
    simp only [Option.map_some']
    rw [h j rendered[j] (List.getElem?_eq_getElem hj)]
  · rw [List.getElem?_eq_none (by omega), List.getElem?_eq_none (by simp; omega)]
    rfl

/-- C7: when the derivation of setupNewVoxelsForDrawing runs in full-rebuild mode (the tree
is dirty and `_writeRenderFullVBO` is set: the write count is reset to 0 and newTreeToArrays
walks the whole tree) and the number R of nodes whose render decision is true does not
exceed `_maxVoxels`, then afterwards the write-side slot count is R, the update count is R,
the rendered nodes hold, in walk order, the slot indices 0, 1, ..., R-1 (pairwise distinct),
and the slot of each rendered node holds that node's cube (corner, scale) and colour. -/
theorem deriveArrays_full_rebuild (E : Env) (vs : VoxelSystem)
    (hdirty : vs._tree.isDirty = true) (hfull : vs._writeRenderFullVBO = true)
    (hroom : (renderedOf (deriveArrays E vs)._tree.rootNode.nodesInWalkOrder).length
      ≤ vs._maxVoxels) :
    (deriveArrays E vs)._voxelsInWriteArrays =
      (renderedOf (deriveArrays E vs)._tree.rootNode.nodesInWalkOrder).length ∧
    (deriveArrays E vs)._voxelsUpdated =
      (renderedOf (deriveArrays E vs)._tree.rootNode.nodesInWalkOrder).length ∧
    (renderedOf (deriveArrays E vs)._tree.rootNode.nodesInWalkOrder).map (fun d => d.bufferIndex) =
      (List.range (renderedOf (deriveArrays E vs)._tree.rootNode.nodesInWalkOrder).length).map some ∧
    ((renderedOf (deriveArrays E vs)._tree.rootNode.nodesInWalkOrder).map
      (fun d => d.bufferIndex)).Nodup ∧
    ∀ (j : Nat) (d : NodeData),
      (renderedOf (deriveArrays E vs)._tree.rootNode.nodesInWalkOrder)[j]? = some d →
      d.bufferIndex = some j ∧ WriteBlockIs (deriveArrays E vs) j d.corner d.scale d.color := by
  have hd : deriveArrays E vs =
      { (newTreeToArrays E
            { vs with
              trace := vs.trace ++ [Event.newTreeToArrays vs._writeRenderFullVBO]
              _callsToTreesToArrays := vs._callsToTreesToArrays + 1
              _voxelsInWriteArrays := 0 } vs._tree.rootNode).1 with
        _voxelsUpdated := (newTreeToArrays E
            { vs with
              trace := vs.trace ++ [Event.newTreeToArrays vs._writeRenderFullVBO]
              _callsToTreesToArrays := vs._callsToTreesToArrays + 1
              _voxelsInWriteArrays := 0 } vs._tree.rootNode).2.2
        _tree := { rootNode := (newTreeToArrays E
            { vs with
              trace := vs.trace ++ [Event.newTreeToArrays vs._writeRenderFullVBO]
              _callsToTreesToArrays := vs._callsToTreesToArrays + 1
              _voxelsInWriteArrays := 0 } vs._tree.rootNode).2.1, isDirty := false }
        _writeRenderFullVBO := false } := by
    unfold deriveArrays
    simp only [hdirty, hfull, if_true]
  rw [hd] at hroom ⊢
  simp only at hroom ⊢
  have hstep := newTreeToArrays_full E vs._tree.rootNode
    { vs with
      trace := vs.trace ++ [Event.newTreeToArrays vs._writeRenderFullVBO]
      _callsToTreesToArrays := vs._callsToTreesToArrays + 1
      _voxelsInWriteArrays := 0 } hfull (by simpa using hroom)
  have hslots : ∀ (j : Nat) (d : NodeData),
      (renderedOf (newTreeToArrays E
            { vs with
              trace := vs.trace ++ [Event.newTreeToArrays vs._writeRenderFullVBO]
              _callsToTreesToArrays := vs._callsToTreesToArrays + 1
              _voxelsInWriteArrays := 0 } vs._tree.rootNode).2.1.nodesInWalkOrder)[j]? = some d →
      d.bufferIndex = some j := by
    intro j d hj
    simpa using (hstep.slots j d hj).1
  have hmap := slots_eq_range _ hslots
  refine ⟨by simpa using hstep.count_eq, hstep.updated_eq, hmap, ?_, ?_⟩
  · rw [hmap]
    exact (List.nodup_range _).map (Option.some_injective _)
  · intro j d hj
    refine ⟨hslots j d hj, ?_⟩
    have hb := (hstep.slots j d hj).2
    simp only [Nat.zero_add] at hb
    exact hb

theorem deriveArrays_full_rebuild_witness :
    (deriveArrays exampleEnv rebuildSystem)._voxelsInWriteArrays = 2 ∧
    (deriveArrays exampleEnv rebuildSystem)._voxelsUpdated = 2 ∧
    (renderedOf (deriveArrays exampleEnv rebuildSystem)._tree.rootNode.nodesInWalkOrder).map
      (fun d => d.octalCode) = [[0], [3]] := by
  have hlen : (renderedOf (deriveArrays exampleEnv rebuildSystem)._tree.rootNode.nodesInWalkOrder).length
      = 2 := by decide!
  have h := deriveArrays_full_rebuild exampleEnv rebuildSystem (by decide) (by decide)
    (by rw [hlen]; decide)
  exact ⟨by rw [h.1, hlen], by rw [h.2.1, hlen], by decide!⟩

/-! ## The trace of a derivation -/

theorem traceExtends_refl (vs : VoxelSystem) : TraceExtends vs vs := ⟨[], by simp⟩

theorem traceExtends_trans {a b c : VoxelSystem} (h1 : TraceExtends a b) (h2 : TraceExtends b c) :
    TraceExtends a c := by
  obtain ⟨r1, h1⟩ := h1
  obtain ⟨r2, h2⟩ := h2
  exact ⟨r1 ++ r2, by rw [h2, h1, List.append_assoc]⟩

theorem updateNodeInArraysAsFullVBO_trace (vs : VoxelSystem) (node : NodeData) :
    (updateNodeInArraysAsFullVBO vs node).1.trace = vs.trace := by
  unfold updateNodeInArraysAsFullVBO
  split_ifs <;> simp

theorem updateNodeInArraysAsPartialVBO_trace (vs : VoxelSystem) (node : NodeData) :
    (updateNodeInArraysAsPartialVBO vs node).1.trace = vs.trace := by
  unfold updateNodeInArraysAsPartialVBO
  split_ifs <;> simp

theorem newTreeToArraysNodePart_trace (vs : VoxelSystem) (node1 : NodeData) :
    TraceExtends vs (newTreeToArraysNodePart vs node1).1 := by
  unfold newTreeToArraysNodePart deleteVoxelCodeFromTree TraceExtends
  simp only
  split_ifs
  · exact ⟨_, by rw [updateNodeInArraysAsFullVBO_trace]⟩
  · exact ⟨[], by rw [updateNodeInArraysAsFullVBO_trace]; simp⟩
  · exact ⟨_, by rw [updateNodeInArraysAsPartialVBO_trace]⟩
  · exact ⟨[], by rw [updateNodeInArraysAsPartialVBO_trace]; simp⟩

mutual
theorem newTreeToArrays_trace (E : Env) :
    ∀ (n : VoxelNode) (vs : VoxelSystem), TraceExtends vs (newTreeToArrays E vs n).1
  | .mk node children, vs => by
    rw [newTreeToArrays_eq]
    exact traceExtends_trans (newTreeToArraysChildren_trace E children vs) (newTreeToArraysNodePart_trace _ _)
theorem newTreeToArraysChildren_trace (E : Env) :
    ∀ (cs : List (Option VoxelNode)) (vs : VoxelSystem),
      TraceExtends vs (newTreeToArraysChildren E vs cs).1
  | [], vs => by simp only [newTreeToArraysChildren]; exact traceExtends_refl vs
  | none :: rest, vs => by
    simp only [newTreeToArraysChildren]
    exact newTreeToArraysChildren_trace E rest vs
  | some child :: rest, vs => by
    simp only [newTreeToArraysChildren]
    exact traceExtends_trans (newTreeToArrays_trace E child vs) (newTreeToArraysChildren_trace E rest _)
end

/-- A derivation over a dirty tree records the mode it runs in, first of all. -/
theorem deriveArrays_trace (E : Env) (vs : VoxelSystem) (hdirty : vs._tree.isDirty = true) :
    ∃ rest, (deriveArrays E vs).trace =
      vs.trace ++ Event.newTreeToArrays vs._writeRenderFullVBO :: rest := by
  unfold deriveArrays
  simp only [hdirty, if_true]
  split_ifs
  · obtain ⟨rest, h⟩ := newTreeToArrays_trace E vs._tree.rootNode
      { vs with
        trace := vs.trace ++ [Event.newTreeToArrays vs._writeRenderFullVBO]
        _callsToTreesToArrays := vs._callsToTreesToArrays + 1
        _voxelsInWriteArrays := 0 }
    exact ⟨rest, by simpa using h⟩
  · obtain ⟨rest, h⟩ := newTreeToArrays_trace E vs._tree.rootNode
      { vs with
        trace := vs.trace ++ [Event.newTreeToArrays vs._writeRenderFullVBO]
        _callsToTreesToArrays := vs._callsToTreesToArrays + 1 }
    exact ⟨rest, by simpa using h⟩

theorem copyWrittenDataSegmentToReadArrays_trace (vs : VoxelSystem) (a b : Nat) :
    (copyWrittenDataSegmentToReadArrays vs a b).trace = vs.trace := rfl

theorem copyPartialStep_trace (st : SegmentScan) (i : Nat) :
    (copyWrittenDataToReadArraysPartialVBOsStep st i).vs.trace = st.vs.trace := by
  unfold copyWrittenDataToReadArraysPartialVBOsStep
  simp only
  split_ifs <;> rfl

theorem copyPartialFold_trace (l : List Nat) :
    ∀ st : SegmentScan,
      (l.foldl copyWrittenDataToReadArraysPartialVBOsStep st).vs.trace = st.vs.trace := by
  induction l with
  | nil => intro st; rfl
  | cons i l ih =>
    intro st
    rw [List.foldl_cons, ih, copyPartialStep_trace]

theorem copyWrittenDataToReadArrays_trace (vs : VoxelSystem) (fullVBOs : Bool) :
    (copyWrittenDataToReadArrays vs fullVBOs).trace = vs.trace := by
  unfold copyWrittenDataToReadArrays
  split_ifs
  · rfl
  · unfold copyWrittenDataToReadArraysPartialVBOs
    simp only
    split_ifs
    · rw [copyWrittenDataSegmentToReadArrays_trace, copyPartialFold_trace]
    · rw [copyPartialFold_trace]
  · rfl

theorem viewCulling_stable (E : Env) (clk : Clock) (vs : VoxelSystem)
    (hview : E.viewFrustum = vs._lastStableViewFrustum) : viewCulling E clk vs = some vs := by
  unfold viewCulling hasViewChanged isViewChanging ViewFrustum.matches
  simp [hview]

/-- A setupNewVoxelsForDrawing that is not throttled, with the view stable and the tree
dirty, derives the arrays in the mode `_writeRenderFullVBO` has on entry. -/
theorem setupNewVoxelsForDrawing_trace (E : Env) (clk : Clock) (vs : VoxelSystem)
    (hrun : ¬ throttled E clk vs) (hview : E.viewFrustum = vs._lastStableViewFrustum)
    (hdirty : vs._tree.isDirty = true) :
    ∃ out rest, setupNewVoxelsForDrawing E clk vs = some out ∧
      out.trace = vs.trace ++ Event.newTreeToArrays vs._writeRenderFullVBO :: rest := by
  obtain ⟨rest, hrest⟩ := deriveArrays_trace E vs hdirty
  unfold throttled at hrun
  unfold setupNewVoxelsForDrawing
  simp only [hrun, if_false, viewCulling_stable E clk vs hview]
  refine ⟨_, rest, rfl, ?_⟩
  simp only [copyWrittenDataToReadArrays_trace]
  split_ifs <;> exact hrest

/-! ## The "erase all" text command -/

theorem sameButTreeAndCounts_refl (vs : VoxelSystem) : SameButTreeAndCounts vs vs := by
  cases vs; rfl

theorem sameButTreeAndCounts_trans {a b c : VoxelSystem} (h1 : SameButTreeAndCounts a b)
    (h2 : SameButTreeAndCounts b c) : SameButTreeAndCounts a c := by
  unfold SameButTreeAndCounts at *
  rw [h2, h1]

theorem zCommandBody_erase (E : Env) (command : List Nat) (vs : VoxelSystem)
    (hcmd : strcmpEq command eraseAllLiteral = true) :
    SameButTreeAndCounts vs (zCommandBody E command vs) ∧
    (zCommandBody E command vs)._tree = E.eraseAllVoxels vs._tree ∧
    (zCommandBody E command vs)._voxelsInWriteArrays = 0 ∧
    (zCommandBody E command vs)._voxelsInReadArrays = 0 ∧
    (zCommandBody E command vs).trace = vs.trace ++ [Event.eraseAllVoxels] := by
  unfold zCommandBody SameButTreeAndCounts
  simp [hcmd]

/-- The loop of the Z command when the command string is "erase all": it ends, and if it
runs at all the tree is the result of eraseAllVoxels, both counts are 0 and the rest of
the system is as before. -/
theorem zCommandLoop_erase (E : Env) (command : List Nat) (commandLength numBytes : Int)
    (hcmd : strcmpEq command eraseAllLiteral = true) (hlen : 0 ≤ commandLength) :
    ∀ (fuel : Nat) (totalLength : Int) (vs : VoxelSystem), numBytes - totalLength < fuel →
      ∃ vs', zCommandLoop E command commandLength numBytes fuel totalLength vs = some vs' ∧
        SameButTreeAndCounts vs vs' ∧ TraceExtends vs vs' ∧
        (totalLength ≤ numBytes →
          (∃ t, vs'._tree = E.eraseAllVoxels t) ∧ vs'._voxelsInWriteArrays = 0 ∧
          vs'._voxelsInReadArrays = 0 ∧ Event.eraseAllVoxels ∈ vs'.trace)
  | 0, totalLength, vs, hfuel => by
    have hgt : ¬ totalLength ≤ numBytes := by simp at hfuel; omega
    exact ⟨vs, by simp [zCommandLoop, hgt], sameButTreeAndCounts_refl vs, traceExtends_refl vs,
      fun h => absurd h hgt⟩
  | fuel + 1, totalLength, vs, hfuel => by
    by_cases hle : totalLength ≤ numBytes
    · obtain ⟨hsame, htree, hw, hr, htrace⟩ := zCommandBody_erase E command vs hcmd
      obtain ⟨vs', hrun, hsame', hext', hrest⟩ :=
        zCommandLoop_erase E command commandLength numBytes hcmd hlen fuel
          (totalLength + (commandLength + 1)) (zCommandBody E command vs)
          (by push_cast at hfuel; omega)
      refine ⟨vs', by rw [zCommandLoop, if_pos hle, hrun], sameButTreeAndCounts_trans hsame hsame',
        traceExtends_trans ⟨_, htrace⟩ hext', fun _ => ?_⟩
      by_cases hle2 : totalLength + (commandLength + 1) ≤ numBytes
      · exact hrest hle2
      · -- the loop ends after this round
        have hstop : zCommandLoop E command commandLength numBytes fuel
            (totalLength + (commandLength + 1)) (zCommandBody E command vs)
            = some (zCommandBody E command vs) := by
          cases fuel <;> simp [zCommandLoop, hle2]
        rw [hstop] at hrun
        have hv : vs' = zCommandBody E command vs := (Option.some.inj hrun).symm
        subst hv
        exact ⟨⟨_, htree⟩, hw, hr, by rw [htrace]; simp⟩
    · exact ⟨vs, by rw [zCommandLoop, if_neg hle], sameButTreeAndCounts_refl vs,
        traceExtends_refl vs, fun h => absurd h hle⟩

theorem cstring_eraseAll (tail : List Nat) :
    cstring (eraseAllLiteral ++ 0 :: tail) = eraseAllLiteral := by
  simp [cstring, eraseAllLiteral, List.takeWhile]

theorem strlen_eraseAll (tail : List Nat) : strlen (eraseAllLiteral ++ 0 :: tail) = some 9 := by
  unfold strlen
  rw [cstring_eraseAll]
  simp [eraseAllLiteral]

/-- C2 (as stated, refuted): a system whose last derivation switched to partial updates
(`_writeRenderFullVBO` false) receives the packet "erase all" one second later, with the
view stable. The derivation that follows the erase inside parseData runs with
`_writeRenderFullVBO` false, and it leaves the write-side and read-side slot counts at 1. -/
theorem parseData_erase_all_then_partial_derivation :
    (exampleSystem 4 ⟨twoLeafRoot, false⟩)._writeRenderFullVBO = false ∧
    (parseData exampleEnv exampleClock (exampleSystem 4 ⟨twoLeafRoot, false⟩) eraseAllPacket 11).map
      (fun r => (r.1.trace, r.1._voxelsInWriteArrays, r.1._voxelsInReadArrays, r.2)) =
      some ([Event.eraseAllVoxels, Event.newTreeToArrays false], 1, 1, 11) := by
  decide!

/-- C2 (amended): parseData on a text-command packet whose command is "erase all", from every
prior state. When the command handling ends the tree is the result of eraseAllVoxels, the
write-side and read-side slot counts are 0, and `_writeRenderFullVBO` has its prior value:
the command does not force full-rebuild mode. If the setupNewVoxelsForDrawing that follows
inside parseData is not throttled, the view is stable and the erased tree is dirty, its
derivation (the next call of newTreeToArrays) runs in that prior mode. -/
theorem parseData_erase_all_keeps_render_mode (E : Env) (clk : Clock) (vs : VoxelSystem)
    (sourceBuffer tail : List Nat) (numBytes : Int)
    (hz : sourceBuffer.getD 0 0 = E.PACKET_HEADER_Z_COMMAND)
    (hnv : E.PACKET_HEADER_Z_COMMAND ≠ E.PACKET_HEADER_VOXEL_DATA)
    (hnm : E.PACKET_HEADER_Z_COMMAND ≠ E.PACKET_HEADER_VOXEL_DATA_MONOCHROME)
    (hstr : sourceBuffer.drop 1 = eraseAllLiteral ++ 0 :: tail)
    (hlen : 11 ≤ numBytes) :
    ∃ vs1, parseDataSwitch E vs sourceBuffer numBytes = some vs1 ∧
      (∃ t, vs1._tree = E.eraseAllVoxels t) ∧ Event.eraseAllVoxels ∈ vs1.trace ∧
      vs1._voxelsInWriteArrays = 0 ∧ vs1._voxelsInReadArrays = 0 ∧
      vs1._writeRenderFullVBO = vs._writeRenderFullVBO ∧
      (¬ throttled E clk vs → E.viewFrustum = vs._lastStableViewFrustum →
        vs1._tree.isDirty = true →
        ∃ out rest, parseData E clk vs sourceBuffer numBytes = some (out, numBytes) ∧
          out.trace = vs1.trace ++ Event.newTreeToArrays vs._writeRenderFullVBO :: rest) := by
  have hcmd : strcmpEq (sourceBuffer.drop 1) eraseAllLiteral = true := by
    unfold strcmpEq
    rw [hstr, cstring_eraseAll]
    simp
  obtain ⟨vs1, hrun, hsame, _, hrest⟩ :=
    zCommandLoop_erase E (sourceBuffer.drop 1) 9 numBytes hcmd (by decide) numBytes.toNat
      (1 + 9 + 1) vs (by omega)
  obtain ⟨htree, hw, hr, hev⟩ := hrest (by omega)
  have hswitch : parseDataSwitch E vs sourceBuffer numBytes = some vs1 := by
    unfold parseDataSwitch zCommand
    simp only [hz, hnv, hnm, if_false, if_true]
    rw [hstr, strlen_eraseAll, ← hstr]
    exact hrun
  have hflag : vs1._writeRenderFullVBO = vs._writeRenderFullVBO := by
    have h := congrArg VoxelSystem._writeRenderFullVBO hsame
    exact h
  refine ⟨vs1, hswitch, htree, hev, hw, hr, hflag, ?_⟩
  intro hnot hview hdirty
  have hfin : vs1._setupNewVoxelsForDrawingLastFinished = vs._setupNewVoxelsForDrawingLastFinished := by
    have h := congrArg VoxelSystem._setupNewVoxelsForDrawingLastFinished hsame
    exact h
  have hela : vs1._setupNewVoxelsForDrawingLastElapsed = vs._setupNewVoxelsForDrawingLastElapsed := by
    have h := congrArg VoxelSystem._setupNewVoxelsForDrawingLastElapsed hsame
    exact h
  have hfr : vs1._lastStableViewFrustum = vs._lastStableViewFrustum := by
    have h := congrArg VoxelSystem._lastStableViewFrustum hsame
    exact h
  have hnot1 : ¬ throttled E clk vs1 := by
    unfold throttled at hnot ⊢
    rw [hfin, hela]
    exact hnot
  obtain ⟨out, rest, hsetup, htrace⟩ :=
    setupNewVoxelsForDrawing_trace E clk vs1 hnot1 (by rw [hfr]; exact hview) hdirty
  refine ⟨out, rest, ?_, by rw [htrace, hflag]⟩
  unfold parseData
  rw [hswitch]
  simp only [hsetup]

theorem parseData_erase_all_keeps_render_mode_witness :
    ∃ vs1, parseDataSwitch exampleEnv rebuildSystem eraseAllPacket 11 = some vs1 ∧
      vs1._voxelsInWriteArrays = 0 ∧ vs1._voxelsInReadArrays = 0 ∧
      vs1._writeRenderFullVBO = true := by
  obtain ⟨vs1, h1, _, _, h2, h3, h4, _⟩ :=
    parseData_erase_all_keeps_render_mode exampleEnv exampleClock rebuildSystem eraseAllPacket []
      11 (by decide) (by decide) (by decide) (by decide) (by decide)
  exact ⟨vs1, h1, h2, h3, by rw [h4]; decide⟩

/-! ## Copying the dirty segments to the read side -/

theorem glBufferIndexSub_of_le (a b : Nat) (hb : b ≤ a) (ha : a < GLBUFFER_INDEX_RANGE) :
    glBufferIndexSub a b = a - b := by
  unfold glBufferIndexSub
  have hb' : b < GLBUFFER_INDEX_RANGE := by omega
  rw [Nat.mod_eq_of_lt ha, Nat.mod_eq_of_lt hb']
  have : a + GLBUFFER_INDEX_RANGE - b = (a - b) + GLBUFFER_INDEX_RANGE := by omega
  rw [this, Nat.add_mod_right, Nat.mod_eq_of_lt (by omega)]

/-- The length copyWrittenDataSegmentToReadArrays computes for the segment `first .. last`
with `first ≤ last`. -/
theorem segmentLength_eq (first last : Nat) (hle : first ≤ last)
    (hlast : last + 1 < GLBUFFER_INDEX_RANGE) :
    (glBufferIndexSub last first + 1) % GLBUFFER_INDEX_RANGE = last + 1 - first := by
  rw [glBufferIndexSub_of_le last first hle (by omega), Nat.mod_eq_of_lt (by omega)]
  omega

/-- An index lies in the copied range of the segment `first .. last - 1` exactly when its
slot does. -/
theorem mem_segment_iff (first last idx : Nat) :
    (first * VERTEX_POINTS_PER_VOXEL ≤ idx ∧
      idx < first * VERTEX_POINTS_PER_VOXEL + (last - first) * VERTEX_POINTS_PER_VOXEL) ↔
    (first ≤ slotOf idx ∧ slotOf idx < last) := by
  unfold slotOf
  simp only [VERTEX_POINTS_PER_VOXEL, VERTICES_PER_VOXEL]
  omega

/-- The copy of the segment `first .. last - 1` (for `first < last`), slot by slot. -/
theorem copyWrittenDataSegmentToReadArrays_eq (vs : VoxelSystem) (first last : Nat)
    (hlt : first < last) (hlast : last < GLBUFFER_INDEX_RANGE) :
    copyWrittenDataSegmentToReadArrays vs first (glBufferIndexSub last 1) =
      { vs with
        _readVerticesArray := fun idx =>
          if first ≤ slotOf idx ∧ slotOf idx < last then vs._writeVerticesArray idx
          else vs._readVerticesArray idx
        _readColorsArray := fun idx =>
          if first ≤ slotOf idx ∧ slotOf idx < last then vs._writeColorsArray idx
          else vs._readColorsArray idx } := by
  have h1 : glBufferIndexSub last 1 = last - 1 := glBufferIndexSub_of_le last 1 (by omega) hlast
  have h2 : (glBufferIndexSub (last - 1) first + 1) % GLBUFFER_INDEX_RANGE = last - first := by
    rw [segmentLength_eq first (last - 1) (by omega) (by omega)]
    omega
  unfold copyWrittenDataSegmentToReadArrays
  simp only [h1, h2, mem_segment_iff]

theorem copyScanInv_init (vs0 : VoxelSystem) :
    CopyScanInv vs0 0 { vs := vs0, segmentStart := 0, inSegment := false } where
  writeVertices := rfl
  writeColors := rfl
  writeCount := rfl
  writeDirty := by intro j; simp
  readDirty := by intro j; simp
  pending := by intro h; simp at h
  readVertices := by intro idx; simp [SegmentScan.settled]
  readColors := by intro idx; simp [SegmentScan.settled]

/-- One iteration of the loop of copyWrittenDataToReadArraysPartialVBOs keeps the
invariant. -/
theorem copyPartialStep_inv (vs0 : VoxelSystem) (st : SegmentScan) (k : Nat)
    (h : CopyScanInv vs0 k st) (hk : k < GLBUFFER_INDEX_RANGE) :
    CopyScanInv vs0 (k + 1) (copyWrittenDataToReadArraysPartialVBOsStep st k) := by
  have hd : st.vs._writeVoxelDirtyArray k = vs0._writeVoxelDirtyArray k := by
    rw [h.writeDirty]; simp
  have hwd : ∀ j, Function.update st.vs._writeVoxelDirtyArray k false j =
      if j < k + 1 then false else vs0._writeVoxelDirtyArray j := by
    intro j
    by_cases hj : j = k
    · subst hj; simp
    · rw [Function.update_noteq hj, h.writeDirty]
      by_cases hlt : j < k
      · simp [hlt, Nat.lt_succ_of_lt hlt]
      · have : ¬ j < k + 1 := by omega
        simp [hlt, this]
  have hrd : ∀ j, Function.update st.vs._readVoxelDirtyArray k
        (st.vs._readVoxelDirtyArray k || vs0._writeVoxelDirtyArray k) j =
      if j < k + 1 then (vs0._readVoxelDirtyArray j || vs0._writeVoxelDirtyArray j)
      else vs0._readVoxelDirtyArray j := by
    intro j
    by_cases hj : j = k
    · subst hj
      have : st.vs._readVoxelDirtyArray j = vs0._readVoxelDirtyArray j := by
        rw [h.readDirty]; simp
      simp [this]
    · rw [Function.update_noteq hj, h.readDirty]
      by_cases hlt : j < k
      · simp [hlt, Nat.lt_succ_of_lt hlt]
      · have : ¬ j < k + 1 := by omega
        simp [hlt, this]
  unfold copyWrittenDataToReadArraysPartialVBOsStep
  simp only [hd]
  cases hin : st.inSegment <;> cases hdk : vs0._writeVoxelDirtyArray k
  · -- not in a segment, slot clean
    simp only [Bool.not_false, if_true, Bool.false_eq_true, if_false]
    exact
      { writeVertices := h.writeVertices
        writeColors := h.writeColors
        writeCount := h.writeCount
        writeDirty := hwd
        readDirty := by intro j; have := hrd j; rw [hdk] at this; exact this
        pending := by intro hp; simp [hin] at hp
        readVertices := by
          intro idx
          have hv := h.readVertices idx
          simp only [SegmentScan.settled, hin, Bool.false_eq_true, if_false] at hv ⊢
          rw [hv]
          by_cases hs : slotOf idx = k
          · simp [hs, hdk]
          · have : slotOf idx < k + 1 ↔ slotOf idx < k := by omega
            simp only [this]
        readColors := by
          intro idx
          have hv := h.readColors idx
          simp only [SegmentScan.settled, hin, Bool.false_eq_true, if_false] at hv ⊢
          rw [hv]
          by_cases hs : slotOf idx = k
          · simp [hs, hdk]
          · have : slotOf idx < k + 1 ↔ slotOf idx < k := by omega
            simp only [this] }
  · -- not in a segment, slot dirty: a segment opens
    simp only [Bool.not_false, if_true]
    exact
      { writeVertices := h.writeVertices
        writeColors := h.writeColors
        writeCount := h.writeCount
        writeDirty := hwd
        readDirty := by intro j; have := hrd j; rw [hdk] at this; exact this
        pending := by
          intro _
          simp only [SegmentScan.settled, if_true]
          refine ⟨Nat.lt_succ_self k, ?_⟩
          intro j h1 h2
          have : j = k := by omega
          rw [this, hdk]
        readVertices := by
          intro idx
          have hv := h.readVertices idx
          simp only [SegmentScan.settled, hin, Bool.false_eq_true, if_false] at hv
          simp only [SegmentScan.settled, if_true]
          exact hv
        readColors := by
          intro idx
          have hv := h.readColors idx
          simp only [SegmentScan.settled, hin, Bool.false_eq_true, if_false] at hv
          simp only [SegmentScan.settled, if_true]
          exact hv }
  · -- in a segment, slot clean: the segment is copied
    have hp := h.pending hin
    simp only [SegmentScan.settled, hin, if_true] at hp
    obtain ⟨hstart, hall⟩ := hp
    simp only [Bool.not_true, Bool.false_eq_true, if_false, Bool.not_false, if_true]
    rw [copyWrittenDataSegmentToReadArrays_eq _ st.segmentStart k hstart hk]
    exact
      { writeVertices := h.writeVertices
        writeColors := h.writeColors
        writeCount := h.writeCount
        writeDirty := hwd
        readDirty := by intro j; have := hrd j; rw [hdk] at this; exact this
        pending := by intro hp; simp at hp
        readVertices := by
          intro idx
          have hv := h.readVertices idx
          simp only [SegmentScan.settled, hin, if_true] at hv
          simp only [SegmentScan.settled, Bool.false_eq_true, if_false, h.writeVertices]
          rw [hv]
          by_cases h1 : slotOf idx ≥ st.segmentStart
          · by_cases h2 : slotOf idx < k
            · have h3 : slotOf idx < k + 1 := by omega
              simp [h1, h2, h3, hall _ h1 h2]
            · have h4 : ¬ slotOf idx < st.segmentStart := by omega
              by_cases h5 : slotOf idx = k
              · simp [h2, h4, h5, hdk]
              · have h6 : ¬ slotOf idx < k + 1 := by omega
                simp [h2, h4, h6]
          · have h2 : slotOf idx < st.segmentStart := by omega
            have h3 : slotOf idx < k + 1 := by omega
            simp [h1, h2, h3]
        readColors := by
          intro idx
          have hv := h.readColors idx
          simp only [SegmentScan.settled, hin, if_true] at hv
          simp only [SegmentScan.settled, Bool.false_eq_true, if_false, h.writeColors]
          rw [hv]
          by_cases h1 : slotOf idx ≥ st.segmentStart
          · by_cases h2 : slotOf idx < k
            · have h3 : slotOf idx < k + 1 := by omega
              simp [h1, h2, h3, hall _ h1 h2]
            · have h4 : ¬ slotOf idx < st.segmentStart := by omega
              by_cases h5 : slotOf idx = k
              · simp [h2, h4, h5, hdk]
              · have h6 : ¬ slotOf idx < k + 1 := by omega
                simp [h2, h4, h6]
          · have h2 : slotOf idx < st.segmentStart := by omega
            have h3 : slotOf idx < k + 1 := by omega
            simp [h1, h2, h3] }
  · -- in a segment, slot dirty: the segment goes on
    have hp := h.pending hin
    simp only [SegmentScan.settled, hin, if_true] at hp
    obtain ⟨hstart, hall⟩ := hp
    simp only [Bool.not_true, Bool.false_eq_true, if_false]
    exact
      { writeVertices := h.writeVertices
        writeColors := h.writeColors
        writeCount := h.writeCount
        writeDirty := hwd
        readDirty := by intro j; have := hrd j; rw [hdk] at this; exact this
        pending := by
          intro _
          simp only [SegmentScan.settled, hin, if_true]
          refine ⟨Nat.lt_succ_of_lt hstart, ?_⟩
          intro j h1 h2
          by_cases hj : j = k
          · rw [hj, hdk]
          · exact hall j h1 (by omega)
        readVertices := by
          intro idx
          have hv := h.readVertices idx
          simp only [SegmentScan.settled, hin, if_true] at hv ⊢
          exact hv
        readColors := by
          intro idx
          have hv := h.readColors idx
          simp only [SegmentScan.settled, hin, if_true] at hv ⊢
          exact hv }

theorem slotOf_of_inSlot (i idx : Nat) (h : InSlot i idx) : slotOf idx = i := by
  have h1 : idx ≥ i * VERTEX_POINTS_PER_VOXEL := h.1
  have h2 : idx < i * VERTEX_POINTS_PER_VOXEL + VERTEX_POINTS_PER_VOXEL := h.2
  unfold slotOf
  simp only [VERTEX_POINTS_PER_VOXEL, VERTICES_PER_VOXEL] at h1 h2 ⊢
  omega

theorem copyPartialFold_inv (vs0 : VoxelSystem) (n : Nat) (hn : n ≤ GLBUFFER_INDEX_RANGE) :
    CopyScanInv vs0 n
      ((List.range n).foldl copyWrittenDataToReadArraysPartialVBOsStep
        { vs := vs0, segmentStart := 0, inSegment := false }) := by
  induction n with
  | zero => exact copyScanInv_init vs0
  | succ k ih =>
    rw [List.range_succ, List.foldl_append]
    exact copyPartialStep_inv vs0 _ k (ih (by omega)) (by omega)

/-- C11: after copyWrittenDataToReadArraysPartialVBOs, for every slot `i` below the
write-side count (a `glBufferIndex` value): if the slot's write-side dirty flag was set, the
read-side vertex and colour entries of the slot equal the write-side entries, otherwise they
are unchanged; the write-side dirty flag of the slot is cleared and its read-side dirty flag
is its old value OR the old write-side flag; the write-side geometry and count are as
before and the read-side count equals the write-side count. -/
theorem copyPartialVBOs_copies_dirty_slots (vs : VoxelSystem)
    (hcount : vs._voxelsInWriteArrays < GLBUFFER_INDEX_RANGE) :
    (∀ i idx, i < vs._voxelsInWriteArrays → InSlot i idx →
      (vs._writeVoxelDirtyArray i = true →
        (copyWrittenDataToReadArraysPartialVBOs vs)._readVerticesArray idx =
            vs._writeVerticesArray idx ∧
          (copyWrittenDataToReadArraysPartialVBOs vs)._readColorsArray idx =
            vs._writeColorsArray idx) ∧
      (vs._writeVoxelDirtyArray i = false →
        (copyWrittenDataToReadArraysPartialVBOs vs)._readVerticesArray idx =
            vs._readVerticesArray idx ∧
          (copyWrittenDataToReadArraysPartialVBOs vs)._readColorsArray idx =
            vs._readColorsArray idx)) ∧
    (∀ i, i < vs._voxelsInWriteArrays →
      (copyWrittenDataToReadArraysPartialVBOs vs)._writeVoxelDirtyArray i = false ∧
      (copyWrittenDataToReadArraysPartialVBOs vs)._readVoxelDirtyArray i =
        (vs._readVoxelDirtyArray i || vs._writeVoxelDirtyArray i)) ∧
    (copyWrittenDataToReadArraysPartialVBOs vs)._writeVerticesArray = vs._writeVerticesArray ∧
    (copyWrittenDataToReadArraysPartialVBOs vs)._writeColorsArray = vs._writeColorsArray ∧
    (copyWrittenDataToReadArraysPartialVBOs vs)._voxelsInWriteArrays = vs._voxelsInWriteArrays ∧
    (copyWrittenDataToReadArraysPartialVBOs vs)._voxelsInReadArrays = vs._voxelsInWriteArrays := by
  have hinv := copyPartialFold_inv vs vs._voxelsInWriteArrays (by omega)
  generalize hst : (List.range vs._voxelsInWriteArrays).foldl
      copyWrittenDataToReadArraysPartialVBOsStep
      { vs := vs, segmentStart := 0, inSegment := false } = st at hinv
  -- the read-side geometry after the closing copy
  have hread : ∀ idx,
      (copyWrittenDataToReadArraysPartialVBOs vs)._readVerticesArray idx =
        (if slotOf idx < vs._voxelsInWriteArrays ∧ vs._writeVoxelDirtyArray (slotOf idx) = true
          then vs._writeVerticesArray idx else vs._readVerticesArray idx) ∧
      (copyWrittenDataToReadArraysPartialVBOs vs)._readColorsArray idx =
        (if slotOf idx < vs._voxelsInWriteArrays ∧ vs._writeVoxelDirtyArray (slotOf idx) = true
          then vs._writeColorsArray idx else vs._readColorsArray idx) := by
    intro idx
    unfold copyWrittenDataToReadArraysPartialVBOs
    simp only [hst]
    have hv := hinv.readVertices idx
    have hc := hinv.readColors idx
    cases hin : st.inSegment with
    | false =>
      simp only [SegmentScan.settled, hin, Bool.false_eq_true, if_false] at hv hc ⊢
      exact ⟨hv, hc⟩
    | true =>
      have hp := hinv.pending hin
      simp only [SegmentScan.settled, hin, if_true] at hp hv hc
      obtain ⟨hstart, hall⟩ := hp
      simp only [if_true, hinv.writeCount]
      rw [copyWrittenDataSegmentToReadArrays_eq _ st.segmentStart vs._voxelsInWriteArrays hstart
        hcount]
      simp only [hinv.writeVertices, hinv.writeColors, hv, hc]
      by_cases h1 : slotOf idx ≥ st.segmentStart
      · by_cases h2 : slotOf idx < vs._voxelsInWriteArrays
        · simp [h1, h2, hall _ h1 h2]
        · have h4 : ¬ slotOf idx < st.segmentStart := by omega
          simp [h2, h4]
      · have h2 : slotOf idx < st.segmentStart := by omega
        have h3 : slotOf idx < vs._voxelsInWriteArrays := by omega
        simp [h1, h2, h3]
  have hrest : (copyWrittenDataToReadArraysPartialVBOs vs)._writeVoxelDirtyArray =
        st.vs._writeVoxelDirtyArray ∧
      (copyWrittenDataToReadArraysPartialVBOs vs)._readVoxelDirtyArray =
        st.vs._readVoxelDirtyArray ∧
      (copyWrittenDataToReadArraysPartialVBOs vs)._writeVerticesArray =
        st.vs._writeVerticesArray ∧
      (copyWrittenDataToReadArraysPartialVBOs vs)._writeColorsArray = st.vs._writeColorsArray ∧
      (copyWrittenDataToReadArraysPartialVBOs vs)._voxelsInWriteArrays =
        st.vs._voxelsInWriteArrays ∧
      (copyWrittenDataToReadArraysPartialVBOs vs)._voxelsInReadArrays =
        st.vs._voxelsInWriteArrays := by
    unfold copyWrittenDataToReadArraysPartialVBOs
    simp only [hst]
    split_ifs <;> exact ⟨rfl, rfl, rfl, rfl, rfl, rfl⟩
  obtain ⟨hwd, hrd, hwv, hwc, hcw, hcr⟩ := hrest
  refine ⟨?_, ?_, ?_, ?_, ?_, ?_⟩
  · intro i idx hi hslot
    have hs : slotOf idx = i := slotOf_of_inSlot i idx hslot
    obtain ⟨hv, hc⟩ := hread idx
    rw [hs] at hv hc
    constructor
    · intro hd
      rw [hv, hc]
      simp [hi, hd]
    · intro hd
      rw [hv, hc]
      simp [hd]
  · intro i hi
    rw [hwd, hrd, hinv.writeDirty, hinv.readDirty]
    simp [hi]
  · rw [hwv, hinv.writeVertices]
  · rw [hwc, hinv.writeColors]
  · rw [hcw, hinv.writeCount]
  · rw [hcr, hinv.writeCount]

theorem copyPartialVBOs_copies_dirty_slots_witness :
    (copyWrittenDataToReadArraysPartialVBOs scatteredDirtySystem)._readVerticesArray 72 = 7 ∧
    (copyWrittenDataToReadArraysPartialVBOs scatteredDirtySystem)._readVerticesArray 0 = 0 ∧
    (copyWrittenDataToReadArraysPartialVBOs scatteredDirtySystem)._voxelsInReadArrays = 5 := by
  have h := copyPartialVBOs_copies_dirty_slots scatteredDirtySystem (by decide)
  have h1 := ((h.1 1 72 (by decide) (by decide)).1 (by decide)).1
  have h0 := ((h.1 0 0 (by decide) (by decide)).2 (by decide)).1
  exact ⟨h1, h0, h.2.2.2.2.2⟩

/-! ## Throttle, cleanup and view change -/

/-- C13: if the time since the last finished run is not greater than the maximum of the
duration of the last run and SIXTY_FPS_IN_MILLISECONDS, setupNewVoxelsForDrawing returns
with the whole state as it was: tree, removed-voxel bag, write-side and read-side arrays,
counts, dirty flags, full-rebuild flags and timing fields. -/
theorem setupNewVoxelsForDrawing_throttled (E : Env) (clk : Clock) (vs : VoxelSystem)
    (h : (clk.start - vs._setupNewVoxelsForDrawingLastFinished) / 1000 ≤
      max vs._setupNewVoxelsForDrawingLastElapsed E.SIXTY_FPS_IN_MILLISECONDS) :
    setupNewVoxelsForDrawing E clk vs = some vs := by
  unfold setupNewVoxelsForDrawing
  simp only [h, if_true]

theorem setupNewVoxelsForDrawing_throttled_witness :
    setupNewVoxelsForDrawing exampleEnv earlyClock rebuildSystem = some rebuildSystem :=
  setupNewVoxelsForDrawing_throttled exampleEnv earlyClock rebuildSystem (by decide!)

/-- C15: cleanupRemovedVoxels forces a full rebuild exactly when something was removed. If
the removed-voxel bag is not empty before the call, afterwards the bag is empty, one
`delete` has been made for each node that was in it (and no other), `_writeRenderFullVBO`
is true and nothing else has changed; if the bag is empty before the call, the whole state,
`_writeRenderFullVBO` included, is unchanged. -/
theorem cleanupRemovedVoxels_forces_rebuild (vs : VoxelSystem) :
    (vs._removedVoxels ≠ [] →
      (cleanupRemovedVoxels vs)._removedVoxels = [] ∧
      (cleanupRemovedVoxels vs).trace =
        vs.trace ++ vs._removedVoxels.map (fun n => Event.deleteNode n.data.octalCode) ∧
      (cleanupRemovedVoxels vs)._writeRenderFullVBO = true ∧
      cleanupRemovedVoxels vs =
        { vs with
          _removedVoxels := (cleanupRemovedVoxels vs)._removedVoxels
          trace := (cleanupRemovedVoxels vs).trace
          _writeRenderFullVBO := (cleanupRemovedVoxels vs)._writeRenderFullVBO }) ∧
    (vs._removedVoxels = [] → cleanupRemovedVoxels vs = vs) := by
  constructor
  · intro hne
    have hemp : VoxelNodeBag.isEmpty vs._removedVoxels = false := by
      cases hb : vs._removedVoxels with
      | nil => exact absurd hb hne
      | cons a l => rfl
    unfold cleanupRemovedVoxels
    simp only [hemp, Bool.not_false, if_true, and_self]
  · intro hnil
    unfold cleanupRemovedVoxels
    simp [hnil, VoxelNodeBag.isEmpty]

theorem cleanupRemovedVoxels_forces_rebuild_witness :
    (cleanupRemovedVoxels removedLeavesSystem)._removedVoxels = [] ∧
    (cleanupRemovedVoxels removedLeavesSystem).trace =
      [Event.deleteNode [0], Event.deleteNode [3]] ∧
    (cleanupRemovedVoxels removedLeavesSystem)._writeRenderFullVBO = true := by
  have h := (cleanupRemovedVoxels_forces_rebuild removedLeavesSystem).1
    (by simp [removedLeavesSystem])
  exact ⟨h.1, by rw [h.2.1]; decide, h.2.2.1⟩

/-- C18: isViewChanging returns false for every state. Consequently hasViewChanged returns
true exactly when `_lastStableViewFrustum` does not match the current frustum; then it
stores the current frustum and changes nothing else, and otherwise it changes nothing; an
immediately repeated call with the same frustum returns false. -/
theorem hasViewChanged_iff_frustum_differs (E : Env) (vs : VoxelSystem) :
    isViewChanging vs = false ∧
    ((hasViewChanged E vs).1 = true ↔ vs._lastStableViewFrustum.matches E.viewFrustum = false) ∧
    ((hasViewChanged E vs).1 = true →
      (hasViewChanged E vs).2 = { vs with _lastStableViewFrustum := E.viewFrustum }) ∧
    ((hasViewChanged E vs).1 = false → (hasViewChanged E vs).2 = vs) ∧
    (hasViewChanged E (hasViewChanged E vs).2).1 = false := by
  unfold hasViewChanged isViewChanging ViewFrustum.matches
  by_cases h : vs._lastStableViewFrustum = E.viewFrustum
  · simp [h]
  · simp [h]

/-! ## One visit of removeOutOfViewOperation -/

theorem bag_contains_insert_self (bag : VoxelNodeBag) (node : VoxelNode) :
    VoxelNodeBag.contains (VoxelNodeBag.insert bag node) node = true := by
  unfold VoxelNodeBag.insert
  split_ifs with h
  · exact h
  · simp [VoxelNodeBag.contains]

theorem bag_contains_insert_of_contains (bag : VoxelNodeBag) (node c : VoxelNode)
    (h : VoxelNodeBag.contains bag c = true) :
    VoxelNodeBag.contains (VoxelNodeBag.insert bag node) c = true := by
  unfold VoxelNodeBag.insert
  split_ifs
  · exact h
  · unfold VoxelNodeBag.contains at h ⊢
    rw [List.any_append, h]
    rfl

/-- The loop over the child slots only adds to the removed-voxel bag. -/
theorem removeOutOfViewChildren_keeps_removed (E : Env) (c : VoxelNode) :
    ∀ (cs : List (Option VoxelNode)) (args : removeOutOfViewArgs),
      VoxelNodeBag.contains args.thisVoxelSystem._removedVoxels c = true →
      VoxelNodeBag.contains
        (removeOutOfViewChildren E cs args).2.thisVoxelSystem._removedVoxels c = true
  | [], args, h => by simpa [removeOutOfViewChildren] using h
  | none :: rest, args, h => by
    simp only [removeOutOfViewChildren]
    exact removeOutOfViewChildren_keeps_removed E c rest args h
  | some child :: rest, args, h => by
    simp only [removeOutOfViewChildren]
    cases hloc : E.inFrustum child.data E.viewFrustum
    · simp only
      apply removeOutOfViewChildren_keeps_removed E c rest
      simp only [recordInFrustum]
      exact bag_contains_insert_of_contains _ _ _ h
    · simp only
      apply removeOutOfViewChildren_keeps_removed E c rest
      simpa [recordInFrustum] using h
    · simp only
      apply removeOutOfViewChildren_keeps_removed E c rest
      simpa [recordInFrustum] using h

/-- What the loop over the child slots does to the slot of each child. -/
theorem removeOutOfViewChildren_slot (E : Env) :
    ∀ (cs : List (Option VoxelNode)) (args : removeOutOfViewArgs) (i : Nat) (c : VoxelNode),
      cs[i]? = some (some c) →
      (E.inFrustum c.data E.viewFrustum = location.OUTSIDE →
        (removeOutOfViewChildren E cs args).1[i]? = some none ∧
        VoxelNodeBag.contains
          (removeOutOfViewChildren E cs args).2.thisVoxelSystem._removedVoxels c = true) ∧
      (E.inFrustum c.data E.viewFrustum ≠ location.OUTSIDE →
        (removeOutOfViewChildren E cs args).1[i]? = some (some c))
  | [], args, i, c, h => by simp at h
  | none :: rest, args, i, c, h => by
    cases i with
    | zero => simp at h
    | succ i =>
      simp only [List.getElem?_cons_succ] at h
      simpa [removeOutOfViewChildren] using removeOutOfViewChildren_slot E rest args i c h
  | some child :: rest, args, i, c, h => by
    cases i with
    | zero =>
      simp only [List.getElem?_cons_zero, Option.some.injEq] at h
      subst h
      simp only [removeOutOfViewChildren]
      cases hloc : E.inFrustum child.data E.viewFrustum
      · simp only [List.getElem?_cons_zero, true_and, ne_eq, not_true_eq_false,
          false_implies, and_true, forall_const]
        apply removeOutOfViewChildren_keeps_removed E child rest
        exact bag_contains_insert_self _ _
      · simp
      · simp
    | succ i =>
      simp only [List.getElem?_cons_succ] at h
      simp only [removeOutOfViewChildren]
      cases hloc : E.inFrustum child.data E.viewFrustum <;>
        simpa using removeOutOfViewChildren_slot E rest _ i c h

theorem removeOutOfViewChildren_length (E : Env) :
    ∀ (cs : List (Option VoxelNode)) (args : removeOutOfViewArgs),
      (removeOutOfViewChildren E cs args).1.length = cs.length
  | [], args => by simp [removeOutOfViewChildren]
  | none :: rest, args => by
    simp [removeOutOfViewChildren, removeOutOfViewChildren_length E rest]
  | some child :: rest, args => by
    simp only [removeOutOfViewChildren]
    cases hloc : E.inFrustum child.data E.viewFrustum <;>
      simp [removeOutOfViewChildren_length E rest]

/-- C16: after removeOutOfViewOperation visits a node that is not in the don't-recurse bag,
the operation has returned true, the node has as many child slots as before, every child
classified OUTSIDE by inFrustum is detached (its slot is empty) and is contained in
`_removedVoxels`, and every child classified INSIDE or INTERSECT is still attached in the
same slot. -/
theorem removeOutOfViewOperation_detaches_outside (E : Env) (node : VoxelNode)
    (args : removeOutOfViewArgs) (hnot : args.dontRecurseBag.contains node = false) :
    (removeOutOfViewOperation E node args).1 = true ∧
    (removeOutOfViewOperation E node args).2.1.children.length = node.children.length ∧
    ∀ (i : Nat) (c : VoxelNode), node.children[i]? = some (some c) →
      (E.inFrustum c.data E.viewFrustum = location.OUTSIDE →
        (removeOutOfViewOperation E node args).2.1.children[i]? = some none ∧
        VoxelNodeBag.contains
          (removeOutOfViewOperation E node args).2.2.thisVoxelSystem._removedVoxels c = true) ∧
      (E.inFrustum c.data E.viewFrustum ≠ location.OUTSIDE →
        (removeOutOfViewOperation E node args).2.1.children[i]? = some (some c)) := by
  unfold removeOutOfViewOperation
  simp only [hnot, Bool.false_eq_true, if_false, VoxelNode.children]
  exact ⟨trivial, removeOutOfViewChildren_length E _ _,
    fun i c h => removeOutOfViewChildren_slot E _ _ i c h⟩

theorem removeOutOfViewOperation_detaches_outside_witness :
    (removeOutOfViewOperation movedEnv twoLeafRoot (freshArgs (exampleSystem 4 emptyTree))).1
      = true ∧
    (removeOutOfViewOperation movedEnv twoLeafRoot
      (freshArgs (exampleSystem 4 emptyTree))).2.1.children[0]? = some none ∧
    (removeOutOfViewOperation movedEnv twoLeafRoot
      (freshArgs (exampleSystem 4 emptyTree))).2.1.children[3]? =
        some (some (VoxelNode.mk (leafData [3] ⟨1 / 2, 1 / 2, 0⟩ ⟨0, 255, 0, 0⟩) [])) := by
  have h := removeOutOfViewOperation_detaches_outside movedEnv twoLeafRoot
    (freshArgs (exampleSystem 4 emptyTree)) (by decide)
  exact ⟨h.1,
    ((h.2.2 0 (VoxelNode.mk (leafData [0] ⟨0, 0, 0⟩ ⟨255, 0, 0, 0⟩) []) rfl).1
      (by decide)).1,
    (h.2.2 3 (VoxelNode.mk (leafData [3] ⟨1 / 2, 1 / 2, 0⟩ ⟨0, 255, 0, 0⟩) []) rfl).2
      (by decide)⟩

/-! ## The tree walk ends -/

theorem VoxelNode.height_eq (n : VoxelNode) : n.height = heightOfChildren n.children + 1 := by
  cases n with
  | mk d cs => simp [VoxelNode.height, VoxelNode.children]

theorem height_le_heightOfChildren (c : VoxelNode) :
    ∀ cs : List (Option VoxelNode), some c ∈ cs → c.height ≤ heightOfChildren cs
  | [], h => by simp at h
  | none :: rest, h => by
    simp only [List.mem_cons] at h
    rcases h with h | h
    · cases h
    · simpa [heightOfChildren] using height_le_heightOfChildren c rest h
  | some child :: rest, h => by
    simp only [List.mem_cons, Option.some.injEq] at h
    simp only [heightOfChildren]
    rcases h with h | h
    · subst h; exact Nat.le_max_left _ _
    · exact Nat.le_trans (height_le_heightOfChildren c rest h) (Nat.le_max_right _ _)

/-- The child loop of the walk returns when the walk of every child does. -/
theorem recurseChildrenWith_total {σ : Type} (visit : VoxelNode → σ → Option (VoxelNode × σ)) :
    ∀ (cs : List (Option VoxelNode)) (s : σ),
      (∀ c, some c ∈ cs → ∀ s', ∃ r, visit c s' = some r) →
      ∃ r, recurseChildrenWith visit cs s = some r
  | [], s, _ => ⟨_, rfl⟩
  | none :: rest, s, h => by
    obtain ⟨r, hr⟩ := recurseChildrenWith_total visit rest s
      (fun c hc => h c (List.mem_cons_of_mem _ hc))
    simp only [recurseChildrenWith, hr]
    exact ⟨_, rfl⟩
  | some child :: rest, s, h => by
    obtain ⟨r1, hr1⟩ := h child (List.mem_cons_self _ _) s
    obtain ⟨r2, hr2⟩ := recurseChildrenWith_total visit rest r1.2
      (fun c hc => h c (List.mem_cons_of_mem _ hc))
    simp only [recurseChildrenWith, hr1, hr2]
    exact ⟨_, rfl⟩

/-- With a visitor that never makes a node taller, a walk whose bound is at least the height
of the tree returns. -/
theorem recurseNodeWithOperation_total {σ : Type}
    (operation : VoxelNode → σ → Bool × VoxelNode × σ)
    (hop : ∀ n s, (operation n s).2.1.height ≤ n.height) :
    ∀ (fuel : Nat) (node : VoxelNode) (s : σ), node.height ≤ fuel →
      ∃ r, recurseNodeWithOperation operation fuel node s = some r
  | 0, node, s, h => by
    rw [VoxelNode.height_eq] at h
    omega
  | fuel + 1, node, s, h => by
    rw [recurseNodeWithOperation]
    by_cases hdesc : (operation node s).1 = true
    · simp only [hdesc, if_true]
      have hh := hop node s
      rw [VoxelNode.height_eq (operation node s).2.1] at hh
      obtain ⟨rc, hrc⟩ := recurseChildrenWith_total
        (recurseNodeWithOperation operation fuel) (operation node s).2.1.children
        (operation node s).2.2
        (fun c hc s' => recurseNodeWithOperation_total operation hop fuel c s' (by
          have := height_le_heightOfChildren c _ hc
          omega))
      simp only [hrc]
      exact ⟨_, rfl⟩
    · simp only [hdesc, Bool.false_eq_true, if_false]
      exact ⟨_, rfl⟩

/-- The child loop of the walk keeps what every walk of a child keeps. -/
theorem recurseChildrenWith_invariant {σ : Type} (visit : VoxelNode → σ → Option (VoxelNode × σ))
    (P : σ → Prop) (hvisit : ∀ c s r, P s → visit c s = some r → P r.2) :
    ∀ (cs : List (Option VoxelNode)) (s : σ) (r : List (Option VoxelNode) × σ),
      P s → recurseChildrenWith visit cs s = some r → P r.2
  | [], s, r, hs, h => by
    simp only [recurseChildrenWith, Option.some.injEq] at h
    subst h; exact hs
  | none :: rest, s, r, hs, h => by
    simp only [recurseChildrenWith] at h
    cases hr : recurseChildrenWith visit rest s with
    | none => simp [hr] at h
    | some r' =>
      simp only [hr, Option.some.injEq] at h
      subst h
      exact recurseChildrenWith_invariant visit P hvisit rest s r' hs hr
  | some child :: rest, s, r, hs, h => by
    simp only [recurseChildrenWith] at h
    cases hr1 : visit child s with
    | none => simp [hr1] at h
    | some r1 =>
      cases hr2 : recurseChildrenWith visit rest r1.2 with
      | none => simp [hr1, hr2] at h
      | some r2 =>
        simp only [hr1, hr2, Option.some.injEq] at h
        subst h
        exact recurseChildrenWith_invariant visit P hvisit rest r1.2 r2
          (hvisit child s r1 hs hr1) hr2

/-- The walk keeps what every visit keeps. -/
theorem recurseNodeWithOperation_invariant {σ : Type}
    (operation : VoxelNode → σ → Bool × VoxelNode × σ) (P : σ → Prop)
    (hop : ∀ n s, P s → P (operation n s).2.2) :
    ∀ (fuel : Nat) (node : VoxelNode) (s : σ) (r : VoxelNode × σ),
      P s → recurseNodeWithOperation operation fuel node s = some r → P r.2
  | 0, node, s, r, _, h => by simp [recurseNodeWithOperation] at h
  | fuel + 1, node, s, r, hs, h => by
    rw [recurseNodeWithOperation] at h
    by_cases hdesc : (operation node s).1 = true
    · simp only [hdesc, if_true] at h
      cases hrc : recurseChildrenWith (recurseNodeWithOperation operation fuel)
          (operation node s).2.1.children (operation node s).2.2 with
      | none => simp [hrc] at h
      | some rc =>
        simp only [hrc, Option.some.injEq] at h
        subst h
        exact recurseChildrenWith_invariant _ P
          (fun c s' r' hs' hr' =>
            recurseNodeWithOperation_invariant operation P hop fuel c s' r' hs' hr')
          _ _ rc (hop node s hs) hrc
    · simp only [hdesc, Bool.false_eq_true, if_false, Option.some.injEq] at h
      subst h
      exact hop node s hs

/-! ## The culling pass -/

theorem removeOutOfViewChildren_height (E : Env) :
    ∀ (cs : List (Option VoxelNode)) (args : removeOutOfViewArgs),
      heightOfChildren (removeOutOfViewChildren E cs args).1 ≤ heightOfChildren cs
  | [], args => by simp [removeOutOfViewChildren]
  | none :: rest, args => by
    simp only [removeOutOfViewChildren, heightOfChildren]
    exact removeOutOfViewChildren_height E rest args
  | some c :: rest, args => by
    simp only [removeOutOfViewChildren, heightOfChildren]
    cases E.inFrustum c.data E.viewFrustum with
    | OUTSIDE =>
      simp only [heightOfChildren]
      exact Nat.le_trans (removeOutOfViewChildren_height E rest _) (Nat.le_max_right _ _)
    | INSIDE =>
      simp only [heightOfChildren]
      exact max_le_max (Nat.le_refl _) (removeOutOfViewChildren_height E rest _)
    | INTERSECT =>
      simp only [heightOfChildren]
      exact max_le_max (Nat.le_refl _) (removeOutOfViewChildren_height E rest _)

theorem removeOutOfViewOperation_height (E : Env) (node : VoxelNode) (args : removeOutOfViewArgs) :
    (removeOutOfViewOperation E node args).2.1.height ≤ node.height := by
  unfold removeOutOfViewOperation
  split_ifs
  · exact Nat.le_refl _
  · simp only [VoxelNode.height]
    rw [VoxelNode.height_eq node]
    exact Nat.succ_le_succ (removeOutOfViewChildren_height E _ _)

/-- The culling walk returns: the bound removeOutOfView passes, the height of the tree,
suffices. -/
theorem removeOutOfView_total (E : Env) (vs : VoxelSystem) :
    ∃ vs1, removeOutOfView E vs = some vs1 := by
  obtain ⟨r, hr⟩ := recurseNodeWithOperation_total (removeOutOfViewOperation E)
    (removeOutOfViewOperation_height E) vs._tree.rootNode.height vs._tree.rootNode
    (freshArgs vs) (Nat.le_refl _)
  unfold freshArgs at hr
  unfold removeOutOfView
  simp only [hr]
  split_ifs <;> exact ⟨_, rfl⟩

theorem sameButBagAndTrace_refl (vs : VoxelSystem) : SameButBagAndTrace vs vs := by
  unfold SameButBagAndTrace; rfl

theorem removeOutOfViewChildren_frame (E : Env) (vs : VoxelSystem) :
    ∀ (cs : List (Option VoxelNode)) (args : removeOutOfViewArgs),
      SameButBagAndTrace vs args.thisVoxelSystem →
      SameButBagAndTrace vs (removeOutOfViewChildren E cs args).2.thisVoxelSystem
  | [], args, h => by simpa [removeOutOfViewChildren] using h
  | none :: rest, args, h => by
    simp only [removeOutOfViewChildren]
    exact removeOutOfViewChildren_frame E vs rest args h
  | some c :: rest, args, h => by
    have hrec : SameButBagAndTrace vs (recordInFrustum E c args).thisVoxelSystem := by
      unfold SameButBagAndTrace recordInFrustum at *
      simp only
      rw [h]
    simp only [removeOutOfViewChildren]
    cases E.inFrustum c.data E.viewFrustum with
    | OUTSIDE =>
      simp only
      apply removeOutOfViewChildren_frame E vs rest
      unfold SameButBagAndTrace at *
      simp only
      rw [hrec]
    | INSIDE =>
      simp only
      exact removeOutOfViewChildren_frame E vs rest _ hrec
    | INTERSECT =>
      simp only
      exact removeOutOfViewChildren_frame E vs rest _ hrec

theorem removeOutOfViewOperation_frame (E : Env) (vs : VoxelSystem) (node : VoxelNode)
    (args : removeOutOfViewArgs) (h : SameButBagAndTrace vs args.thisVoxelSystem) :
    SameButBagAndTrace vs (removeOutOfViewOperation E node args).2.2.thisVoxelSystem := by
  unfold removeOutOfViewOperation
  split_ifs
  · exact h
  · exact removeOutOfViewChildren_frame E vs _ _ h

/-- A culling pass writes the tree, the removed-voxel bag and the trace, nothing else, and
does not clear the dirty bit of the tree. -/
theorem removeOutOfView_frame (E : Env) (vs vs1 : VoxelSystem)
    (h : removeOutOfView E vs = some vs1) :
    vs1 = { vs with _tree := vs1._tree, _removedVoxels := vs1._removedVoxels, trace := vs1.trace } ∧
    (vs._tree.isDirty = true → vs1._tree.isDirty = true) := by
  unfold removeOutOfView at h
  cases hr : recurseNodeWithOperation (removeOutOfViewOperation E) vs._tree.rootNode.height
      vs._tree.rootNode
      { thisVoxelSystem := vs, dontRecurseBag := [], nodesScanned := 0, nodesRemoved := 0,
        nodesInside := 0, nodesIntersect := 0, nodesOutside := 0 } with
  | none => simp [hr] at h
  | some r =>
    have hf := recurseNodeWithOperation_invariant (removeOutOfViewOperation E)
      (fun a => SameButBagAndTrace vs a.thisVoxelSystem)
      (fun n s hs => removeOutOfViewOperation_frame E vs n s hs) _ _ _ r
      (sameButBagAndTrace_refl vs) hr
    simp only [hr] at h
    unfold SameButBagAndTrace at hf
    split_ifs at h
    · simp only [Option.some.injEq] at h
      subst h
      refine ⟨?_, fun _ => rfl⟩
      simp only
      rw [hf]
    · simp only [Option.some.injEq] at h
      subst h
      refine ⟨?_, fun hd => hd⟩
      simp only
      rw [hf]

/-! ## What the view-culling block and the copy leave alone -/

theorem sameButCulling_refl (vs : VoxelSystem) : SameButCulling vs vs := by
  unfold SameButCulling; rfl

theorem sameButCulling_trans {a b c : VoxelSystem} (h1 : SameButCulling a b)
    (h2 : SameButCulling b c) : SameButCulling a c := by
  unfold SameButCulling at *
  rw [h2, h1]

theorem hasViewChanged_frame (E : Env) (vs : VoxelSystem) :
    SameButCulling vs (hasViewChanged E vs).2 := by
  unfold hasViewChanged SameButCulling
  split_ifs <;> rfl

theorem cleanupRemovedVoxels_frame (vs : VoxelSystem) :
    SameButCulling vs (cleanupRemovedVoxels vs) ∧
    (vs._tree.isDirty = true → (cleanupRemovedVoxels vs)._tree.isDirty = true) ∧
    (vs._writeRenderFullVBO = true → (cleanupRemovedVoxels vs)._writeRenderFullVBO = true) := by
  unfold cleanupRemovedVoxels SameButCulling
  split_ifs
  · exact ⟨rfl, fun h => h, fun _ => rfl⟩
  · exact ⟨rfl, fun h => h, fun h => h⟩

theorem removeOutOfView_sameButCulling (E : Env) (vs vs1 : VoxelSystem)
    (h : removeOutOfView E vs = some vs1) : SameButCulling vs vs1 := by
  have hf := (removeOutOfView_frame E vs vs1 h).1
  unfold SameButCulling
  rw [hf]

/-- The view-culling block returns; it writes the tree, the removed-voxel bag, the trace, the
last stable frustum, its two times and `_writeRenderFullVBO`, nothing else; it clears neither
the dirty bit of the tree nor `_writeRenderFullVBO`. -/
theorem viewCulling_total (E : Env) (clk : Clock) (vs : VoxelSystem) :
    ∃ vs1, viewCulling E clk vs = some vs1 ∧ SameButCulling vs vs1 ∧
      (vs._tree.isDirty = true → vs1._tree.isDirty = true) ∧
      (vs._writeRenderFullVBO = true → vs1._writeRenderFullVBO = true) := by
  unfold viewCulling
  simp only
  split_ifs with hc hv
  · obtain ⟨vs2, h2⟩ := removeOutOfView_total E
      { (hasViewChanged E vs).2 with _lastViewCulling := clk.start }
    obtain ⟨hf, hd⟩ := removeOutOfView_frame E _ vs2 h2
    have hs := removeOutOfView_sameButCulling E _ vs2 h2
    obtain ⟨hcf, hcd, hcw⟩ := cleanupRemovedVoxels_frame vs2
    have h0 : SameButCulling vs { (hasViewChanged E vs).2 with _lastViewCulling := clk.start } :=
      sameButCulling_trans (hasViewChanged_frame E vs) (by unfold SameButCulling; rfl)
    simp only [h2]
    refine ⟨_, rfl, ?_, ?_, ?_⟩
    · exact sameButCulling_trans (sameButCulling_trans h0 hs)
        (sameButCulling_trans hcf (by unfold SameButCulling; rfl))
    · intro hdirty
      apply hcd
      apply hd
      show (hasViewChanged E vs).2._tree.isDirty = true
      unfold hasViewChanged
      split_ifs <;> exact hdirty
    · intro hflag
      apply hcw
      rw [hf]
      show (hasViewChanged E vs).2._writeRenderFullVBO = true
      unfold hasViewChanged
      split_ifs <;> exact hflag
  · exact ⟨_, rfl, hasViewChanged_frame E vs, by
      unfold hasViewChanged; split_ifs <;> exact fun h => h, by
      unfold hasViewChanged; split_ifs <;> exact fun h => h⟩
  · exact ⟨_, rfl, sameButCulling_refl vs, fun h => h, fun h => h⟩

theorem sameButCopy_refl (vs : VoxelSystem) : SameButCopy vs vs := by
  unfold SameButCopy; rfl

theorem sameButCopy_trans {a b c : VoxelSystem} (h1 : SameButCopy a b)
    (h2 : SameButCopy b c) : SameButCopy a c := by
  unfold SameButCopy at *
  rw [h2, h1]

theorem copyPartialStep_frame (st : SegmentScan) (i : Nat) :
    SameButCopy st.vs (copyWrittenDataToReadArraysPartialVBOsStep st i).vs := by
  unfold copyWrittenDataToReadArraysPartialVBOsStep SameButCopy
  simp only
  split_ifs <;> rfl

theorem copyPartialFold_frame (l : List Nat) :
    ∀ st : SegmentScan,
      SameButCopy st.vs (l.foldl copyWrittenDataToReadArraysPartialVBOsStep st).vs := by
  induction l with
  | nil => intro st; exact sameButCopy_refl _
  | cons i l ih =>
    intro st
    rw [List.foldl_cons]
    exact sameButCopy_trans (copyPartialStep_frame st i) (ih _)

/-- The copy writes the read side and the write-side dirty flags, nothing else. -/
theorem copyWrittenDataToReadArrays_frame (vs : VoxelSystem) (fullVBOs : Bool) :
    SameButCopy vs (copyWrittenDataToReadArrays vs fullVBOs) := by
  unfold copyWrittenDataToReadArrays
  split_ifs
  · unfold copyWrittenDataToReadArraysFullVBOs SameButCopy; rfl
  · unfold copyWrittenDataToReadArraysPartialVBOs
    simp only
    have hf := copyPartialFold_frame (List.range vs._voxelsInWriteArrays)
      { vs := vs, segmentStart := 0, inSegment := false }
    split_ifs
    · exact sameButCopy_trans hf (by unfold SameButCopy; rfl)
    · exact sameButCopy_trans hf (by unfold SameButCopy; rfl)
  · exact sameButCopy_refl vs

/-! ## When the derivation runs -/

theorem deriveArrays_clean (E : Env) (vs : VoxelSystem) (hclean : vs._tree.isDirty = false) :
    deriveArrays E vs = { vs with _voxelsUpdated := 0 } := by
  unfold deriveArrays
  simp [hclean]

theorem deriveArrays_dirty_bits (E : Env) (vs : VoxelSystem) (hdirty : vs._tree.isDirty = true) :
    (deriveArrays E vs)._tree.isDirty = false ∧ (deriveArrays E vs)._writeRenderFullVBO = false := by
  unfold deriveArrays
  simp [hdirty]

theorem copyWrittenDataToReadArrays_nothing_updated (vs : VoxelSystem) (fullVBOs : Bool)
    (h : vs._voxelsUpdated = 0) : copyWrittenDataToReadArrays vs fullVBOs = vs := by
  unfold copyWrittenDataToReadArrays
  simp [h]

/-- C14: in a setupNewVoxelsForDrawing that is not throttled, with `vs1` the state the
view-culling block leaves, the derivation walk newTreeToArrays runs (its start is recorded
behind the trace of `vs1`) if and only if the dirty bit of the tree of `vs1` is set. When the
bit is clear nothing is recorded, the write-side arrays, the write-side dirty flags, the
write-side count and the read side are as before the call and `_voxelsUpdated` is 0; when it
is set the walk starts in the mode `_writeRenderFullVBO` selects, and after the call the
dirty bit of the tree is clear and `_writeRenderFullVBO` is false. -/
theorem setupNewVoxelsForDrawing_derives_iff_dirty (E : Env) (clk : Clock) (vs : VoxelSystem)
    (hrun : ¬ throttled E clk vs) :
    ∃ vs1 out, viewCulling E clk vs = some vs1 ∧ setupNewVoxelsForDrawing E clk vs = some out ∧
      ((∃ mode rest, out.trace = vs1.trace ++ Event.newTreeToArrays mode :: rest) ↔
        vs1._tree.isDirty = true) ∧
      (vs1._tree.isDirty = false →
        out.trace = vs1.trace ∧
        out._callsToTreesToArrays = vs._callsToTreesToArrays ∧
        out._writeVerticesArray = vs._writeVerticesArray ∧
        out._writeColorsArray = vs._writeColorsArray ∧
        out._writeVoxelDirtyArray = vs._writeVoxelDirtyArray ∧
        out._voxelsInWriteArrays = vs._voxelsInWriteArrays ∧
        SameReadSide vs out ∧
        out._voxelsUpdated = 0) ∧
      (vs1._tree.isDirty = true →
        (∃ rest, out.trace = vs1.trace ++ Event.newTreeToArrays vs1._writeRenderFullVBO :: rest) ∧
        out._tree.isDirty = false ∧ out._writeRenderFullVBO = false) := by
  obtain ⟨vs1, hv, hsame, -, -⟩ := viewCulling_total E clk vs
  unfold throttled at hrun
  unfold setupNewVoxelsForDrawing
  simp only [hrun, if_false, hv]
  refine ⟨vs1, _, rfl, rfl, ?_⟩
  unfold SameButCulling at hsame
  have hclean : vs1._tree.isDirty = false →
      (copyWrittenDataToReadArrays
        (if (deriveArrays E vs1)._voxelsUpdated ≠ 0 then
          { deriveArrays E vs1 with _voxelsDirty := true } else deriveArrays E vs1)
        vs1._writeRenderFullVBO) = { vs1 with _voxelsUpdated := 0 } := by
    intro hc
    rw [deriveArrays_clean E vs1 hc]
    simp only [ne_eq, not_true_eq_false, if_false]
    exact copyWrittenDataToReadArrays_nothing_updated _ _ rfl
  have hdirty : vs1._tree.isDirty = true →
      (∃ rest, (copyWrittenDataToReadArrays
        (if (deriveArrays E vs1)._voxelsUpdated ≠ 0 then
          { deriveArrays E vs1 with _voxelsDirty := true } else deriveArrays E vs1)
        vs1._writeRenderFullVBO).trace =
          vs1.trace ++ Event.newTreeToArrays vs1._writeRenderFullVBO :: rest) := by
    intro hd
    obtain ⟨rest, hrest⟩ := deriveArrays_trace E vs1 hd
    refine ⟨rest, ?_⟩
    rw [copyWrittenDataToReadArrays_trace]
    split_ifs <;> exact hrest
  refine ⟨⟨?_, ?_⟩, ?_, ?_⟩
  · rintro ⟨mode, rest, h⟩
    by_contra hne
    have hc : vs1._tree.isDirty = false := by simpa using hne
    simp only [hclean hc] at h
    have hlen := congrArg List.length h
    simp at hlen
  · intro hd
    obtain ⟨rest, h⟩ := hdirty hd
    exact ⟨_, rest, h⟩
  · intro hc
    simp only [hclean hc, SameReadSide]
    rw [hsame]
    simp
  · intro hd
    refine ⟨hdirty hd, ?_, ?_⟩
    · have hf := copyWrittenDataToReadArrays_frame
        (if (deriveArrays E vs1)._voxelsUpdated ≠ 0 then
          { deriveArrays E vs1 with _voxelsDirty := true } else deriveArrays E vs1)
        vs1._writeRenderFullVBO
      unfold SameButCopy at hf
      simp only
      rw [hf]
      simp only
      split_ifs <;> exact (deriveArrays_dirty_bits E vs1 hd).1
    · have hf := copyWrittenDataToReadArrays_frame
        (if (deriveArrays E vs1)._voxelsUpdated ≠ 0 then
          { deriveArrays E vs1 with _voxelsDirty := true } else deriveArrays E vs1)
        vs1._writeRenderFullVBO
      unfold SameButCopy at hf
      simp only
      rw [hf]
      simp only
      split_ifs <;> exact (deriveArrays_dirty_bits E vs1 hd).2

theorem setupNewVoxelsForDrawing_derives_iff_dirty_witness :
    ¬ throttled exampleEnv exampleClock rebuildSystem ∧
    ∃ vs1 out, viewCulling exampleEnv exampleClock rebuildSystem = some vs1 ∧
      setupNewVoxelsForDrawing exampleEnv exampleClock rebuildSystem = some out ∧
      ((∃ mode rest, out.trace = vs1.trace ++ Event.newTreeToArrays mode :: rest) ↔
        vs1._tree.isDirty = true) ∧
      (vs1._tree.isDirty = false →
        out.trace = vs1.trace ∧
        out._callsToTreesToArrays = rebuildSystem._callsToTreesToArrays ∧
        out._writeVerticesArray = rebuildSystem._writeVerticesArray ∧
        out._writeColorsArray = rebuildSystem._writeColorsArray ∧
        out._writeVoxelDirtyArray = rebuildSystem._writeVoxelDirtyArray ∧
        out._voxelsInWriteArrays = rebuildSystem._voxelsInWriteArrays ∧
        SameReadSide rebuildSystem out ∧
        out._voxelsUpdated = 0) ∧
      (vs1._tree.isDirty = true →
        (∃ rest, out.trace = vs1.trace ++ Event.newTreeToArrays vs1._writeRenderFullVBO :: rest) ∧
        out._tree.isDirty = false ∧ out._writeRenderFullVBO = false) :=
  ⟨by decide!, setupNewVoxelsForDrawing_derives_iff_dirty exampleEnv exampleClock rebuildSystem
    (by decide!)⟩

/-! ## What the derivation walk leaves alone -/

theorem sameButWalk_refl (vs : VoxelSystem) : SameButWalk vs vs := by
  unfold SameButWalk; rfl

theorem sameButWalk_trans {a b c : VoxelSystem} (h1 : SameButWalk a b)
    (h2 : SameButWalk b c) : SameButWalk a c := by
  unfold SameButWalk at *
  rw [h2, h1]

theorem updateNodeInArrays_frame (vs : VoxelSystem) (k : Nat) (sv : vec3) (sc : ℚ)
    (col : nodeColor) : SameButWalk vs (updateNodeInArrays vs k sv sc col) := by
  unfold SameButWalk
  rw [updateNodeInArrays_eq]

theorem updateNodeInArraysAsFullVBO_frame (vs : VoxelSystem) (node : NodeData) :
    SameButWalk vs (updateNodeInArraysAsFullVBO vs node).1 := by
  unfold updateNodeInArraysAsFullVBO
  split_ifs
  · exact sameButWalk_refl vs
  · exact sameButWalk_trans (updateNodeInArrays_frame vs _ _ _ _) (by unfold SameButWalk; rfl)
  · exact sameButWalk_refl vs

theorem updateNodeInArraysAsPartialVBO_frame (vs : VoxelSystem) (node : NodeData) :
    SameButWalk vs (updateNodeInArraysAsPartialVBO vs node).1 := by
  unfold updateNodeInArraysAsPartialVBO
  split_ifs <;>
    first
    | exact sameButWalk_refl vs
    | exact sameButWalk_trans (by unfold SameButWalk; rfl) (updateNodeInArrays_frame _ _ _ _ _)

theorem newTreeToArraysNodePart_frame (vs : VoxelSystem) (node1 : NodeData) :
    SameButWalk vs (newTreeToArraysNodePart vs node1).1 := by
  unfold newTreeToArraysNodePart deleteVoxelCodeFromTree
  simp only
  split_ifs
  · exact sameButWalk_trans (updateNodeInArraysAsFullVBO_frame vs node1)
      (by unfold SameButWalk; rfl)
  · exact updateNodeInArraysAsFullVBO_frame vs node1
  · exact sameButWalk_trans (updateNodeInArraysAsPartialVBO_frame vs node1)
      (by unfold SameButWalk; rfl)
  · exact updateNodeInArraysAsPartialVBO_frame vs node1

mutual
/-- The derivation walk, in either mode, writes the write side and the trace, nothing else:
in particular no read-side field. -/
theorem newTreeToArrays_frame (E : Env) :
    ∀ (n : VoxelNode) (vs : VoxelSystem), SameButWalk vs (newTreeToArrays E vs n).1
  | .mk node children, vs => by
    rw [newTreeToArrays_eq]
    exact sameButWalk_trans (newTreeToArraysChildren_frame E children vs)
      (newTreeToArraysNodePart_frame _ _)
theorem newTreeToArraysChildren_frame (E : Env) :
    ∀ (cs : List (Option VoxelNode)) (vs : VoxelSystem),
      SameButWalk vs (newTreeToArraysChildren E vs cs).1
  | [], vs => by simp only [newTreeToArraysChildren]; exact sameButWalk_refl vs
  | none :: rest, vs => by
    simp only [newTreeToArraysChildren]
    exact newTreeToArraysChildren_frame E rest vs
  | some child :: rest, vs => by
    simp only [newTreeToArraysChildren]
    exact sameButWalk_trans (newTreeToArrays_frame E child vs)
      (newTreeToArraysChildren_frame E rest _)
end

theorem sameButWalk_fields {vs vs' : VoxelSystem} (h : SameButWalk vs vs') :
    vs'._writeRenderFullVBO = vs._writeRenderFullVBO ∧ vs'._maxVoxels = vs._maxVoxels ∧
    SameReadSide vs vs' := by
  unfold SameButWalk at h
  unfold SameReadSide
  rw [h]
  simp

/-! ## The slot count of a full rebuild -/

theorem fullCount_refl (vs : VoxelSystem) : FullCount vs vs 0 := ⟨rfl, fun h => h⟩

theorem fullCount_trans {a b c : VoxelSystem} {n1 n2 : Nat} (hroom : b._maxVoxels = a._maxVoxels)
    (h1 : FullCount a b n1) (h2 : FullCount b c n2) : FullCount a c (n1 + n2) := by
  obtain ⟨h1c, h1w⟩ := h1
  obtain ⟨h2c, h2w⟩ := h2
  refine ⟨by rw [h2c, h1c, Nat.add_assoc], fun h => ?_⟩
  have := h1w h
  rw [hroom] at h2w
  exact h2w this

theorem updateNodeInArraysAsFullVBO_count (vs : VoxelSystem) (node : NodeData) :
    FullCount vs (updateNodeInArraysAsFullVBO vs node).1 (updateNodeInArraysAsFullVBO vs node).2.2 := by
  unfold updateNodeInArraysAsFullVBO FullCount
  split_ifs with h1 h2
  · exact ⟨rfl, fun h => h⟩
  · simp only [updateNodeInArrays_voxelsInWriteArrays]
    have h3 : vs._maxVoxels > vs._voxelsInWriteArrays := Nat.lt_of_not_ge h1
    exact ⟨trivial, fun _ => h3⟩
  · exact ⟨rfl, fun h => h⟩

theorem newTreeToArraysNodePart_count (vs : VoxelSystem) (node1 : NodeData)
    (hfull : vs._writeRenderFullVBO = true) :
    FullCount vs (newTreeToArraysNodePart vs node1).1 (newTreeToArraysNodePart vs node1).2.2 := by
  have h := updateNodeInArraysAsFullVBO_count vs node1
  unfold newTreeToArraysNodePart deleteVoxelCodeFromTree
  simp only [hfull, if_true]
  split_ifs
  · exact h
  · exact h

mutual
theorem newTreeToArrays_count (E : Env) :
    ∀ (n : VoxelNode) (vs : VoxelSystem), vs._writeRenderFullVBO = true →
      FullCount vs (newTreeToArrays E vs n).1 (newTreeToArrays E vs n).2.2
  | .mk node children, vs, hfull => by
    rw [newTreeToArrays_eq]
    have hf := sameButWalk_fields (newTreeToArraysChildren_frame E children vs)
    exact fullCount_trans hf.2.1 (newTreeToArraysChildren_count E children vs hfull)
      (newTreeToArraysNodePart_count _ _ (by rw [hf.1, hfull]))
theorem newTreeToArraysChildren_count (E : Env) :
    ∀ (cs : List (Option VoxelNode)) (vs : VoxelSystem), vs._writeRenderFullVBO = true →
      FullCount vs (newTreeToArraysChildren E vs cs).1 (newTreeToArraysChildren E vs cs).2.2
  | [], vs, _ => by simp only [newTreeToArraysChildren]; exact fullCount_refl vs
  | none :: rest, vs, hfull => by
    simp only [newTreeToArraysChildren]
    exact newTreeToArraysChildren_count E rest vs hfull
  | some child :: rest, vs, hfull => by
    simp only [newTreeToArraysChildren]
    have hf := sameButWalk_fields (newTreeToArrays_frame E child vs)
    exact fullCount_trans hf.2.1 (newTreeToArrays_count E child vs hfull)
      (newTreeToArraysChildren_count E rest _ (by rw [hf.1, hfull]))
end

/-! ## The read side after a full rebuild -/

/-- C12 (counterexample): `staleReadSystem` shows three voxels, its tree is dirty and holds
nothing to render, `_writeRenderFullVBO` is set and the call is not throttled. The rebuild
runs in full mode and places zero nodes: the write-side count becomes 0 and `_voxelsUpdated`
is 0, so the copy is skipped and the read-side count is still 3. -/
theorem setupNewVoxelsForDrawing_empty_rebuild_keeps_read_side :
    ¬ throttled exampleEnv exampleClock staleReadSystem ∧
    staleReadSystem._tree.isDirty = true ∧
    staleReadSystem._writeRenderFullVBO = true ∧
    (setupNewVoxelsForDrawing exampleEnv exampleClock staleReadSystem).map
        (fun out => (out.trace, out._voxelsUpdated, out._voxelsInWriteArrays,
          out._voxelsInReadArrays))
      = some ([Event.newTreeToArrays true], 0, 0, 3) := by
  decide!

theorem slotOf_lt_of_lt_mul (idx n : Nat) (h : idx < n * VERTEX_POINTS_PER_VOXEL) :
    slotOf idx < n := by
  unfold slotOf
  simp only [VERTEX_POINTS_PER_VOXEL, VERTICES_PER_VOXEL] at h ⊢
  omega

/-- The copy that follows a full rebuild which updated something. -/
theorem copyWrittenDataToReadArrays_full (vs : VoxelSystem) (hdirty : vs._voxelsDirty = true)
    (hne : vs._voxelsUpdated ≠ 0) (hpos : 0 < vs._voxelsInWriteArrays)
    (hlt : vs._voxelsInWriteArrays < GLBUFFER_INDEX_RANGE) :
    (copyWrittenDataToReadArrays vs true)._voxelsInWriteArrays = vs._voxelsInWriteArrays ∧
    (copyWrittenDataToReadArrays vs true)._voxelsUpdated = vs._voxelsUpdated ∧
    (copyWrittenDataToReadArrays vs true)._voxelsInReadArrays = vs._voxelsInWriteArrays ∧
    (copyWrittenDataToReadArrays vs true)._readRenderFullVBO = true ∧
    (copyWrittenDataToReadArrays vs true)._writeVerticesArray = vs._writeVerticesArray ∧
    (copyWrittenDataToReadArrays vs true)._writeColorsArray = vs._writeColorsArray ∧
    ∀ idx, idx < vs._voxelsInWriteArrays * VERTEX_POINTS_PER_VOXEL →
      (copyWrittenDataToReadArrays vs true)._readVerticesArray idx = vs._writeVerticesArray idx ∧
      (copyWrittenDataToReadArrays vs true)._readColorsArray idx = vs._writeColorsArray idx := by
  have hc : copyWrittenDataToReadArrays vs true = copyWrittenDataToReadArraysFullVBOs vs := by
    unfold copyWrittenDataToReadArrays
    simp [hdirty, hne]
  rw [hc]
  unfold copyWrittenDataToReadArraysFullVBOs
  simp only
  rw [copyWrittenDataSegmentToReadArrays_eq vs 0 vs._voxelsInWriteArrays hpos hlt]
  refine ⟨?_, ?_, ?_, ?_, ?_, ?_, ?_⟩
  iterate 6 trivial
  intro idx hidx
  have hs := slotOf_lt_of_lt_mul idx _ hidx
  simp [hs]

theorem deriveArrays_full_count (E : Env) (vs : VoxelSystem)
    (hdirty : vs._tree.isDirty = true) (hfull : vs._writeRenderFullVBO = true) :
    (deriveArrays E vs)._voxelsUpdated = (deriveArrays E vs)._voxelsInWriteArrays ∧
    (deriveArrays E vs)._voxelsInWriteArrays ≤ vs._maxVoxels ∧
    SameReadSide vs (deriveArrays E vs) := by
  have hd : deriveArrays E vs =
      { (newTreeToArrays E
            { vs with
              trace := vs.trace ++ [Event.newTreeToArrays vs._writeRenderFullVBO]
              _callsToTreesToArrays := vs._callsToTreesToArrays + 1
              _voxelsInWriteArrays := 0 } vs._tree.rootNode).1 with
        _voxelsUpdated := (newTreeToArrays E
            { vs with
              trace := vs.trace ++ [Event.newTreeToArrays vs._writeRenderFullVBO]
              _callsToTreesToArrays := vs._callsToTreesToArrays + 1
              _voxelsInWriteArrays := 0 } vs._tree.rootNode).2.2
        _tree := { rootNode := (newTreeToArrays E
            { vs with
              trace := vs.trace ++ [Event.newTreeToArrays vs._writeRenderFullVBO]
              _callsToTreesToArrays := vs._callsToTreesToArrays + 1
              _voxelsInWriteArrays := 0 } vs._tree.rootNode).2.1, isDirty := false }
        _writeRenderFullVBO := false } := by
    unfold deriveArrays
    simp only [hdirty, hfull, if_true]
  rw [hd]
  obtain ⟨hc, hw⟩ := newTreeToArrays_count E vs._tree.rootNode
    { vs with
      trace := vs.trace ++ [Event.newTreeToArrays vs._writeRenderFullVBO]
      _callsToTreesToArrays := vs._callsToTreesToArrays + 1
      _voxelsInWriteArrays := 0 } hfull
  obtain ⟨-, -, hr⟩ := sameButWalk_fields (newTreeToArrays_frame E vs._tree.rootNode
    { vs with
      trace := vs.trace ++ [Event.newTreeToArrays vs._writeRenderFullVBO]
      _callsToTreesToArrays := vs._callsToTreesToArrays + 1
      _voxelsInWriteArrays := 0 })
  simp only [Nat.zero_add] at hc hw
  exact ⟨hc.symm, hw (Nat.zero_le _), hr⟩

/-- C12 (amended): for every state in which setupNewVoxelsForDrawing is not throttled, the
tree is dirty, `_writeRenderFullVBO` is set and `_maxVoxels` is a `glBufferIndex` value, the
call returns, and the number of slots the rebuild placed is both the write-side count and
`_voxelsUpdated`. When the rebuild placed at least one node, the read-side count equals the
write-side count, the reader is told to take the full arrays, and the read-side vertex and
colour arrays equal the write-side arrays on every slot below that count. When the rebuild
placed zero nodes the copy is skipped: the read side is as it was before the call. -/
theorem setupNewVoxelsForDrawing_full_rebuild_read_side (E : Env) (clk : Clock)
    (vs : VoxelSystem) (hrun : ¬ throttled E clk vs) (hdirty : vs._tree.isDirty = true)
    (hfull : vs._writeRenderFullVBO = true) (hmax : vs._maxVoxels < GLBUFFER_INDEX_RANGE) :
    ∃ out, setupNewVoxelsForDrawing E clk vs = some out ∧
      out._voxelsUpdated = out._voxelsInWriteArrays ∧
      (out._voxelsInWriteArrays ≠ 0 →
        out._voxelsInReadArrays = out._voxelsInWriteArrays ∧
        out._readRenderFullVBO = true ∧
        ∀ idx, idx < out._voxelsInWriteArrays * VERTEX_POINTS_PER_VOXEL →
          out._readVerticesArray idx = out._writeVerticesArray idx ∧
          out._readColorsArray idx = out._writeColorsArray idx) ∧
      (out._voxelsInWriteArrays = 0 → SameReadSide vs out) := by
  obtain ⟨vs1, hv, hsame, hd1, hf1⟩ := viewCulling_total E clk vs
  have hd := hd1 hdirty
  have hf := hf1 hfull
  have hfields : vs1._maxVoxels = vs._maxVoxels ∧ SameReadSide vs vs1 := by
    unfold SameButCulling at hsame
    unfold SameReadSide
    rw [hsame]
    simp
  obtain ⟨hupd, hle, hrd⟩ := deriveArrays_full_count E vs1 hd hf
  unfold throttled at hrun
  unfold setupNewVoxelsForDrawing
  simp only [hrun, if_false, hv, hf]
  refine ⟨_, rfl, ?_⟩
  generalize deriveArrays E vs1 = D at hupd hle hrd
  by_cases hz : D._voxelsUpdated = 0
  · have hcopy := copyWrittenDataToReadArrays_nothing_updated D true hz
    simp only [hz, ne_eq, not_true_eq_false, if_false, hcopy]
    refine ⟨hupd ▸ hz.symm ▸ rfl, fun hne => absurd (hupd ▸ hz) hne, fun _ => ?_⟩
    unfold SameReadSide at *
    obtain ⟨h1, h2, h3, h4, h5⟩ := hfields.2
    obtain ⟨g1, g2, g3, g4, g5⟩ := hrd
    exact ⟨g1.trans h1, g2.trans h2, g3.trans h3, g4.trans h4, g5.trans h5⟩
  · have hpos : 0 < D._voxelsInWriteArrays := by
      rw [← hupd]; exact Nat.pos_of_ne_zero hz
    have hlt : D._voxelsInWriteArrays < GLBUFFER_INDEX_RANGE := by
      have := hfields.1
      omega
    obtain ⟨c1, c2, c3, c4, c5, c6, c7⟩ := copyWrittenDataToReadArrays_full
      { D with _voxelsDirty := true } rfl hz hpos hlt
    simp only [ne_eq, hz, not_false_eq_true, if_true]
    simp only at c1 c2 c3 c4 c5 c6 c7
    refine ⟨by rw [c1, c2]; exact hupd, fun _ => ⟨by rw [c1, c3], c4, ?_⟩, fun h0 => ?_⟩
    · intro idx hidx
      rw [c1] at hidx
      rw [c5, c6]
      exact c7 idx hidx
    · rw [c1] at h0
      omega

theorem setupNewVoxelsForDrawing_full_rebuild_read_side_witness :
    ¬ throttled exampleEnv exampleClock rebuildSystem ∧
    rebuildSystem._tree.isDirty = true ∧
    rebuildSystem._writeRenderFullVBO = true ∧
    rebuildSystem._maxVoxels < GLBUFFER_INDEX_RANGE ∧
    ∃ out, setupNewVoxelsForDrawing exampleEnv exampleClock rebuildSystem = some out ∧
      out._voxelsUpdated = out._voxelsInWriteArrays ∧
      (out._voxelsInWriteArrays ≠ 0 →
        out._voxelsInReadArrays = out._voxelsInWriteArrays ∧
        out._readRenderFullVBO = true ∧
        ∀ idx, idx < out._voxelsInWriteArrays * VERTEX_POINTS_PER_VOXEL →
          out._readVerticesArray idx = out._writeVerticesArray idx ∧
          out._readColorsArray idx = out._writeColorsArray idx) ∧
      (out._voxelsInWriteArrays = 0 → SameReadSide rebuildSystem out) :=
  ⟨by decide!, by decide, by decide, by decide,
    setupNewVoxelsForDrawing_full_rebuild_read_side exampleEnv exampleClock rebuildSystem
      (by decide!) (by decide) (by decide) (by decide)⟩

/-! ## What a culling pass classifies -/

/-- C19 (evaluation at the failing input): `showingSystem` shows three voxels and its last
setupNewVoxelsForDrawing finished one millisecond ago. parseData of the "erase all" packet
sets the read-side count to 0 in the command loop; the setupNewVoxelsForDrawing that follows
is throttled, so neither a derivation nor the copy section runs (the trace holds the erase
only), and parseData returns with the read-side count changed from 3 to 0. killLocalVoxels
writes the read-side count the same way. -/
theorem parseData_erase_all_writes_read_count :
    showingSystem._voxelsInReadArrays = 3 ∧
    (parseDataSwitch exampleEnv showingSystem eraseAllPacket 11).map
        (fun vs => (vs._voxelsInReadArrays, decide (throttled exampleEnv earlyClock vs)))
      = some (0, true) ∧
    (parseData exampleEnv earlyClock showingSystem eraseAllPacket 11).map
        (fun r => (r.1._voxelsInReadArrays, r.1.trace, r.2))
      = some (0, [Event.eraseAllVoxels], 11) ∧
    (killLocalVoxels exampleEnv showingSystem)._voxelsInReadArrays = 0 ∧
    (killLocalVoxels exampleEnv showingSystem).trace = [Event.eraseAllVoxels] := by
  decide!

/-! ## Deleting a staged node -/

/-- C20 (evaluation at the failing input): `capacityOneSystem` has room for one voxel; its
full rebuild places the leaf at path [0] in slot 0 and leaves the tree without its staging
as `stagedLeafTree` has it. With the leaf then staged for deletion and dirty, the next
derivation runs in partial mode with the write side at capacity: updateNodeInArraysAsPartialVBO
returns at its capacity test without touching slot 0, and newTreeToArrays calls
deleteVoxelCodeFromTree for the leaf although slot 0, below the write-side count 1, still
holds the leaf's cube of scale 1/2 in its colour. -/
theorem newTreeToArrays_deletes_staged_node_at_capacity :
    (deriveArrays exampleEnv capacityOneSystem)._tree.rootNode.nodesInWalkOrder.map
        (fun d => (d.octalCode, d.shouldRender, d.bufferIndex, d.dirty))
      = [([0], true, some 0, false), ([], false, none, false)] ∧
    stagedLeafSystem._writeRenderFullVBO = false ∧
    stagedLeafSystem._voxelsInWriteArrays = 1 ∧
    stagedLeafSystem._maxVoxels = 1 ∧
    (deriveArrays exampleEnv stagedLeafSystem).trace =
      [Event.newTreeToArrays true, Event.newTreeToArrays false,
        Event.deleteVoxelCodeFromTree [0]] ∧
    (deriveArrays exampleEnv stagedLeafSystem)._voxelsInWriteArrays = 1 ∧
    (deriveArrays exampleEnv stagedLeafSystem)._tree.rootNode.nodesInWalkOrder.map
        (fun d => (d.octalCode, d.stagedForDeletion, d.shouldRender, d.bufferIndex))
      = [([0], true, false, some 0), ([], false, false, none)] ∧
    (List.range VERTEX_POINTS_PER_VOXEL).map
        (deriveArrays exampleEnv stagedLeafSystem)._writeVerticesArray
      = (List.range VERTEX_POINTS_PER_VOXEL).map (blockVertex ⟨0, 0, 0⟩ (1 / 2)) ∧
    (List.range VERTEX_POINTS_PER_VOXEL).map
        (deriveArrays exampleEnv stagedLeafSystem)._writeColorsArray
      = (List.range VERTEX_POINTS_PER_VOXEL).map
          (fun j => (⟨255, 0, 0, 0⟩ : nodeColor).get (j % 3)) := by
  decide!

/-! ## The static cube tables -/

theorem identityVertices_zero_or_one :
    ∀ j, j < VERTEX_POINTS_PER_VOXEL → identityVertices.getD j 0 = 0 ∨ identityVertices.getD j 0 = 1 := by
  decide!

theorem blockVertex_eq_computeVoxelVertex (c : vec3) (s : ℚ) (v a : Nat) (ha : a < 3) :
    blockVertex c s (3 * v + a) = (computeVoxelVertex c s v).get a := by
  have hmod : (3 * v + a) % 3 = a := by omega
  unfold blockVertex computeVoxelVertex
  rw [hmod]
  obtain rfl | rfl | rfl : a = 0 ∨ a = 1 ∨ a = 2 := by omega
  · simp [vec3.get, Nat.mul_comm]
  · simp [vec3.get, Nat.mul_comm]
  · simp [vec3.get, Nat.mul_comm]

/-- C27: for every slot `k`, corner `c`, scale `s` and colour, updateNodeInArrays changes
nothing but the write-side vertex and colour arrays, and of these only the entries from
`k * VERTEX_POINTS_PER_VOXEL` up to (not including) `(k + 1) * VERTEX_POINTS_PER_VOXEL`; for
every vertex `v < 24` the three floats written at offset `3 v` are the coordinates of
`computeVoxelVertex c s v`, each of them `c_a` or `c_a + s` on its axis `a`; and the colour
entry at offset `j` is the colour channel `j mod 3`. -/
theorem updateNodeInArrays_writes_block (vs : VoxelSystem) (k : Nat) (c : vec3) (s : ℚ)
    (col : nodeColor) :
    updateNodeInArrays vs k c s col =
      { vs with
        _writeVerticesArray := (updateNodeInArrays vs k c s col)._writeVerticesArray
        _writeColorsArray := (updateNodeInArrays vs k c s col)._writeColorsArray } ∧
    (∀ i, ¬ (k * VERTEX_POINTS_PER_VOXEL ≤ i ∧ i < (k + 1) * VERTEX_POINTS_PER_VOXEL) →
      (updateNodeInArrays vs k c s col)._writeVerticesArray i = vs._writeVerticesArray i ∧
      (updateNodeInArrays vs k c s col)._writeColorsArray i = vs._writeColorsArray i) ∧
    (∀ v a, v < VERTICES_PER_VOXEL → a < 3 →
      (updateNodeInArrays vs k c s col)._writeVerticesArray
          (k * VERTEX_POINTS_PER_VOXEL + 3 * v + a) = (computeVoxelVertex c s v).get a ∧
      ((computeVoxelVertex c s v).get a = c.get a ∨
        (computeVoxelVertex c s v).get a = c.get a + s)) ∧
    (∀ j, j < VERTEX_POINTS_PER_VOXEL →
      (updateNodeInArrays vs k c s col)._writeColorsArray (k * VERTEX_POINTS_PER_VOXEL + j) =
        col.get (j % 3)) := by
  refine ⟨by rw [updateNodeInArrays_eq], ?_, ?_, ?_⟩
  · intro i hi
    have hns : ¬ InSlot k i := by
      intro h
      apply hi
      have h1 : i ≥ k * VERTEX_POINTS_PER_VOXEL := h.1
      have h2 : i < k * VERTEX_POINTS_PER_VOXEL + VERTEX_POINTS_PER_VOXEL := h.2
      exact ⟨h1, by rw [Nat.add_mul, Nat.one_mul]; exact h2⟩
    rw [updateNodeInArrays_eq]
    simp [hns]
  · intro v a hv ha
    have hj : 3 * v + a < VERTEX_POINTS_PER_VOXEL := by
      simp only [VERTEX_POINTS_PER_VOXEL, VERTICES_PER_VOXEL] at hv ⊢
      omega
    have hb := (writeBlockIs_updateNodeInArrays vs k c s col (3 * v + a) hj).1
    rw [Nat.add_assoc, hb]
    have heq := blockVertex_eq_computeVoxelVertex c s v a ha
    refine ⟨heq, ?_⟩
    rw [← heq]
    have hmod : (3 * v + a) % 3 = a := by omega
    unfold blockVertex
    rw [hmod]
    rcases identityVertices_zero_or_one (3 * v + a) hj with h0 | h1
    · left; rw [h0]; simp
    · right; rw [h1]; simp
  · intro j hj
    exact (writeBlockIs_updateNodeInArrays vs k c s col j hj).2

/-! ## Appending in partial mode -/

/-- C29: in partial-update mode below capacity, a dirty node whose slot index is unknown is
appended at the slot equal to the previous write-side count whatever its render decision is:
the call returns 1, the node receives that slot index, the count grows by 1, the slot's
write-side dirty flag is set, and the block written is the node's cube when its render
decision is true and, when it is false, the degenerate block of scale 0: all 24 vertices at
the point whose every coordinate is FLT_MAX. -/
theorem partialVBO_appends_unknown_slot (vs : VoxelSystem) (node : NodeData)
    (hroom : vs._voxelsInWriteArrays < vs._maxVoxels) (hdirty : node.dirty = true)
    (hunknown : node.bufferIndex = GLBUFFER_INDEX_UNKNOWN) :
    (updateNodeInArraysAsPartialVBO vs node).2.2 = 1 ∧
    (updateNodeInArraysAsPartialVBO vs node).2.1 =
      { node with bufferIndex := some vs._voxelsInWriteArrays } ∧
    (updateNodeInArraysAsPartialVBO vs node).1._voxelsInWriteArrays =
      vs._voxelsInWriteArrays + 1 ∧
    (updateNodeInArraysAsPartialVBO vs node).1._writeVoxelDirtyArray vs._voxelsInWriteArrays
      = true ∧
    (node.shouldRender = true →
      WriteBlockIs (updateNodeInArraysAsPartialVBO vs node).1 vs._voxelsInWriteArrays
        node.corner node.scale node.color) ∧
    (node.shouldRender = false →
      WriteBlockIs (updateNodeInArraysAsPartialVBO vs node).1 vs._voxelsInWriteArrays
        ⟨FLT_MAX, FLT_MAX, FLT_MAX⟩ 0 node.color ∧
      ∀ v a, v < VERTICES_PER_VOXEL → a < 3 →
        (updateNodeInArraysAsPartialVBO vs node).1._writeVerticesArray
          (vs._voxelsInWriteArrays * VERTEX_POINTS_PER_VOXEL + 3 * v + a) = FLT_MAX) := by
  have hnot : ¬ vs._voxelsInWriteArrays ≥ vs._maxVoxels := by omega
  have hnone : node.bufferIndex = none := hunknown
  have hres : updateNodeInArraysAsPartialVBO vs node =
      (updateNodeInArrays
        { vs with
          _voxelsInWriteArrays := vs._voxelsInWriteArrays + 1
          _writeVoxelDirtyArray :=
            Function.update vs._writeVoxelDirtyArray vs._voxelsInWriteArrays true }
        vs._voxelsInWriteArrays
        (if node.shouldRender then node.corner else ⟨FLT_MAX, FLT_MAX, FLT_MAX⟩)
        (if node.shouldRender then node.scale else 0) node.color,
        { node with bufferIndex := some vs._voxelsInWriteArrays }, 1) := by
    simp [updateNodeInArraysAsPartialVBO, hnot, NodeData.isDirty, hdirty,
      NodeData.isKnownBufferIndex, hnone, NodeData.getShouldRender,
      NodeData.getCorner, NodeData.getScale, NodeData.getColor, NodeData.setBufferIndex]
  rw [hres]
  refine ⟨rfl, rfl, ?_, ?_, ?_, ?_⟩
  · rw [updateNodeInArrays_eq]
  · rw [updateNodeInArrays_eq]; simp
  · intro hr
    have := writeBlockIs_updateNodeInArrays
      { vs with
        _voxelsInWriteArrays := vs._voxelsInWriteArrays + 1
        _writeVoxelDirtyArray :=
          Function.update vs._writeVoxelDirtyArray vs._voxelsInWriteArrays true }
      vs._voxelsInWriteArrays node.corner node.scale node.color
    simpa [hr] using this
  · intro hr
    have hblock := writeBlockIs_updateNodeInArrays
      { vs with
        _voxelsInWriteArrays := vs._voxelsInWriteArrays + 1
        _writeVoxelDirtyArray :=
          Function.update vs._writeVoxelDirtyArray vs._voxelsInWriteArrays true }
      vs._voxelsInWriteArrays ⟨FLT_MAX, FLT_MAX, FLT_MAX⟩ 0 node.color
    simp only [hr, Bool.false_eq_true, if_false]
    refine ⟨hblock, ?_⟩
    intro v a hv ha
    have hj : 3 * v + a < VERTEX_POINTS_PER_VOXEL := by
      simp only [VERTEX_POINTS_PER_VOXEL, VERTICES_PER_VOXEL] at hv ⊢
      omega
    have hb := (hblock (3 * v + a) hj).1
    rw [Nat.add_assoc, hb]
    unfold blockVertex
    obtain rfl | rfl | rfl : a = 0 ∨ a = 1 ∨ a = 2 := by omega
    · have hmod : (3 * v + 0) % 3 = 0 := by omega
      rw [hmod]; simp [vec3.get]
    · have hmod : (3 * v + 1) % 3 = 1 := by omega
      rw [hmod]; simp [vec3.get]
    · have hmod : (3 * v + 2) % 3 = 2 := by omega
      rw [hmod]; simp [vec3.get]

theorem partialVBO_appends_unknown_slot_witness :
    (updateNodeInArraysAsPartialVBO (exampleSystem 4 emptyTree) emptyRootData).2.2 = 1 ∧
    (updateNodeInArraysAsPartialVBO (exampleSystem 4 emptyTree) emptyRootData).2.1.bufferIndex
      = some 0 ∧
    (updateNodeInArraysAsPartialVBO (exampleSystem 4 emptyTree) emptyRootData).1._voxelsInWriteArrays
      = 1 ∧
    (updateNodeInArraysAsPartialVBO (exampleSystem 4 emptyTree) emptyRootData).1._writeVerticesArray 0
      = FLT_MAX := by
  have h := partialVBO_appends_unknown_slot (exampleSystem 4 emptyTree) emptyRootData
    (by decide) (by decide) rfl
  refine ⟨h.1, by rw [h.2.1]; rfl, h.2.2.1, ?_⟩
  exact (h.2.2.2.2.2 (by decide)).2 0 0 (by decide) (by decide)

/-! ## Slot writes stay in bounds -/

theorem updateNodeInArraysAsFullVBO_in_bounds (vs : VoxelSystem) (node : NodeData)
    (hcount : vs._voxelsInWriteArrays ≤ vs._maxVoxels)
    (hknown : ∀ i, node.bufferIndex = some i → i < vs._voxelsInWriteArrays) :
    SlotsInBounds vs (updateNodeInArraysAsFullVBO vs node).1 (updateNodeInArraysAsFullVBO vs node).2.1 ∧
    WroteSlotInBounds vs (updateNodeInArraysAsFullVBO vs node).1 node.color := by
  unfold updateNodeInArraysAsFullVBO SlotsInBounds WroteSlotInBounds
  split_ifs with h1 h2
  · exact ⟨⟨rfl, Nat.le_refl _, hcount, hknown⟩, Or.inl rfl⟩
  · have hlt : vs._maxVoxels > vs._voxelsInWriteArrays := Nat.lt_of_not_ge h1
    refine ⟨⟨by simp, by simp, ?_, ?_⟩, Or.inr ⟨vs._voxelsInWriteArrays, node.getCorner,
      node.getScale, hlt, ?_⟩⟩
    · simp only [updateNodeInArrays_voxelsInWriteArrays, updateNodeInArrays_maxVoxels]
      exact hlt
    · intro i hi
      simp only [NodeData.setBufferIndex, Option.some.injEq] at hi
      simp only [updateNodeInArrays_voxelsInWriteArrays]
      rw [← hi]
      exact Nat.lt_succ_self _
    · simp only [NodeData.getColor]
      rw [updateNodeInArrays_eq]
  · refine ⟨⟨rfl, Nat.le_refl _, hcount, ?_⟩, Or.inl rfl⟩
    intro i hi
    simp [NodeData.setBufferIndex, GLBUFFER_INDEX_UNKNOWN] at hi

theorem updateNodeInArraysAsPartialVBO_in_bounds (vs : VoxelSystem) (node : NodeData)
    (hcount : vs._voxelsInWriteArrays ≤ vs._maxVoxels)
    (hknown : ∀ i, node.bufferIndex = some i → i < vs._voxelsInWriteArrays) :
    SlotsInBounds vs (updateNodeInArraysAsPartialVBO vs node).1
      (updateNodeInArraysAsPartialVBO vs node).2.1 ∧
    WroteSlotInBounds vs (updateNodeInArraysAsPartialVBO vs node).1 node.color := by
  by_cases h1 : vs._voxelsInWriteArrays ≥ vs._maxVoxels
  · have hres : updateNodeInArraysAsPartialVBO vs node = (vs, node, 0) := by
      simp [updateNodeInArraysAsPartialVBO, h1]
    rw [hres]
    exact ⟨⟨rfl, Nat.le_refl _, hcount, hknown⟩, Or.inl rfl⟩
  · have hlt : vs._maxVoxels > vs._voxelsInWriteArrays := Nat.lt_of_not_ge h1
    cases hd : node.dirty with
    | false =>
      have hres : updateNodeInArraysAsPartialVBO vs node = (vs, node, 0) := by
        simp [updateNodeInArraysAsPartialVBO, h1, NodeData.isDirty, hd]
      rw [hres]
      exact ⟨⟨rfl, Nat.le_refl _, hcount, hknown⟩, Or.inl rfl⟩
    | true =>
      cases hb : node.bufferIndex with
      | none =>
        have hres : updateNodeInArraysAsPartialVBO vs node =
            (updateNodeInArrays
              { vs with
                _voxelsInWriteArrays := vs._voxelsInWriteArrays + 1
                _writeVoxelDirtyArray :=
                  Function.update vs._writeVoxelDirtyArray vs._voxelsInWriteArrays true }
              vs._voxelsInWriteArrays
              (if node.shouldRender then node.corner else ⟨FLT_MAX, FLT_MAX, FLT_MAX⟩)
              (if node.shouldRender then node.scale else 0) node.color,
              { node with bufferIndex := some vs._voxelsInWriteArrays }, 1) := by
          simp [updateNodeInArraysAsPartialVBO, h1, NodeData.isDirty, hd,
            NodeData.isKnownBufferIndex, hb, NodeData.getShouldRender,
            NodeData.getCorner, NodeData.getScale, NodeData.getColor, NodeData.setBufferIndex]
        rw [hres]
        unfold SlotsInBounds WroteSlotInBounds
        refine ⟨⟨by simp, by simp, ?_, ?_⟩, Or.inr ⟨vs._voxelsInWriteArrays,
          (if node.shouldRender then node.corner else ⟨FLT_MAX, FLT_MAX, FLT_MAX⟩),
          (if node.shouldRender then node.scale else 0), hlt, ?_⟩⟩
        · simp only [updateNodeInArrays_voxelsInWriteArrays, updateNodeInArrays_maxVoxels]
          exact hlt
        · intro i hi
          simp only [Option.some.injEq] at hi
          simp only [updateNodeInArrays_voxelsInWriteArrays]
          rw [← hi]
          exact Nat.lt_succ_self _
        · rw [updateNodeInArrays_eq, updateNodeInArrays_eq]
      | some k =>
        have hk : vs._voxelsInWriteArrays > k := hknown k hb
        have hres : updateNodeInArraysAsPartialVBO vs node =
            (updateNodeInArrays
              { vs with _writeVoxelDirtyArray := Function.update vs._writeVoxelDirtyArray k true } k
              (if node.shouldRender then node.corner else ⟨FLT_MAX, FLT_MAX, FLT_MAX⟩)
              (if node.shouldRender then node.scale else 0) node.color, node, 1) := by
          simp [updateNodeInArraysAsPartialVBO, h1, NodeData.isDirty, hd,
            NodeData.isKnownBufferIndex, NodeData.getBufferIndex, hb, NodeData.getShouldRender,
            NodeData.getCorner, NodeData.getScale, NodeData.getColor]
        rw [hres]
        unfold SlotsInBounds WroteSlotInBounds
        refine ⟨⟨by simp, by simp, ?_, ?_⟩, Or.inr ⟨k,
          (if node.shouldRender then node.corner else ⟨FLT_MAX, FLT_MAX, FLT_MAX⟩),
          (if node.shouldRender then node.scale else 0), Nat.lt_trans hk hlt, ?_⟩⟩
        · simp only [updateNodeInArrays_voxelsInWriteArrays, updateNodeInArrays_maxVoxels]
          exact hcount
        · intro i hi
          simp only [updateNodeInArrays_voxelsInWriteArrays]
          rw [hb, Option.some.injEq] at hi
          rw [← hi]
          exact hk
        · rw [updateNodeInArrays_eq, updateNodeInArrays_eq]

/-- C30: the write-side slot count never exceeds the capacity and every slot write is in
bounds. If `_voxelsInWriteArrays ≤ _maxVoxels` and the node's slot index, when known, is
below `_voxelsInWriteArrays` before a call of updateNodeInArraysAsFullVBO or
updateNodeInArraysAsPartialVBO, then after it the capacity is the same, the count has not
shrunk (so every slot index that was below it still is) and does not exceed the capacity,
the node's slot index, when known, is below the count, and the call wrote nothing or wrote
one slot, the index handed to updateNodeInArrays and used to set `_writeVoxelDirtyArray`,
which is below `_maxVoxels`. -/
theorem updateNodeInArrays_calls_in_bounds (vs : VoxelSystem) (node : NodeData)
    (hcount : vs._voxelsInWriteArrays ≤ vs._maxVoxels)
    (hknown : ∀ i, node.bufferIndex = some i → i < vs._voxelsInWriteArrays) :
    (SlotsInBounds vs (updateNodeInArraysAsFullVBO vs node).1
        (updateNodeInArraysAsFullVBO vs node).2.1 ∧
      WroteSlotInBounds vs (updateNodeInArraysAsFullVBO vs node).1 node.color) ∧
    (SlotsInBounds vs (updateNodeInArraysAsPartialVBO vs node).1
        (updateNodeInArraysAsPartialVBO vs node).2.1 ∧
      WroteSlotInBounds vs (updateNodeInArraysAsPartialVBO vs node).1 node.color) :=
  ⟨updateNodeInArraysAsFullVBO_in_bounds vs node hcount hknown,
    updateNodeInArraysAsPartialVBO_in_bounds vs node hcount hknown⟩

theorem updateNodeInArrays_calls_in_bounds_witness :
    (SlotsInBounds (exampleSystem 4 emptyTree)
        (updateNodeInArraysAsFullVBO (exampleSystem 4 emptyTree) dirtyNewLeaf).1
        (updateNodeInArraysAsFullVBO (exampleSystem 4 emptyTree) dirtyNewLeaf).2.1 ∧
      WroteSlotInBounds (exampleSystem 4 emptyTree)
        (updateNodeInArraysAsFullVBO (exampleSystem 4 emptyTree) dirtyNewLeaf).1
        dirtyNewLeaf.color) ∧
    (SlotsInBounds (exampleSystem 4 emptyTree)
        (updateNodeInArraysAsPartialVBO (exampleSystem 4 emptyTree) dirtyNewLeaf).1
        (updateNodeInArraysAsPartialVBO (exampleSystem 4 emptyTree) dirtyNewLeaf).2.1 ∧
      WroteSlotInBounds (exampleSystem 4 emptyTree)
        (updateNodeInArraysAsPartialVBO (exampleSystem 4 emptyTree) dirtyNewLeaf).1
        dirtyNewLeaf.color) :=
  updateNodeInArrays_calls_in_bounds (exampleSystem 4 emptyTree) dirtyNewLeaf (by decide)
    (by intro i hi; simp [dirtyNewLeaf, leafData] at hi)

/-! ## Text commands other than "erase all" -/

/-- A setupNewVoxelsForDrawing returns, from every state. -/
theorem setupNewVoxelsForDrawing_total (E : Env) (clk : Clock) (vs : VoxelSystem) :
    ∃ out, setupNewVoxelsForDrawing E clk vs = some out := by
  obtain ⟨vs1, hv, -⟩ := viewCulling_total E clk vs
  unfold setupNewVoxelsForDrawing
  simp only [hv]
  split_ifs <;> exact ⟨_, rfl⟩

theorem zCommandBody_other (E : Env) (command : List Nat) (vs : VoxelSystem)
    (hcmd : strcmpEq command eraseAllLiteral = false) : zCommandBody E command vs = vs := by
  unfold zCommandBody
  simp [hcmd]

/-- The loop of the Z command when the command string is not "erase all": it ends and
leaves the system as it was. -/
theorem zCommandLoop_other (E : Env) (command : List Nat) (commandLength numBytes : Int)
    (hcmd : strcmpEq command eraseAllLiteral = false) (hlen : 0 ≤ commandLength) :
    ∀ (fuel : Nat) (totalLength : Int) (vs : VoxelSystem), numBytes - totalLength < fuel →
      zCommandLoop E command commandLength numBytes fuel totalLength vs = some vs
  | 0, totalLength, vs, hfuel => by
    have hgt : ¬ totalLength ≤ numBytes := by simp at hfuel; omega
    simp [zCommandLoop, hgt]
  | fuel + 1, totalLength, vs, hfuel => by
    by_cases hle : totalLength ≤ numBytes
    · rw [zCommandLoop, if_pos hle, zCommandBody_other E command vs hcmd]
      exact zCommandLoop_other E command commandLength numBytes hcmd hlen fuel _ vs
        (by push_cast at hfuel; omega)
    · rw [zCommandLoop, if_neg hle]

/-- The loop of the Z command does not run when the first string does not fit the packet. -/
theorem zCommandLoop_skipped (E : Env) (command : List Nat) (commandLength numBytes : Int)
    (fuel : Nat) (totalLength : Int) (vs : VoxelSystem) (h : ¬ totalLength ≤ numBytes) :
    zCommandLoop E command commandLength numBytes fuel totalLength vs = some vs := by
  cases fuel <;> simp [zCommandLoop, h]

/-- The Z command ends whenever the memory behind the command byte holds a NUL. -/
theorem zCommand_total (E : Env) (vs : VoxelSystem) (sourceBuffer : List Nat) (numBytes : Int)
    (hnul : 0 ∈ sourceBuffer.drop 1) : ∃ vs', zCommand E vs sourceBuffer numBytes = some vs' := by
  have hs : strlen (sourceBuffer.drop 1) = some (cstring (sourceBuffer.drop 1)).length := by
    unfold strlen
    rw [if_pos (by simpa using hnul)]
  unfold zCommand
  simp only [hs]
  have hfuel : numBytes - (1 + ((cstring (sourceBuffer.drop 1)).length : Int) + 1) <
      (numBytes.toNat : Int) := by omega
  cases hcmd : strcmpEq (sourceBuffer.drop 1) eraseAllLiteral with
  | true =>
    obtain ⟨vs', h, -⟩ := zCommandLoop_erase E (sourceBuffer.drop 1)
      (cstring (sourceBuffer.drop 1)).length numBytes hcmd (by omega) numBytes.toNat
      (1 + ((cstring (sourceBuffer.drop 1)).length : Int) + 1) vs hfuel
    exact ⟨vs', h⟩
  | false =>
    exact ⟨vs, zCommandLoop_other E (sourceBuffer.drop 1)
      (cstring (sourceBuffer.drop 1)).length numBytes hcmd (by omega) numBytes.toNat
      (1 + ((cstring (sourceBuffer.drop 1)).length : Int) + 1) vs hfuel⟩

/-- C23: let the case labels of the switch of parseData be distinct. For every text-command
packet whose memory holds the terminating NUL of the command string and whose command
string, if it lies within the packet, is not "erase all", the command handling leaves the
whole system as it was: eraseAllVoxels is not called and neither slot count is reset; the
state parseData returns is the one setupNewVoxelsForDrawing makes of the unchanged system.
And for every packet, whatever its command byte (for a text command, with the terminating
NUL in memory), parseData returns `numBytes`. -/
theorem parseData_ignores_other_commands (E : Env) (clk : Clock) (vs : VoxelSystem)
    (sourceBuffer : List Nat) (numBytes : Int)
    (hv : E.PACKET_HEADER_Z_COMMAND ≠ E.PACKET_HEADER_VOXEL_DATA)
    (hm : E.PACKET_HEADER_Z_COMMAND ≠ E.PACKET_HEADER_VOXEL_DATA_MONOCHROME) :
    (sourceBuffer.getD 0 0 = E.PACKET_HEADER_Z_COMMAND →
      ∀ n, strlen (sourceBuffer.drop 1) = some n →
        ((1 + (n : Int) + 1 ≤ numBytes) → cstring (sourceBuffer.drop 1) ≠ eraseAllLiteral) →
        parseDataSwitch E vs sourceBuffer numBytes = some vs ∧
        ∃ out, setupNewVoxelsForDrawing E clk vs = some out ∧
          parseData E clk vs sourceBuffer numBytes = some (out, numBytes)) ∧
    ((sourceBuffer.getD 0 0 = E.PACKET_HEADER_Z_COMMAND → 0 ∈ sourceBuffer.drop 1) →
      ∃ out, parseData E clk vs sourceBuffer numBytes = some (out, numBytes)) := by
  constructor
  · intro hz n hn hother
    have hsw : parseDataSwitch E vs sourceBuffer numBytes = some vs := by
      unfold parseDataSwitch
      simp only [hz, hv, hm, if_false, if_true]
      unfold zCommand
      simp only [hn]
      by_cases hfit : (1 + (n : Int) + 1 ≤ numBytes)
      · have hcmd : strcmpEq (sourceBuffer.drop 1) eraseAllLiteral = false := by
          unfold strcmpEq
          simpa using hother hfit
        exact zCommandLoop_other E _ n numBytes hcmd (by omega) numBytes.toNat _ vs (by omega)
      · exact zCommandLoop_skipped E _ n numBytes numBytes.toNat _ vs hfit
    obtain ⟨out, hout⟩ := setupNewVoxelsForDrawing_total E clk vs
    refine ⟨hsw, out, hout, ?_⟩
    unfold parseData
    simp only [hsw, hout]
  · intro hnul
    have hsw : ∃ vs1, parseDataSwitch E vs sourceBuffer numBytes = some vs1 := by
      unfold parseDataSwitch
      simp only
      split_ifs with h1 h2 h3
      · exact ⟨_, rfl⟩
      · exact ⟨_, rfl⟩
      · exact zCommand_total E vs sourceBuffer numBytes (hnul h3)
      · exact ⟨_, rfl⟩
    obtain ⟨vs1, h1⟩ := hsw
    obtain ⟨out, hout⟩ := setupNewVoxelsForDrawing_total E clk vs1
    refine ⟨out, ?_⟩
    unfold parseData
    simp only [h1, hout]

theorem parseData_ignores_other_commands_witness :
    parseDataSwitch exampleEnv stableSystem fooEraseAllPacket 15 = some stableSystem ∧
    ∃ out, parseData exampleEnv exampleClock stableSystem fooEraseAllPacket 15 = some (out, 15) := by
  have h := parseData_ignores_other_commands exampleEnv exampleClock stableSystem
    fooEraseAllPacket 15 (by decide) (by decide)
  obtain ⟨h1, out, -, h3⟩ := h.1 rfl 3 (by decide) (fun _ => by decide)
  exact ⟨h1, out, h3⟩

/-! ## Slot indices after a full rebuild -/

/-- C24 (counterexample): `staleSlotSystem` has room for one voxel. Its full rebuild places
the colored leaf in slot 0, which fills the write side; the node at path [3], visited next,
has render decision false, and updateNodeInArraysAsFullVBO returns at its capacity test
before it reaches setBufferIndex(GLBUFFER_INDEX_UNKNOWN): the node keeps slot index 1. -/
theorem deriveArrays_full_rebuild_keeps_stale_slot :
    staleSlotSystem._tree.isDirty = true ∧
    staleSlotSystem._writeRenderFullVBO = true ∧
    (deriveArrays exampleEnv staleSlotSystem)._tree.rootNode.nodesInWalkOrder.map
        (fun d => (d.octalCode, d.shouldRender, d.bufferIndex))
      = [([0], true, some 0), ([3], false, some 1), ([], false, none)] := by
  decide!

theorem newTreeToArraysNodePart_unknown (vs : VoxelSystem) (node1 : NodeData)
    (hfull : vs._writeRenderFullVBO = true) (hroom : vs._voxelsInWriteArrays < vs._maxVoxels)
    (hr : (newTreeToArraysNodePart vs node1).2.1.shouldRender = false) :
    (newTreeToArraysNodePart vs node1).2.1.bufferIndex = none := by
  rw [newTreeToArraysNodePart_shouldRender] at hr
  have hnot : ¬ vs._voxelsInWriteArrays ≥ vs._maxVoxels := by omega
  unfold newTreeToArraysNodePart updateNodeInArraysAsFullVBO
  simp [hfull, hnot, NodeData.getShouldRender, hr, NodeData.clearDirtyBit,
    NodeData.setBufferIndex, GLBUFFER_INDEX_UNKNOWN]

mutual
theorem newTreeToArrays_unknown (E : Env) :
    ∀ (n : VoxelNode) (vs : VoxelSystem), vs._writeRenderFullVBO = true →
      vs._voxelsInWriteArrays +
          (renderedOf (newTreeToArrays E vs n).2.1.nodesInWalkOrder).length < vs._maxVoxels →
      ∀ d, d ∈ (newTreeToArrays E vs n).2.1.nodesInWalkOrder → d.shouldRender = false →
        d.bufferIndex = none
  | .mk node children, vs, hfull, hroom => by
    rw [newTreeToArrays_eq] at hroom ⊢
    simp only [VoxelNode.nodesInWalkOrder] at hroom ⊢
    rw [renderedOf_append, List.length_append] at hroom
    have hc := newTreeToArraysChildren_full E children vs hfull (by omega)
    intro d hd hr
    rw [List.mem_append, List.mem_singleton] at hd
    rcases hd with hd | hd
    · exact newTreeToArraysChildren_unknown E children vs hfull (by omega) d hd hr
    · subst hd
      exact newTreeToArraysNodePart_unknown _ _ (by rw [hc.mode, hfull])
        (by rw [hc.count_eq, hc.room]; omega) hr
theorem newTreeToArraysChildren_unknown (E : Env) :
    ∀ (cs : List (Option VoxelNode)) (vs : VoxelSystem), vs._writeRenderFullVBO = true →
      vs._voxelsInWriteArrays +
          (renderedOf (nodesOfChildren (newTreeToArraysChildren E vs cs).2.1)).length
        < vs._maxVoxels →
      ∀ d, d ∈ nodesOfChildren (newTreeToArraysChildren E vs cs).2.1 → d.shouldRender = false →
        d.bufferIndex = none
  | [], vs, _, _ => by
    simp [newTreeToArraysChildren, nodesOfChildren]
  | none :: rest, vs, hfull, hroom => by
    simp only [newTreeToArraysChildren, nodesOfChildren] at hroom ⊢
    exact newTreeToArraysChildren_unknown E rest vs hfull hroom
  | some child :: rest, vs, hfull, hroom => by
    simp only [newTreeToArraysChildren, nodesOfChildren] at hroom ⊢
    rw [renderedOf_append, List.length_append] at hroom
    have h1 := newTreeToArrays_full E child vs hfull (by omega)
    intro d hd hr
    rw [List.mem_append] at hd
    rcases hd with hd | hd
    · exact newTreeToArrays_unknown E child vs hfull (by omega) d hd hr
    · exact newTreeToArraysChildren_unknown E rest (newTreeToArrays E vs child).1
        (by rw [h1.mode, hfull]) (by rw [h1.count_eq, h1.room]; omega) d hd hr
end

/-- C24 (amended): after a derivation in full-rebuild mode (the tree is dirty and
`_writeRenderFullVBO` is set) in which the number of nodes whose render decision is true is
below `_maxVoxels`, every visited node whose render decision is false has
GLBUFFER_INDEX_UNKNOWN as its buffer index, so a known slot index is held only by nodes
whose render decision is true. -/
theorem deriveArrays_full_rebuild_unknown_slots (E : Env) (vs : VoxelSystem)
    (hdirty : vs._tree.isDirty = true) (hfull : vs._writeRenderFullVBO = true)
    (hroom : (renderedOf (deriveArrays E vs)._tree.rootNode.nodesInWalkOrder).length
      < vs._maxVoxels) :
    (∀ d, d ∈ (deriveArrays E vs)._tree.rootNode.nodesInWalkOrder → d.shouldRender = false →
      d.bufferIndex = GLBUFFER_INDEX_UNKNOWN) ∧
    (∀ d, d ∈ (deriveArrays E vs)._tree.rootNode.nodesInWalkOrder → d.bufferIndex.isSome = true →
      d.shouldRender = true) := by
  have hd : deriveArrays E vs =
      { (newTreeToArrays E
            { vs with
              trace := vs.trace ++ [Event.newTreeToArrays vs._writeRenderFullVBO]
              _callsToTreesToArrays := vs._callsToTreesToArrays + 1
              _voxelsInWriteArrays := 0 } vs._tree.rootNode).1 with
        _voxelsUpdated := (newTreeToArrays E
            { vs with
              trace := vs.trace ++ [Event.newTreeToArrays vs._writeRenderFullVBO]
              _callsToTreesToArrays := vs._callsToTreesToArrays + 1
              _voxelsInWriteArrays := 0 } vs._tree.rootNode).2.2
        _tree := { rootNode := (newTreeToArrays E
            { vs with
              trace := vs.trace ++ [Event.newTreeToArrays vs._writeRenderFullVBO]
              _callsToTreesToArrays := vs._callsToTreesToArrays + 1
              _voxelsInWriteArrays := 0 } vs._tree.rootNode).2.1, isDirty := false }
        _writeRenderFullVBO := false } := by
    unfold deriveArrays
    simp only [hdirty, hfull, if_true]
  rw [hd] at hroom ⊢
  simp only at hroom ⊢
  have hun := newTreeToArrays_unknown E vs._tree.rootNode
    { vs with
      trace := vs.trace ++ [Event.newTreeToArrays vs._writeRenderFullVBO]
      _callsToTreesToArrays := vs._callsToTreesToArrays + 1
      _voxelsInWriteArrays := 0 } hfull (by simpa using hroom)
  refine ⟨hun, ?_⟩
  intro d hmem hsome
  cases hr : d.shouldRender with
  | true => rfl
  | false =>
    have := hun d hmem hr
    rw [this] at hsome
    simp at hsome

theorem deriveArrays_full_rebuild_unknown_slots_witness :
    (∀ d, d ∈ (deriveArrays exampleEnv { staleSlotSystem with _maxVoxels := 4 })._tree.rootNode.nodesInWalkOrder →
      d.shouldRender = false → d.bufferIndex = GLBUFFER_INDEX_UNKNOWN) ∧
    (∀ d, d ∈ (deriveArrays exampleEnv { staleSlotSystem with _maxVoxels := 4 })._tree.rootNode.nodesInWalkOrder →
      d.bufferIndex.isSome = true → d.shouldRender = true) :=
  deriveArrays_full_rebuild_unknown_slots exampleEnv { staleSlotSystem with _maxVoxels := 4 }
    (by decide) (by decide) (by decide!)

/-! ## Whether the section loop ends -/

/-- In the compressed case the loop ends within `dataBytes` iterations, whatever the bytes
of the packet are (declared lengths of 0 included), as long as the length field has a size. -/
theorem sectionLoop_compressed_ends (L : OctreePacketLayout) (packet : List Nat) (c : Bool)
    (hsize : 1 ≤ L.sizeofSectionSize) :
    ∀ (fuel : Nat) (dataAt : Nat) (dataBytes : Int) (calls : List DecodeCall),
      dataBytes ≤ fuel → (sectionLoop L packet c true fuel dataAt dataBytes calls).finished = true
  | 0, dataAt, dataBytes, calls, h => by
    have hle : dataBytes ≤ 0 := by simpa using h
    simp [sectionLoop, hle]
  | fuel + 1, dataAt, dataBytes, calls, h => by
    rw [sectionLoop]
    by_cases hpos : dataBytes > 0
    · simp only [hpos, if_true]
      by_cases hgt : dataBytes > (L.sizeofSectionSize : Int)
      · simp only [hgt, if_true]
        split_ifs
        · exact sectionLoop_compressed_ends L packet c hsize fuel _ _ _ (by push_cast at h ⊢; omega)
        · exact sectionLoop_compressed_ends L packet c hsize fuel _ _ _ (by push_cast at h ⊢; omega)
      · simp only [hgt, if_false, ne_eq, not_true_eq_false]
        exact sectionLoop_compressed_ends L packet c hsize fuel _ _ _ (by omega)
    · simp [hpos]

/-- In the uncompressed case a positive payload size that is 0 modulo the range of the
section-length type gives section length 0 in every iteration: the loop makes no call and
does not end. -/
theorem sectionLoop_uncompressed_spins (L : OctreePacketLayout) (packet : List Nat) (c : Bool)
    (dataAt : Nat) (dataBytes : Int) (calls : List DecodeCall) (hpos : dataBytes > 0)
    (hmod : dataBytes.toNat % 2 ^ (8 * L.sizeofSectionSize) = 0) (fuel : Nat) :
    sectionLoop L packet c false fuel dataAt dataBytes calls =
      { calls := calls, finished := false } := by
  induction fuel with
  | zero => simp [sectionLoop, hpos]
  | succ n ih =>
    rw [sectionLoop]
    simp [hpos, hmod, ih]

theorem spinPacket_length : spinPacket.length = 65565 := by
  unfold spinPacket
  rw [List.length_cons, List.length_replicate]

theorem spinPacket_flags : packetFlags exampleLayout spinPacket = 0 := by
  have h : spinPacket.getD 18 0 = 0 := by
    unfold spinPacket
    rw [List.getD_cons_succ]
    exact getD_replicate_zero _ 17
  simp only [packetFlags, exampleLayout, readUnsigned, h]

/-- C25 (evaluation at the failing input): an uncompressed packet of the expected type with
a payload of exactly 65536 bytes and a 2-byte OCTREE_PACKET_INTERNAL_SECTION_SIZE. The
assignment `sectionLength = dataBytes` gives 0, so the iteration neither decodes nor changes
`dataBytes`: however many iterations the loop is given, it has made no call and has not
ended. -/
theorem processDatagram_section_loop_spins :
    spinPacket.getD 0 0 = exampleLayout.expectedPacketType ∧
    exampleLayout.packetIsCompressed (packetFlags exampleLayout spinPacket) = false ∧
    (spinPacket.length : Int) - (29 : Int) = 65536 ∧
    (∀ fuel, processDatagram exampleLayout fuel spinPacket = { calls := [], finished := false }) := by
  have hcmd : spinPacket.getD 0 0 = 86 := rfl
  have hlen : (spinPacket.length : Int) = 65565 := by rw [spinPacket_length]; rfl
  refine ⟨hcmd, ?_, by rw [hlen]; rfl, ?_⟩
  · rw [spinPacket_flags]; decide
  · intro fuel
    unfold processDatagram
    rw [spinPacket_flags]
    simp only [hcmd, hlen, exampleLayout, OCTREE_PACKET_EXTRA_HEADERS_SIZE, if_true]
    have h := sectionLoop_uncompressed_spins exampleLayout spinPacket false 29 65536 []
      (by decide) (by decide) fuel
    simpa [exampleLayout] using h

/-! ## Running setupNewVoxelsForDrawing twice -/

/-- C21 (counterexample): two setupNewVoxelsForDrawing calls, neither throttled, with the
same frustum (that of `movedEnv`) and nothing done to the tree in between. The first call
comes before view culling is due, so it derives the arrays (three slots) without looking at
the frustum. In the second call view culling is due: the leaf at path [0] is outside the
frustum and is removed, the full rebuild that follows updates one slot, the read-side count
goes from 3 to 1 and entry 0 of the read-side vertex array changes from 0 to 1/2. -/
theorem setupNewVoxelsForDrawing_second_call_culls :
    ¬ throttled movedEnv halfSecondClock pendingViewSystem ∧
    (setupNewVoxelsForDrawing movedEnv halfSecondClock pendingViewSystem).map
        (fun out1 => (decide (throttled movedEnv laterClock out1), out1._tree.isDirty,
          out1._voxelsInReadArrays, out1._readVerticesArray 0))
      = some (false, false, 3, 0) ∧
    ((setupNewVoxelsForDrawing movedEnv halfSecondClock pendingViewSystem).bind
        (setupNewVoxelsForDrawing movedEnv laterClock)).map
        (fun out2 => (out2._voxelsUpdated, out2._voxelsInReadArrays, out2._readVerticesArray 0))
      = some (1, 1, 1 / 2) := by
  decide!

theorem deriveArrays_tree_clean (E : Env) (vs : VoxelSystem) :
    (deriveArrays E vs)._tree.isDirty = false := by
  unfold deriveArrays
  split_ifs with h
  · rfl
  · simpa using h

theorem newTreeToArrays_lastStableViewFrustum (E : Env) (n : VoxelNode) (vs : VoxelSystem) :
    (newTreeToArrays E vs n).1._lastStableViewFrustum = vs._lastStableViewFrustum := by
  have hf := newTreeToArrays_frame E n vs
  unfold SameButWalk at hf
  rw [hf]

theorem deriveArrays_lastStableViewFrustum (E : Env) (vs : VoxelSystem) :
    (deriveArrays E vs)._lastStableViewFrustum = vs._lastStableViewFrustum := by
  unfold deriveArrays
  split_ifs with h1
  · simp only [newTreeToArrays_lastStableViewFrustum]
    split_ifs <;> rfl
  · rfl

/-- When the view-culling block is due, or the frustum is the last stable one already, the
block leaves the frustum recorded as the last stable one. -/
theorem viewCulling_records_frustum (E : Env) (clk : Clock) (vs vs1 : VoxelSystem)
    (h : viewCulling E clk vs = some vs1)
    (hseen : cullingDue E clk vs ∨ vs._lastStableViewFrustum = E.viewFrustum) :
    vs1._lastStableViewFrustum = E.viewFrustum := by
  by_cases hst : vs._lastStableViewFrustum = E.viewFrustum
  · rw [viewCulling_stable E clk vs hst.symm, Option.some.injEq] at h
    rw [← h]
    exact hst
  · have hdue : cullingDue E clk vs := hseen.resolve_right hst
    unfold cullingDue at hdue
    have hchanged : hasViewChanged E vs = (true, { vs with _lastStableViewFrustum := E.viewFrustum }) := by
      unfold hasViewChanged isViewChanging ViewFrustum.matches
      simp [hst]
    unfold viewCulling at h
    simp only [hdue, isViewChanging, and_self, if_true, hchanged] at h
    cases h2 : removeOutOfView E
        { vs with _lastStableViewFrustum := E.viewFrustum, _lastViewCulling := clk.start } with
    | none => simp [h2] at h
    | some vs2 =>
      simp only [h2, Option.some.injEq] at h
      have hf := (removeOutOfView_frame E _ vs2 h2).1
      rw [← h]
      unfold cleanupRemovedVoxels
      split_ifs
      · simp only
        rw [hf]
      · simp only
        rw [hf]

/-- C21 (amended): let a setupNewVoxelsForDrawing that is not throttled run from `vs` with
the frustum of `E`, where view culling is due or the frustum already is the last stable one,
and let it be invoked again, not throttled, with the same frustum and the state the first
call left (no tree mutation in between). Then both calls return, the first leaves the tree
clean and the frustum recorded as the last stable one, and the second changes nothing but
`_voxelsUpdated`, which it sets to 0, and the two times of the last run: no write-side or
read-side dirty flag becomes set and no entry of the read arrays changes. -/
theorem setupNewVoxelsForDrawing_second_call_idle (E : Env) (clk1 clk2 : Clock)
    (vs : VoxelSystem) (hrun1 : ¬ throttled E clk1 vs)
    (hseen : cullingDue E clk1 vs ∨ vs._lastStableViewFrustum = E.viewFrustum)
    (hrun2 : ¬ (clk2.start - clk1.finish) / 1000 ≤
      max ((clk1.finish - clk1.start) / 1000) E.SIXTY_FPS_IN_MILLISECONDS) :
    ∃ out1 out2, setupNewVoxelsForDrawing E clk1 vs = some out1 ∧
      ¬ throttled E clk2 out1 ∧
      out1._tree.isDirty = false ∧
      out1._lastStableViewFrustum = E.viewFrustum ∧
      setupNewVoxelsForDrawing E clk2 out1 = some out2 ∧
      out2 =
        { out1 with
          _voxelsUpdated := 0
          _setupNewVoxelsForDrawingLastFinished := clk2.finish
          _setupNewVoxelsForDrawingLastElapsed := (clk2.finish - clk2.start) / 1000 } ∧
      out2._voxelsUpdated = 0 ∧
      out2._writeVoxelDirtyArray = out1._writeVoxelDirtyArray ∧
      SameReadSide out1 out2 := by
  obtain ⟨vs1, hv, -⟩ := viewCulling_total E clk1 vs
  have hstable1 := viewCulling_records_frustum E clk1 vs vs1 hv hseen
  have hout1 : setupNewVoxelsForDrawing E clk1 vs =
      some { copyWrittenDataToReadArrays
              (if (deriveArrays E vs1)._voxelsUpdated ≠ 0 then
                { deriveArrays E vs1 with _voxelsDirty := true } else deriveArrays E vs1)
              vs1._writeRenderFullVBO with
        _setupNewVoxelsForDrawingLastFinished := clk1.finish
        _setupNewVoxelsForDrawingLastElapsed := (clk1.finish - clk1.start) / 1000 } := by
    unfold throttled at hrun1
    unfold setupNewVoxelsForDrawing
    simp only [hrun1, if_false, hv]
  have hf := copyWrittenDataToReadArrays_frame
    (if (deriveArrays E vs1)._voxelsUpdated ≠ 0 then
      { deriveArrays E vs1 with _voxelsDirty := true } else deriveArrays E vs1)
    vs1._writeRenderFullVBO
  unfold SameButCopy at hf
  generalize hc : copyWrittenDataToReadArrays
    (if (deriveArrays E vs1)._voxelsUpdated ≠ 0 then
      { deriveArrays E vs1 with _voxelsDirty := true } else deriveArrays E vs1)
    vs1._writeRenderFullVBO = C at hf hout1
  have hclean : C._tree.isDirty = false := by
    rw [hf]
    simp only
    split_ifs <;> exact deriveArrays_tree_clean E vs1
  have hstable : C._lastStableViewFrustum = E.viewFrustum := by
    rw [hf]
    simp only
    split_ifs <;> simp only [deriveArrays_lastStableViewFrustum, hstable1]
  have hview2 := viewCulling_stable E clk2
    { C with
      _setupNewVoxelsForDrawingLastFinished := clk1.finish
      _setupNewVoxelsForDrawingLastElapsed := (clk1.finish - clk1.start) / 1000 } hstable.symm
  have hout2 : setupNewVoxelsForDrawing E clk2
      { C with
        _setupNewVoxelsForDrawingLastFinished := clk1.finish
        _setupNewVoxelsForDrawingLastElapsed := (clk1.finish - clk1.start) / 1000 } =
      some { C with
        _voxelsUpdated := 0
        _setupNewVoxelsForDrawingLastFinished := clk2.finish
        _setupNewVoxelsForDrawingLastElapsed := (clk2.finish - clk2.start) / 1000 } := by
    have hclean1 : ({ C with
        _setupNewVoxelsForDrawingLastFinished := clk1.finish
        _setupNewVoxelsForDrawingLastElapsed := (clk1.finish - clk1.start) / 1000 }
        : VoxelSystem)._tree.isDirty = false := hclean
    unfold setupNewVoxelsForDrawing
    simp only [hrun2, if_false, hview2]
    rw [deriveArrays_clean E _ hclean1]
    simp only [ne_eq, not_true_eq_false, if_false]
    rw [copyWrittenDataToReadArrays_nothing_updated _ _ rfl]
  refine ⟨_, _, hout1, ?_, hclean, hstable, hout2, rfl, rfl, rfl, ?_⟩
  · unfold throttled
    exact hrun2
  · exact ⟨rfl, rfl, rfl, rfl, rfl⟩

theorem setupNewVoxelsForDrawing_second_call_idle_witness :
    ∃ out1 out2, setupNewVoxelsForDrawing movedEnv exampleClock pendingViewSystem = some out1 ∧
      ¬ throttled movedEnv laterClock out1 ∧
      out1._tree.isDirty = false ∧
      out1._lastStableViewFrustum = movedEnv.viewFrustum ∧
      setupNewVoxelsForDrawing movedEnv laterClock out1 = some out2 ∧
      out2 =
        { out1 with
          _voxelsUpdated := 0
          _setupNewVoxelsForDrawingLastFinished := laterClock.finish
          _setupNewVoxelsForDrawingLastElapsed := (laterClock.finish - laterClock.start) / 1000 } ∧
      out2._voxelsUpdated = 0 ∧
      out2._writeVoxelDirtyArray = out1._writeVoxelDirtyArray ∧
      SameReadSide out1 out2 :=
  setupNewVoxelsForDrawing_second_call_idle movedEnv exampleClock laterClock pendingViewSystem
    (by decide!) (Or.inl (by decide!)) (by decide!)

/-! ## Handing the dirty segments to the GPU -/

theorem uploadScanInv_init (vs0 : VoxelSystem) :
    UploadScanInv vs0 0 { vs := vs0, segmentStart := 0, inSegment := false } [] where
  frame := rfl
  trace := by simp [segmentEvents]
  flags := by intro j; simp
  sound := by intro r hr; simp at hr
  complete := by intro a b _ h; omega
  sorted := List.Pairwise.nil
  pending := by intro h; simp at h
  idle := by intro _; exact Or.inl rfl

/-- Two runs of dirty slots that start a run and share a slot start at the same slot. -/
theorem run_start_unique (dirty : Nat → Bool) (a s b : Nat)
    (ha : a = 0 ∨ dirty (a - 1) = false) (hs : s = 0 ∨ dirty (s - 1) = false)
    (hab : a ≤ b) (hsb : s ≤ b)
    (hrunA : ∀ j, a ≤ j → j ≤ b → dirty j = true)
    (hrunS : ∀ j, s ≤ j → j ≤ b → dirty j = true) : a = s := by
  by_contra hne
  rcases Nat.lt_or_gt_of_ne hne with hlt | hgt
  · rcases hs with hs | hs
    · omega
    · have := hrunA (s - 1) (by omega) (by omega)
      rw [this] at hs
      exact Bool.noConfusion hs
  · rcases ha with ha | ha
    · omega
    · have := hrunS (a - 1) (by omega) (by omega)
      rw [this] at ha
      exact Bool.noConfusion ha

theorem flags_cleared_step (f D : Nat → Bool) (k : Nat)
    (hf : ∀ j, f j = if j < k then false else D j) :
    ∀ j, Function.update f k false j = if j < k + 1 then false else D j := by
  intro j
  by_cases hj : j = k
  · subst hj
    simp
  · rw [Function.update_noteq hj, hf j]
    by_cases hlt : j < k
    · rw [if_pos hlt, if_pos (by omega)]
    · rw [if_neg hlt, if_neg (by omega)]

theorem flags_cleared_skip (f D : Nat → Bool) (k : Nat)
    (hf : ∀ j, f j = if j < k then false else D j) (hd : D k = false) :
    ∀ j, f j = if j < k + 1 then false else D j := by
  intro j
  rw [hf j]
  by_cases hj : j = k
  · subst hj
    simp [hd]
  · by_cases hlt : j < k
    · rw [if_pos hlt, if_pos (by omega)]
    · rw [if_neg hlt, if_neg (by omega)]

/-- A dirty slot met outside a segment opens a segment. -/
theorem uploadScan_open (vs0 v : VoxelSystem) (s k : Nat) (segs : List (Nat × Nat))
    (h : UploadScanInv vs0 k ⟨v, s, false⟩ segs) (hd : vs0._readVoxelDirtyArray k = true) :
    UploadScanInv vs0 (k + 1)
      ⟨{ v with _readVoxelDirtyArray := Function.update v._readVoxelDirtyArray k false }, k, true⟩
      segs where
  frame := by
    have hfr := h.frame
    simp only at hfr ⊢
    rw [hfr]
  trace := h.trace
  flags := flags_cleared_step _ _ k h.flags
  sound := by
    intro r hr
    obtain ⟨hc, hlt⟩ := h.sound r hr
    exact ⟨hc, by simpa [SegmentScan.settled] using hlt⟩
  complete := by
    intro a b hc hb
    by_cases hlt : b + 1 < k
    · exact h.complete a b hc hlt
    · have hbk : b + 1 = k := by omega
      have := hc.2.2.2
      rw [hbk, hd] at this
      exact Bool.noConfusion this
  sorted := h.sorted
  pending := by
    intro _
    simp only [SegmentScan.settled, if_true]
    refine ⟨Nat.lt_succ_self k, ?_, h.idle rfl⟩
    intro j h1 h2
    have hjk : j = k := by omega
    rw [hjk]
    exact hd
  idle := by intro hf; simp at hf

/-- A clean slot met outside a segment changes nothing. -/
theorem uploadScan_idle (vs0 v : VoxelSystem) (s k : Nat) (segs : List (Nat × Nat))
    (h : UploadScanInv vs0 k ⟨v, s, false⟩ segs) (hd : vs0._readVoxelDirtyArray k = false) :
    UploadScanInv vs0 (k + 1) ⟨v, s, false⟩ segs where
  frame := h.frame
  trace := h.trace
  flags := flags_cleared_skip _ _ k h.flags hd
  sound := by
    intro r hr
    obtain ⟨hc, hlt⟩ := h.sound r hr
    refine ⟨hc, ?_⟩
    simp only [SegmentScan.settled, Bool.false_eq_true, if_false] at hlt ⊢
    omega
  complete := by
    intro a b hc hb
    by_cases hlt : b + 1 < k
    · exact h.complete a b hc hlt
    · have hbk : k = b + 1 := by omega
      have hdb := hc.2.1 b hc.1 (Nat.le_refl b)
      rcases h.idle rfl with h0 | h1
      · omega
      · rw [hbk, Nat.add_sub_cancel, hdb] at h1
        exact Bool.noConfusion h1
  sorted := h.sorted
  pending := by intro hf; simp at hf
  idle := by
    intro _
    right
    rw [Nat.add_sub_cancel]
    exact hd

/-- A dirty slot met inside a segment extends the segment. -/
theorem uploadScan_extend (vs0 v : VoxelSystem) (s k : Nat) (segs : List (Nat × Nat))
    (h : UploadScanInv vs0 k ⟨v, s, true⟩ segs) (hd : vs0._readVoxelDirtyArray k = true) :
    UploadScanInv vs0 (k + 1)
      ⟨{ v with _readVoxelDirtyArray := Function.update v._readVoxelDirtyArray k false }, s, true⟩
      segs where
  frame := by
    have hfr := h.frame
    simp only at hfr ⊢
    rw [hfr]
  trace := h.trace
  flags := flags_cleared_step _ _ k h.flags
  sound := by
    intro r hr
    obtain ⟨hc, hlt⟩ := h.sound r hr
    exact ⟨hc, by simpa [SegmentScan.settled] using hlt⟩
  complete := by
    intro a b hc hb
    by_cases hlt : b + 1 < k
    · exact h.complete a b hc hlt
    · have hbk : b + 1 = k := by omega
      have := hc.2.2.2
      rw [hbk, hd] at this
      exact Bool.noConfusion this
  sorted := h.sorted
  pending := by
    intro _
    obtain ⟨h1, h2, h3⟩ := h.pending rfl
    simp only [SegmentScan.settled, if_true] at h1 h2 h3 ⊢
    refine ⟨by omega, ?_, h3⟩
    intro j hj1 hj2
    by_cases hjk : j = k
    · rw [hjk]; exact hd
    · exact h2 j hj1 (by omega)
  idle := by intro hf; simp at hf

/-- A clean slot met inside a segment closes the segment: it is handed over with the slot
before as its end. -/
theorem uploadScan_close (vs0 v : VoxelSystem) (s k : Nat) (segs : List (Nat × Nat))
    (h : UploadScanInv vs0 k ⟨v, s, true⟩ segs) (hd : vs0._readVoxelDirtyArray k = false) :
    UploadScanInv vs0 (k + 1)
      ⟨{ updateVBOSegment v s (k - 1) with
          _readVoxelDirtyArray :=
            Function.update (updateVBOSegment v s (k - 1))._readVoxelDirtyArray k false }, s, false⟩
      (segs ++ [(s, k - 1)]) := by
  obtain ⟨h1, h2, h3⟩ := h.pending rfl
  simp only [SegmentScan.settled, if_true] at h1 h2 h3
  exact
    { frame := by
        have hfr := h.frame
        simp only [updateVBOSegment] at hfr ⊢
        rw [hfr]
      trace := by
        have ht := h.trace
        simp only [updateVBOSegment, segmentEvents, List.map_append, List.map_cons, List.map_nil]
          at ht ⊢
        rw [ht, List.append_assoc]
      flags := flags_cleared_step _ _ k h.flags
      sound := by
        intro r hr
        rw [List.mem_append, List.mem_singleton] at hr
        simp only [SegmentScan.settled, Bool.false_eq_true, if_false]
        rcases hr with hr | hr
        · obtain ⟨hc, hlt⟩ := h.sound r hr
          simp only [SegmentScan.settled, if_true] at hlt
          exact ⟨hc, by omega⟩
        · subst hr
          refine ⟨⟨by omega, fun j hj1 hj2 => h2 j hj1 (by omega), h3, ?_⟩, by omega⟩
          have hk1 : k - 1 + 1 = k := by omega
          simp only [hk1]
          exact hd
      complete := by
        intro a b hc hb
        rw [List.mem_append, List.mem_singleton]
        by_cases hlt : b + 1 < k
        · exact Or.inl (h.complete a b hc hlt)
        · right
          have hbk : b = k - 1 := by omega
          have hsb : s ≤ b := by omega
          have has : a = s := run_start_unique vs0._readVoxelDirtyArray a s b hc.2.2.1 h3 hc.1 hsb
            hc.2.1 (fun j hj1 hj2 => h2 j hj1 (by omega))
          rw [has, hbk]
      sorted := by
        rw [List.pairwise_append]
        refine ⟨h.sorted, List.pairwise_singleton _ _, ?_⟩
        intro p hp q hq
        rw [List.mem_singleton] at hq
        subst hq
        have hlt := (h.sound p hp).2
        simp only [SegmentScan.settled, if_true] at hlt
        show p.2 < s
        omega
      pending := by intro hf; simp at hf
      idle := by
        intro _
        right
        rw [Nat.add_sub_cancel]
        exact hd }

/-- One iteration of the loop of updatePartialVBOs keeps the invariant. -/
theorem uploadScanStep_inv (vs0 : VoxelSystem) (st : SegmentScan) (k : Nat)
    (segs : List (Nat × Nat)) (h : UploadScanInv vs0 k st segs)
    (hk : k < GLBUFFER_INDEX_RANGE) :
    ∃ segs', UploadScanInv vs0 (k + 1) (updatePartialVBOsStep st k) segs' := by
  obtain ⟨v, s, b⟩ := st
  have hflag : v._readVoxelDirtyArray k = vs0._readVoxelDirtyArray k := by
    have := h.flags k
    simpa using this
  cases b with
  | false =>
    cases hd : vs0._readVoxelDirtyArray k with
    | true =>
      have hst : updatePartialVBOsStep ⟨v, s, false⟩ k =
          ⟨{ v with _readVoxelDirtyArray := Function.update v._readVoxelDirtyArray k false },
            k, true⟩ := by
        simp [updatePartialVBOsStep, hflag, hd]
      rw [hst]
      exact ⟨segs, uploadScan_open vs0 v s k segs h hd⟩
    | false =>
      have hst : updatePartialVBOsStep ⟨v, s, false⟩ k = ⟨v, s, false⟩ := by
        simp [updatePartialVBOsStep, hflag, hd]
      rw [hst]
      exact ⟨segs, uploadScan_idle vs0 v s k segs h hd⟩
  | true =>
    cases hd : vs0._readVoxelDirtyArray k with
    | true =>
      have hst : updatePartialVBOsStep ⟨v, s, true⟩ k =
          ⟨{ v with _readVoxelDirtyArray := Function.update v._readVoxelDirtyArray k false },
            s, true⟩ := by
        simp [updatePartialVBOsStep, hflag, hd]
      rw [hst]
      exact ⟨segs, uploadScan_extend vs0 v s k segs h hd⟩
    | false =>
      have hpos : 1 ≤ k := by
        have := (h.pending rfl).1
        simp only [SegmentScan.settled, if_true] at this
        omega
      have hsub : glBufferIndexSub k 1 = k - 1 := glBufferIndexSub_of_le k 1 hpos hk
      have hst : updatePartialVBOsStep ⟨v, s, true⟩ k =
          ⟨{ updateVBOSegment v s (k - 1) with
              _readVoxelDirtyArray :=
                Function.update (updateVBOSegment v s (k - 1))._readVoxelDirtyArray k false },
            s, false⟩ := by
        simp [updatePartialVBOsStep, hflag, hd, hsub]
      rw [hst]
      exact ⟨_, uploadScan_close vs0 v s k segs h hd⟩

theorem uploadScanFold_inv (vs0 : VoxelSystem) (n : Nat) (hn : n ≤ GLBUFFER_INDEX_RANGE) :
    ∃ segs, UploadScanInv vs0 n
      ((List.range n).foldl updatePartialVBOsStep { vs := vs0, segmentStart := 0, inSegment := false })
      segs := by
  induction n with
  | zero => exact ⟨[], uploadScanInv_init vs0⟩
  | succ k ih =>
    obtain ⟨segs, hinv⟩ := ih (by omega)
    rw [List.range_succ, List.foldl_append]
    exact uploadScanStep_inv vs0 _ k segs hinv (by omega)


/-- C22: updatePartialVBOs hands the GPU exactly the dirty segments. With the read-side
count a `glBufferIndex` value, the calls of updateVBOSegment it records are, in this order,
the segments of a list `segs` of inclusive bounds such that a pair of bounds is in the list
exactly when it is a maximal run of consecutive slots below the read-side count whose
read-side dirty flag is set (so no segment contains a clean slot), and the list is strictly
increasing (each run is handed over once); afterwards every read-side dirty flag below the
count is false, and nothing but the read-side dirty flags and the record of calls has
changed. -/
theorem updatePartialVBOs_uploads_dirty_runs (vs : VoxelSystem)
    (hcount : vs._voxelsInReadArrays < GLBUFFER_INDEX_RANGE) :
    ∃ segs : List (Nat × Nat),
      (updatePartialVBOs vs).trace = vs.trace ++ segmentEvents segs ∧
      (∀ a b, (a, b) ∈ segs ↔
        IsMaximalDirtyRun vs._readVoxelDirtyArray vs._voxelsInReadArrays a b) ∧
      segs.Pairwise (fun p q => p.2 < q.1) ∧
      (∀ i, i < vs._voxelsInReadArrays → (updatePartialVBOs vs)._readVoxelDirtyArray i = false) ∧
      updatePartialVBOs vs =
        { vs with
          _readVoxelDirtyArray := (updatePartialVBOs vs)._readVoxelDirtyArray
          trace := (updatePartialVBOs vs).trace } := by
  obtain ⟨segs, hinv⟩ := uploadScanFold_inv vs vs._voxelsInReadArrays (by omega)
  unfold updatePartialVBOs
  simp only
  generalize hst : (List.range vs._voxelsInReadArrays).foldl updatePartialVBOsStep
      { vs := vs, segmentStart := 0, inSegment := false } = st at hinv
  obtain ⟨v, s, b⟩ := st
  have hcnt : v._voxelsInReadArrays = vs._voxelsInReadArrays := by
    have hfr := hinv.frame
    simp only at hfr
    rw [hfr]
  cases b with
  | false =>
    simp only [Bool.false_eq_true, if_false]
    refine ⟨segs, hinv.trace, ?_, hinv.sorted, ?_, hinv.frame⟩
    · intro a b
      constructor
      · intro hmem
        obtain ⟨hc, hlt⟩ := hinv.sound (a, b) hmem
        simp only [SegmentScan.settled, Bool.false_eq_true, if_false] at hlt
        have hlt2 : b + 1 < vs._voxelsInReadArrays := hlt
        exact ⟨hc.1, by omega, hc.2.1, hc.2.2.1, Or.inr hc.2.2.2⟩
      · intro hmax
        obtain ⟨hab, hbn, hrun, hstart, hend⟩ := hmax
        by_cases hlast : b + 1 = vs._voxelsInReadArrays
        · exfalso
          have hdb := hrun b hab (Nat.le_refl b)
          rcases hinv.idle rfl with h0 | h1
          · omega
          · rw [← hlast, Nat.add_sub_cancel, hdb] at h1
            exact Bool.noConfusion h1
        · have hclean : vs._readVoxelDirtyArray (b + 1) = false := hend.resolve_left hlast
          exact hinv.complete a b ⟨hab, hrun, hstart, hclean⟩ (by omega)
    · intro i hi
      have := hinv.flags i
      simpa [hi] using this
  | true =>
    obtain ⟨h1, h2, h3⟩ := hinv.pending rfl
    simp only [SegmentScan.settled, if_true] at h1 h2 h3
    have h1n : vs._voxelsInReadArrays > s := h1
    have hsub : glBufferIndexSub v._voxelsInReadArrays 1 = vs._voxelsInReadArrays - 1 := by
      rw [hcnt]
      exact glBufferIndexSub_of_le _ 1 (by omega) hcount
    simp only [if_true, hsub]
    refine ⟨segs ++ [(s, vs._voxelsInReadArrays - 1)], ?_, ?_, ?_, ?_, ?_⟩
    · have ht := hinv.trace
      simp only [updateVBOSegment, segmentEvents, List.map_append, List.map_cons, List.map_nil]
        at ht ⊢
      rw [ht, List.append_assoc]
    · intro a b
      rw [List.mem_append, List.mem_singleton]
      constructor
      · rintro (hmem | hmem)
        · obtain ⟨hc, hlt⟩ := hinv.sound (a, b) hmem
          simp only [SegmentScan.settled, if_true] at hlt
          have hlt2 : b + 1 < s := hlt
          exact ⟨hc.1, by omega, hc.2.1, hc.2.2.1, Or.inr hc.2.2.2⟩
        · rw [Prod.mk.injEq] at hmem
          obtain ⟨ha, hb⟩ := hmem
          subst ha hb
          exact ⟨by omega, by omega, fun j hj1 hj2 => h2 j hj1 (by omega), h3,
            Or.inl (by omega)⟩
      · intro hmax
        obtain ⟨hab, hbn, hrun, hstart, hend⟩ := hmax
        by_cases hlast : b + 1 = vs._voxelsInReadArrays
        · right
          have hbk : b = vs._voxelsInReadArrays - 1 := by omega
          have hsb : b ≥ s := by omega
          have has : a = s := run_start_unique vs._readVoxelDirtyArray a s b hstart h3 hab hsb
            hrun (fun j hj1 hj2 => h2 j hj1 (by omega))
          rw [has, hbk]
        · left
          have hclean : vs._readVoxelDirtyArray (b + 1) = false := hend.resolve_left hlast
          exact hinv.complete a b ⟨hab, hrun, hstart, hclean⟩ (by omega)
    · rw [List.pairwise_append]
      refine ⟨hinv.sorted, List.pairwise_singleton _ _, ?_⟩
      intro p hp q hq
      rw [List.mem_singleton] at hq
      subst hq
      have hlt := (hinv.sound p hp).2
      simp only [SegmentScan.settled, if_true] at hlt
      show p.2 < s
      omega
    · intro i hi
      have := hinv.flags i
      simp only [updateVBOSegment]
      simpa [hi] using this
    · have hfr := hinv.frame
      simp only [updateVBOSegment] at hfr ⊢
      rw [hfr]

theorem updatePartialVBOs_uploads_dirty_runs_witness :
    (updatePartialVBOs dirtyReadSystem).trace =
      [Event.updateVBOSegment 0 1, Event.updateVBOSegment 3 3, Event.updateVBOSegment 5 5] ∧
    ∃ segs : List (Nat × Nat),
      (updatePartialVBOs dirtyReadSystem).trace = dirtyReadSystem.trace ++ segmentEvents segs ∧
      (∀ a b, (a, b) ∈ segs ↔
        IsMaximalDirtyRun dirtyReadSystem._readVoxelDirtyArray
          dirtyReadSystem._voxelsInReadArrays a b) ∧
      segs.Pairwise (fun p q => p.2 < q.1) ∧
      (∀ i, i < dirtyReadSystem._voxelsInReadArrays →
        (updatePartialVBOs dirtyReadSystem)._readVoxelDirtyArray i = false) ∧
      updatePartialVBOs dirtyReadSystem =
        { dirtyReadSystem with
          _readVoxelDirtyArray := (updatePartialVBOs dirtyReadSystem)._readVoxelDirtyArray
          trace := (updatePartialVBOs dirtyReadSystem).trace } :=
  ⟨by decide, updatePartialVBOs_uploads_dirty_runs dirtyReadSystem (by decide)⟩

/-! ## The don't-recurse bag within one pass -/

end Hifi
